import Mathlib

/-!
# WINC15x0 HTTP client demo (`main21.c`): file sink, transfer orchestrator, entity provider

A shallow embedding of `src/src/main21.c`:

* the state tracker (`init_state`, `clear_state`, `add_state`, `is_state_set`);
* the unique naming resolver (`is_exist_file`, `rename_to_unique`);
* the file persistence sink (`store_file_packet`);
* the transfer orchestrator (`start_download`, `start_upload_file`,
  `start_post_data`, `http_client_callback`);
* the entity streaming provider (`_example_http_set_default_entity` and the
  `_example_http_*` callbacks).

Conventions of the embedding.

* A C character buffer is a `List Char`, the image of the memory it occupies;
  the C string it holds is the part before the first NUL byte (`cstr`).
  A store past the end of an array is not checked by C: the image simply
  grows (`poke`), so an overflow shows as an image longer than the declared
  array.
* A nullable pointer is an `Option`.
* `uint16_t` and `uint32_t` objects are natural numbers reduced modulo `2^16`
  and `2^32` at every assignment (`u16`, `u32`).
* Constants, macros and the `download_state` enumeration come from `main.h`,
  which is not among the sources; they are the fields of `Config`.
* The FatFs volume is a list of the file names present on it; the outcome of
  the calls that can fail for reasons outside the program (`f_open` for
  creation, `f_write`) is supplied by the caller of the model (`StorageReply`).
-/

namespace Main21

/-! ## C strings and buffers -/

/-- The NUL byte that terminates a C string. -/
def NUL : Char := Char.ofNat 0

/-- Value kept by a `uint16_t` object after an assignment. -/
def u16 (x : Int) : Nat := (x % 65536).toNat

/-- Value kept by a `uint32_t` (or `size_t`) object after an assignment. -/
def u32 (x : Int) : Nat := (x % 4294967296).toNat

/-- The C string stored at the start of a memory image: the bytes before the
first NUL. -/
def cstr (buf : List Char) : List Char := buf.takeWhile (fun c => c != NUL)

/-- C `strlen`. -/
def strlen (buf : List Char) : Nat := (cstr buf).length

/-- Store the bytes `data` into the image `buf` from offset `off` on. Bytes
between the end of the image and `off` read as NUL. -/
def poke (buf : List Char) (off : Nat) (data : List Char) : List Char :=
  buf.take off ++ List.replicate (off - buf.length) NUL ++ data ++ buf.drop (off + data.length)

/-- C `strcpy(&dst[off], src)`: the string and its terminator. -/
def strcpy (dst : List Char) (off : Nat) (src : List Char) : List Char :=
  poke dst off (cstr src ++ [NUL])

/-- C `strncpy(&dst[off], src, n)`: at most `n` bytes of the string, padded
with NUL up to `n` bytes when the string is shorter. -/
def strncpy (dst : List Char) (off : Nat) (src : List Char) (n : Nat) : List Char :=
  poke dst off ((cstr src).take n ++ List.replicate (n - strlen src) NUL)

/-- C `memset(dst, c, n)`. -/
def memset (dst : List Char) (c : Char) (n : Nat) : List Char :=
  poke dst 0 (List.replicate n c)

/-- Scan of `strrchr`: offset of the last `c` seen so far. -/
def strrchr_scan (c : Char) : List Char → Nat → Option Nat → Option Nat
  | [], _, acc => acc
  | x :: xs, i, acc => strrchr_scan c xs (i + 1) (if x = c then some i else acc)

/-- C `strrchr(buf, c)` as the offset of the last occurrence of `c` in the
string (`none` for a null result); the terminator itself matches `c = NUL`. -/
def strrchr (buf : List Char) (c : Char) : Option Nat :=
  if c = NUL then some (strlen buf) else strrchr_scan c (cstr buf) 0 none

/-! ## Configuration (`main.h`) -/

/-- The constants of `main.h` (not among the sources) that the embedded
functions use. -/
structure Config where
  /-- Enumerator `NOT_READY` of `download_state`. -/
  NOT_READY : Nat
  /-- Enumerator `STORAGE_READY`. -/
  STORAGE_READY : Nat
  /-- Enumerator `WIFI_CONNECTED`. -/
  WIFI_CONNECTED : Nat
  /-- Enumerator `GET_REQUESTED`. -/
  GET_REQUESTED : Nat
  /-- Enumerator `DOWNLOADING`. -/
  DOWNLOADING : Nat
  /-- Enumerator `COMPLETED`. -/
  COMPLETED : Nat
  /-- Enumerator `CANCELED`. -/
  CANCELED : Nat
  /-- Maximum file name length. -/
  MAIN_MAX_FILE_NAME_LENGTH : Nat
  /-- Maximum file extension length. -/
  MAIN_MAX_FILE_EXT_LENGTH : Nat
  /-- Logical unit number of the SD/MMC card. -/
  LUN_ID_SD_MMC_0_MEM : Nat
  /-- URL of the file to download. -/
  MAIN_HTTP_FILE_URL : List Char
  deriving DecidableEq

/-- `NUMBRING_MAX` of `rename_to_unique`. -/
def NUMBRING_MAX : Nat := 3

/-- `ADDITION_SIZE` of `rename_to_unique`: the '-' and the digits. -/
def ADDITION_SIZE : Nat := NUMBRING_MAX + 1

/-- Modelled from the spec: the macro `MAIN_ZERO_FMT` of `main.h` (not among
the sources), the `printf` format of the "zero-padded 3-digit counter";
`MAIN_ZERO_FMT width i` is what `sprintf` prints for `i` under it: the decimal
digits of `i`, padded on the left with '0' to `width` characters. -/
def MAIN_ZERO_FMT (width : Nat) (i : Nat) : List Char :=
  List.replicate (width - (Nat.toDigits 10 i).length) '0' ++ Nat.toDigits 10 i

/-! ## Unique naming resolver -/

/-- Embedding of `is_exist_file`. `fs name` is the outcome of
`f_open(&file_object, name, FA_OPEN_EXISTING) == FR_OK`, that is, whether a
file of that name is on the volume. -/
def is_exist_file (fs : List Char → Bool) (fp : Option Unit)
    (file_path_name : Option (List Char)) : Bool :=
  match fp, file_path_name with
  | some _, some path => fs (cstr path)
  | _, _ => false

/-- The value of `count` after the first loop of `rename_to_unique`. -/
def numbering_count : Nat := u16 (u16 (u16 (1 * 10) * 10) * 10)

/-- The second loop of `rename_to_unique`, `for (i = 1; i < count; i++)`, with
`remaining = count - i` iterations still to run. Returns the buffer `name`
of the first iteration whose name is not on the volume. -/
def rename_loop (fs : List Char → Bool) (fp : Option Unit) (valid_ext : Bool)
    (ext : List Char) (name_len : Nat) :
    Nat → Nat → List Char → List Char → Option (List Char)
  | 0, _, _, _ => none
  | remaining + 1, i, numbering, name =>
    let numbering := poke numbering 0 (MAIN_ZERO_FMT NUMBRING_MAX i ++ [NUL])
    let name := strncpy name name_len numbering NUMBRING_MAX
    let name := if valid_ext then strcpy name (name_len + NUMBRING_MAX) ext else name
    if !is_exist_file fs fp (some name) then some name
    else rename_loop fs fp valid_ext ext name_len remaining (u16 (i + 1)) numbering name

/-- The branch ladder of `rename_to_unique` that follows `strrchr`: it fixes
`valid_ext`, fills the buffer `ext` and sets `name_len`, the number of bytes
that `strncpy` then moves from the candidate to `name`. -/
def rename_split (cfg : Config) (path : List Char) : Bool × List Char × Nat :=
  let ext := List.replicate (cfg.MAIN_MAX_FILE_EXT_LENGTH + 1) NUL
  match strrchr path '.' with
  | some p =>
    let ext_len := u16 (strlen (path.drop p))
    if ext_len < cfg.MAIN_MAX_FILE_EXT_LENGTH then
      if u32 ((strlen path : Int) - ext_len)
          > u32 ((cfg.MAIN_MAX_FILE_NAME_LENGTH : Int) - ADDITION_SIZE) then
        (true, strcpy ext 0 (path.drop p),
          u16 ((cfg.MAIN_MAX_FILE_NAME_LENGTH : Int) - ADDITION_SIZE - ext_len))
      else (true, strcpy ext 0 (path.drop p), u16 p)
    else (false, ext, u16 ((cfg.MAIN_MAX_FILE_NAME_LENGTH : Int) - ADDITION_SIZE))
  | none => (false, ext, u16 ((cfg.MAIN_MAX_FILE_NAME_LENGTH : Int) - ADDITION_SIZE))

/-- Embedding of `rename_to_unique`. Returns the `bool` result and the
buffer `file_path_name` points to as the call leaves it. A `size_t` holds the
length of every string in memory, so `strlen` itself is never reduced; the
differences the code forms from it are. -/
def rename_to_unique (cfg : Config) (fs : List Char → Bool) (fp : Option Unit)
    (file_path_name : Option (List Char)) (max_len : Nat) : Bool × Option (List Char) :=
  match file_path_name with
  | none => (false, none)
  | some path =>
    if !is_exist_file fs fp (some path) then (true, some path)
    else if strlen path > cfg.MAIN_MAX_FILE_NAME_LENGTH then (false, some path)
    else
      let name := List.replicate (cfg.MAIN_MAX_FILE_NAME_LENGTH + 1) NUL
      let numbering := List.replicate (NUMBRING_MAX + 1) NUL
      match rename_split cfg path with
      | (valid_ext, ext, name_len) =>
        let name := strncpy name 0 path name_len
        let name := poke name name_len ['-']
        let name_len := u16 (name_len + 1)
        match rename_loop fs fp valid_ext ext name_len (numbering_count - 1) 1 numbering name with
        | some name => (true, some (strcpy (memset path NUL max_len) 0 name))
        | none => (false, some path)

/-! ## State tracker and session state -/

/-- Result code of a FatFs call: success, or one of the failure codes. -/
inductive FRESULT
  | FR_OK
  | FR_ERR (code : Nat)
  deriving DecidableEq

/-- A FatFs call that `store_file_packet` issues on the session file object.
(The `f_open`/`f_close` pair inside `is_exist_file` only answers whether a name
is on the volume; it is the argument `fs` of the resolver and is not logged.) -/
inductive FileOp
  /-- `f_open(&file_object, name, FA_CREATE_ALWAYS | FA_WRITE)` and its result. -/
  | f_open_create (name : List Char) (ret : FRESULT)
  /-- `f_write(&file_object, data, length, &wsize)` and its result. -/
  | f_write (length : Nat) (ret : FRESULT)
  /-- `f_close(&file_object)`. -/
  | f_close
  deriving DecidableEq

/-- What the storage answers to the calls of one `store_file_packet`
invocation: the result of the creating `f_open`, the result of `f_write`, and
the byte count `f_write` reports in `wsize`. -/
structure StorageReply where
  /-- Result of `f_open(..., FA_CREATE_ALWAYS | FA_WRITE)`. -/
  f_open_ret : FRESULT
  /-- Result of `f_write`. -/
  f_write_ret : FRESULT
  /-- Bytes written, as stored in `wsize`. -/
  wsize : Nat
  deriving DecidableEq

/-- The static variables of `main21.c` that the sink uses, the names present
on the storage volume, and the log of the calls issued on the session file. -/
structure State where
  /-- `down_state`, the bitmask of transfer flags. -/
  down_state : Nat
  /-- `file_object`: the name of the file it has open, if any. -/
  file_object : Option (List Char)
  /-- `http_file_size`, the expected size. -/
  http_file_size : Nat
  /-- `received_file_size`. -/
  received_file_size : Nat
  /-- The buffer `save_file_name`. -/
  save_file_name : List Char
  /-- Names of the files present on the volume. -/
  volume : List (List Char)
  /-- Calls issued on the session file so far, oldest first. -/
  log : List FileOp
  deriving DecidableEq

/-- Embedding of `init_state`. -/
def init_state (cfg : Config) (s : State) : State :=
  { s with down_state := cfg.NOT_READY }

/-- Embedding of `clear_state`: `down_state &= ~mask`. The mask is a
non-negative value, on which `x & ~m` keeps the bits of `x` that are not in
`m`: that is `x ^^^ (x &&& m)` (see `clear_state_testBit`). -/
def clear_state (s : State) (mask : Nat) : State :=
  { s with down_state := s.down_state ^^^ (s.down_state &&& mask) }

/-- Embedding of `add_state`: `down_state |= mask`. -/
def add_state (s : State) (mask : Nat) : State :=
  { s with down_state := s.down_state ||| mask }

/-- Embedding of `is_state_set`. -/
def is_state_set (s : State) (mask : Nat) : Bool :=
  (s.down_state &&& mask) != 0

/-! ## File persistence sink -/

/-- The loop `while (*cp != '/') cp--` of `store_file_packet`, started with
`cp` at offset `cp` of the URL: the offset where it stops. Stepping below the
first character of the URL leaves the string literal; that is `none`. -/
def scan_back (url : List Char) : Nat → Option Nat
  | 0 => if url[0]? = some '/' then some 0 else none
  | cp + 1 => if url[cp + 1]? = some '/' then some (cp + 1) else scan_back url cp

/-- The buffer `save_file_name` as the first block of `store_file_packet`
leaves it when the URL has a last path segment: the drive prefix, the
segment that follows the '/' at offset `cp` of the URL, and whatever
`rename_to_unique` (whose result the code does not look at) made of it. -/
def session_file_name (cfg : Config) (s : State) (cp : Nat) : List Char :=
  let url := cstr cfg.MAIN_HTTP_FILE_URL
  let name := poke s.save_file_name 0 [Char.ofNat ((cfg.LUN_ID_SD_MMC_0_MEM + 48) % 256)]
  let name := poke name 1 [':']
  let name := strcpy name 2 (url.drop (cp + 1))
  ((rename_to_unique cfg (fun n => decide (n ∈ s.volume)) (some ()) (some name)
    (cfg.MAIN_MAX_FILE_NAME_LENGTH % 256)).2).getD name

/-- The block `if (!is_state_set(DOWNLOADING)) { ... }` of `store_file_packet`:
name the session file after the last path segment of the URL, make the name
unique, create the file. The `Bool` tells whether the function goes on to the
write (`false`: it has returned). -/
def store_file_packet_create (cfg : Config) (s : State) (io : StorageReply) :
    Option (State × Bool) :=
  let url := cstr cfg.MAIN_HTTP_FILE_URL
  match scan_back url (strlen url) with
  | none => none
  | some cp =>
    if strlen (url.drop cp) > 1 then
      let name := session_file_name cfg s cp
      let s := { s with save_file_name := name,
                        log := s.log ++ [FileOp.f_open_create (cstr name) io.f_open_ret] }
      if io.f_open_ret ≠ FRESULT.FR_OK then
        some ({ s with file_object := none }, false)
      else
        let s := { s with file_object := some (cstr name),
                          volume := if cstr name ∈ s.volume then s.volume
                                    else cstr name :: s.volume,
                          received_file_size := 0 }
        some (add_state s cfg.DOWNLOADING, true)
    else
      let name := poke s.save_file_name 0 [Char.ofNat ((cfg.LUN_ID_SD_MMC_0_MEM + 48) % 256)]
      let name := poke name 1 [':']
      some (add_state { s with save_file_name := name } cfg.CANCELED, false)

/-- The block `if (data != NULL) { ... }` of `store_file_packet`: append the
packet, close and cancel on a write error, close and complete once the
received size has reached the expected size. (The LED output is not part of
the model.) -/
def store_file_packet_write (cfg : Config) (s : State) (length : Nat) (io : StorageReply) :
    State :=
  let s := { s with log := s.log ++ [FileOp.f_write length io.f_write_ret] }
  if io.f_write_ret ≠ FRESULT.FR_OK then
    add_state { s with file_object := none, log := s.log ++ [FileOp.f_close] } cfg.CANCELED
  else
    let s := { s with received_file_size := u32 (s.received_file_size + io.wsize) }
    if s.received_file_size ≥ s.http_file_size then
      add_state { s with file_object := none, log := s.log ++ [FileOp.f_close] } cfg.COMPLETED
    else s

/-- Embedding of `store_file_packet`. `data` is the packet pointer (`none` for
NULL), `length` the `uint32_t` byte count; `none` as a result means that the
scan for '/' left the URL literal. -/
def store_file_packet (cfg : Config) (s : State) (data : Option (List Char)) (length : Nat)
    (io : StorageReply) : Option State :=
  if data = none ∨ length < 1 then some s
  else
    let entered : Option (State × Bool) :=
      if !is_state_set s cfg.DOWNLOADING then store_file_packet_create cfg s io
      else some (s, true)
    match entered with
    | none => none
    | some (s, false) => some s
    | some (s, true) =>
      if data ≠ none then some (store_file_packet_write cfg s length io) else some s

/-- One `store_file_packet` call: the packet pointer, the length and the
answers of the storage. -/
structure StoreCall where
  /-- Argument `data`. -/
  data : Option (List Char)
  /-- Argument `length`. -/
  length : Nat
  /-- Answers of the storage during the call. -/
  io : StorageReply
  deriving DecidableEq

/-- A sequence of `store_file_packet` calls, one after the other. -/
def store_file_packets (cfg : Config) : State → List StoreCall → Option State
  | s, [] => some s
  | s, c :: rest =>
    match store_file_packet cfg s c.data c.length c.io with
    | none => none
    | some s1 => store_file_packets cfg s1 rest

/-! ## Transfer orchestrator and entity streaming provider -/

/-- Modelled from the spec: the enumeration `fileFormat` (declared outside the
sources), the "content-type enumeration": none (a form field), the binary-file
format and the text-file format. -/
inductive fileFormat
  | HTTP_FILE_FORMAT_NONE
  | HTTP_FILE_FORMAT_FIT
  | HTTP_FILE_FORMAT_TXT
  deriving DecidableEq

/-- The request methods of the HTTP client library that the program uses. -/
inductive http_method
  | HTTP_METHOD_GET
  | HTTP_METHOD_POST
  deriving DecidableEq

/-- A FatFs file object opened for reading: the bytes of the file (their
number is `fsize`) and the read pointer. -/
structure FIL where
  /-- Bytes of the file. -/
  contents : List Char
  /-- Read pointer `fptr`. -/
  fptr : Nat
  deriving DecidableEq

/-- The field `fsize` of a file object, a 32-bit `DWORD`. -/
def FIL.fsize (file : FIL) : Nat := u32 file.contents.length

/-- The fields of `struct http_entity` that the program sets besides the
callbacks, which are the same functions in every entity; `priv_data` is the
content of the buffer it points to. -/
structure http_entity where
  /-- Field `file_format`. -/
  file_format : fileFormat
  /-- Field `is_chunked`. -/
  is_chunked : Nat
  /-- Field `priv_data` (`none` for NULL). -/
  priv_data : Option (List Char)
  /-- Field `file_object` when `f_open` has opened it. -/
  file_object : Option FIL
  deriving DecidableEq

/-- The arguments of one `http_client_send_request` call. -/
structure Request where
  /-- Argument `url`. -/
  url : List Char
  /-- Argument `method`. -/
  method : http_method
  /-- Argument `entity` (`none` for NULL). -/
  entity : Option http_entity
  deriving DecidableEq

/-- The constants the orchestrator and the entity provider use on top of
`Config`: macros of `main.h`, `EAGAIN` of `errno.h`, and whether the macro
`STORE_TO_NVM` is defined. None of them is among the sources. -/
structure AppConfig extends Config where
  /-- URL of the upload and post requests. -/
  MAIN_HTTP_POST_URL : List Char
  /-- Size of the receive buffer. -/
  MAIN_BUFFER_MAX_SIZE : Nat
  /-- The `errno` value `EAGAIN`. -/
  EAGAIN : Int
  /-- The multipart boundary marker. -/
  EXAMPLE_HTTP_CONTENT_BOUNDARY : List Char
  /-- Content type of multipart form data. -/
  EXAMPLE_HTTP_FORM_DATA_CONTENT_TYPE : List Char
  /-- Content type of a URL-encoded form. -/
  EXAMPLE_HTTP_FORM_URLENCODED_CONTENT_TYPE : List Char
  /-- Whether `STORE_TO_NVM` is defined. -/
  STORE_TO_NVM : Bool
  deriving DecidableEq

/-- The program state of the orchestrator: the state of the sink, the
requests handed to `http_client_send_request` so far (oldest first), and the
remaining static variables. -/
structure App where
  /-- State of the tracker and the sink. -/
  core : State
  /-- Requests issued so far, oldest first. -/
  requests : List Request
  /-- The global `g_http_entity`. -/
  g_http_entity : http_entity
  /-- The buffer `send_buf`. -/
  send_buf : List Char
  /-- The buffer `body_str`. -/
  body_str : List Char
  /-- The buffer `http_url`. -/
  http_url : List Char
  /-- The static `read_length` of `_example_http_read_file`, as the 32-bit
  pattern it holds. -/
  read_length : Nat
  deriving DecidableEq

/-- The call `http_client_send_request(&http_client_module_inst, url, method,
entity, NULL)`: the request is recorded. -/
def http_client_send_request (a : App) (url : List Char) (method : http_method)
    (entity : Option http_entity) : App :=
  { a with requests := a.requests ++ [Request.mk url method entity] }

/-- Embedding of `start_download`. -/
def start_download (cfg : AppConfig) (a : App) : App :=
  if !is_state_set a.core cfg.STORAGE_READY then a
  else if !is_state_set a.core cfg.WIFI_CONNECTED then a
  else if is_state_set a.core cfg.GET_REQUESTED then a
  else if is_state_set a.core cfg.DOWNLOADING then a
  else http_client_send_request a cfg.MAIN_HTTP_FILE_URL http_method.HTTP_METHOD_GET none

/-- Embedding of `_example_http_set_default_entity`: the global entity is
cleared and its fields are set. -/
def _example_http_set_default_entity (a : App) : App :=
  { a with g_http_entity :=
      { file_format := fileFormat.HTTP_FILE_FORMAT_NONE, is_chunked := 0,
        priv_data := none, file_object := none } }

/-- C `strstr(hay, needle)` on two strings: the offset of the first
occurrence, `none` for a null result. -/
def strstr_scan (needle : List Char) : List Char → Nat → Option Nat
  | [], i => if needle = [] then some i else none
  | c :: hay, i =>
    if needle.isPrefixOf (c :: hay) then some i else strstr_scan needle hay (i + 1)

/-- C `strstr` on two buffers. -/
def strstr (hay needle : List Char) : Option Nat :=
  strstr_scan (cstr needle) (cstr hay) 0

/-- Value of an `int32_t` (or `int`) object after an assignment. -/
def i32 (x : Int) : Int := (x + 2147483648) % 4294967296 - 2147483648

/-- Embedding of `_example_http_get_contents_type`. -/
def _example_http_get_contents_type (cfg : AppConfig) (priv_data : List Char) : List Char :=
  if strstr priv_data cfg.EXAMPLE_HTTP_CONTENT_BOUNDARY ≠ none then
    cfg.EXAMPLE_HTTP_FORM_DATA_CONTENT_TYPE
  else cfg.EXAMPLE_HTTP_FORM_URLENCODED_CONTENT_TYPE

/-- Embedding of `_example_http_get_contents_length`. -/
def _example_http_get_contents_length (priv_data : List Char) : Int :=
  i32 (strlen priv_data)

/-- Embedding of `_example_http_read`: the `int` result and the buffer.
`memcpy` takes its count as a `size_t`. -/
def _example_http_read (priv_data : Option (List Char)) (buffer : List Char)
    (_size _written : Nat) : Int × List Char :=
  match priv_data with
  | none => (0, buffer)
  | some p =>
    let length := i32 (strlen p)
    (length, poke buffer 0 ((cstr p).take (u32 length)))

/-- What the storage answers to one `f_read`: the result code and the byte
count it reports in `byte_read`. -/
structure ReadReply where
  /-- Result of `f_read`. -/
  ret : FRESULT
  /-- Bytes read, as stored in `byte_read`. -/
  byte_read : Nat
  deriving DecidableEq

/-- What one `_example_http_read_file` call leaves: the `int` result, the
buffer, the file object and the static `read_length`. -/
structure ReadFileResult where
  /-- Returned byte count. -/
  ret : Int
  /-- The caller's buffer after the call. -/
  buffer : List Char
  /-- The file object after the call. -/
  file : FIL
  /-- The static `read_length` after the call. -/
  read_length : Nat
  deriving DecidableEq

/-- The closing boundary `sprintf(buffer, "%s%s%s", "\r\n", boundary, "--\r\n")`
prints. -/
def closing_boundary (cfg : AppConfig) : List Char :=
  ['\r', '\n'] ++ cstr cfg.EXAMPLE_HTTP_CONTENT_BOUNDARY ++ ['-', '-', '\r', '\n']

/-- Embedding of `_example_http_read_file`. `read_length` is the static
cursor at entry, `io` what the storage answers to an `f_read` of the given
byte count; a successful `f_read` stores the bytes that follow the read
pointer and advances it. The cursor is an `int` that only meets unsigned
operands: it is kept as its 32-bit pattern. -/
def _example_http_read_file (cfg : AppConfig) (read_length : Nat) (priv_data : List Char)
    (file : FIL) (buffer : List Char) (size _written : Nat) (io : Nat → ReadReply) :
    ReadFileResult :=
  let buffer0 := memset buffer NUL size
  if file.fsize = read_length then
    let buffer1 := poke buffer0 0 (closing_boundary cfg ++ [NUL])
    { ret := i32 (strlen buffer1), buffer := buffer1, file := file, read_length := read_length }
  else
    let length : Int := if read_length = 0 then i32 (strlen priv_data) else 0
    let buffer1 :=
      if read_length = 0 then poke buffer0 0 ((cstr priv_data).take (u32 length)) else buffer0
    let off : Nat := u32 length
    let size1 : Nat := if read_length = 0 then u32 ((size : Int) - length) else size
    if u32 ((file.fsize : Int) - read_length) = 0 then
      { ret := 0, buffer := buffer1, file := file, read_length := read_length }
    else
      let btr : Nat :=
        if u32 ((file.fsize : Int) - read_length) ≥ size1 then size1
        else u32 ((file.fsize : Int) - read_length)
      let reply := io btr
      if reply.ret ≠ FRESULT.FR_OK then
        { ret := 0, buffer := buffer1, file := file, read_length := read_length }
      else
        let data := (file.contents.drop file.fptr).take reply.byte_read
        let byte_read : Nat :=
          if length > 0 then u32 ((reply.byte_read : Int) + length) else reply.byte_read
        { ret := i32 byte_read,
          buffer := poke buffer1 off data,
          file := { file with fptr := file.fptr + reply.byte_read },
          read_length := u32 ((read_length : Int) + reply.byte_read) }

/-- Embedding of `_example_http_close`, which does nothing. -/
def _example_http_close (a : App) : App := a

/-- `sprintf(send_buf, "%s%s%s%s%s%s%s", ...)`: the seven strings and the
terminator. -/
def sprintf7 (dst p1 p2 p3 p4 p5 p6 p7 : List Char) : List Char :=
  poke dst 0 (cstr p1 ++ cstr p2 ++ cstr p3 ++ cstr p4 ++ cstr p5 ++ cstr p6 ++ cstr p7
    ++ [NUL])

/-- Embedding of `start_upload_file`. `opened` is the outcome of
`f_open(&entity->file_object, file_name, FA_OPEN_EXISTING | FA_READ)`: the
file object, or `none` when the call fails. -/
def start_upload_file (cfg : AppConfig) (a : App) (file_name : List Char)
    (file_format : fileFormat) (key value : List Char) (opened : Option FIL) : App :=
  if !is_state_set a.core cfg.STORAGE_READY then a
  else if !is_state_set a.core cfg.WIFI_CONNECTED then a
  else if is_state_set a.core cfg.GET_REQUESTED then a
  else if is_state_set a.core cfg.DOWNLOADING then a
  else
    let send_buf :=
      if file_format = fileFormat.HTTP_FILE_FORMAT_NONE then
        sprintf7 a.send_buf cfg.EXAMPLE_HTTP_CONTENT_BOUNDARY
          "\r\nContent-Disposition: form-data; name=\"".toList key "\"\r\n\r\n".toList value
          "\r\n".toList cfg.EXAMPLE_HTTP_CONTENT_BOUNDARY
      else if file_format = fileFormat.HTTP_FILE_FORMAT_FIT then
        sprintf7 a.send_buf cfg.EXAMPLE_HTTP_CONTENT_BOUNDARY
          "\r\nContent-Disposition: form-data; name=\"".toList key "\"; filename=\"".toList
          file_name "\"\r\n".toList "Content-Type: application/octet-stream\r\n\r\n".toList
      else
        sprintf7 a.send_buf cfg.EXAMPLE_HTTP_CONTENT_BOUNDARY
          "\r\nContent-Disposition: form-data; name=\"".toList key "\"; filename=\"".toList
          file_name "\"\r\n".toList "Content-Type: text/plain\r\n\r\n".toList
    let a := _example_http_set_default_entity { a with send_buf := send_buf }
    let entity : http_entity :=
      { a.g_http_entity with file_format := file_format, priv_data := some send_buf }
    if file_format ≠ fileFormat.HTTP_FILE_FORMAT_NONE then
      match opened with
      | none => { a with g_http_entity := entity }
      | some file =>
        let entity := { entity with file_object := some file }
        http_client_send_request { a with g_http_entity := entity } cfg.MAIN_HTTP_POST_URL
          http_method.HTTP_METHOD_POST (some entity)
    else
      http_client_send_request { a with g_http_entity := entity } cfg.MAIN_HTTP_POST_URL
        http_method.HTTP_METHOD_POST (some entity)

/-- The loop of `start_post_data` over the keys, `remaining` iterations from
index `i` on. `sprintf(body_str, "%s&", body_str)` and
`sprintf(body_str, "%s%s=%s", body_str, &key[i], &value[i])` print into the
buffer they read: the prints are taken to append. A row beyond the arrays
reads as the empty string. -/
def post_body (key value : List (List Char)) : Nat → Nat → List Char → List Char
  | 0, _, body_str => body_str
  | remaining + 1, i, body_str =>
    let body_str :=
      if i > 0 then poke body_str 0 (cstr body_str ++ ['&'] ++ [NUL]) else body_str
    let body_str := poke body_str 0
      (cstr body_str ++ cstr (key.getD i []) ++ ['='] ++ cstr (value.getD i []) ++ [NUL])
    post_body key value remaining (i + 1) body_str

/-- Embedding of `start_post_data`; `key_num` is an `int`. -/
def start_post_data (cfg : AppConfig) (a : App) (key value : List (List Char))
    (key_num : Int) : App :=
  if !is_state_set a.core cfg.WIFI_CONNECTED then a
  else if is_state_set a.core cfg.GET_REQUESTED then a
  else if is_state_set a.core cfg.DOWNLOADING then a
  else if key_num > 0 then
    let body_str := post_body key value key_num.toNat 0 a.body_str
    let a := _example_http_set_default_entity { a with body_str := body_str }
    let entity : http_entity := { a.g_http_entity with priv_data := some body_str }
    http_client_send_request { a with g_http_entity := entity } a.http_url
      http_method.HTTP_METHOD_POST (some entity)
  else
    http_client_send_request a a.http_url http_method.HTTP_METHOD_POST none

/-- An event of the HTTP client with the fields of `union http_client_data`
that belong to it. -/
inductive ClientEvent
  /-- `HTTP_CLIENT_CALLBACK_SOCK_CONNECTED`. -/
  | SOCK_CONNECTED
  /-- `HTTP_CLIENT_CALLBACK_REQUESTED`. -/
  | REQUESTED
  /-- `HTTP_CLIENT_CALLBACK_RECV_RESPONSE` with `recv_response`. -/
  | RECV_RESPONSE (response_code : Nat) (content_length : Nat) (content : Option (List Char))
  /-- `HTTP_CLIENT_CALLBACK_RECV_CHUNKED_DATA` with `recv_chunked_data`. -/
  | RECV_CHUNKED_DATA (length : Nat) (data : Option (List Char)) (is_complete : Nat)
  /-- `HTTP_CLIENT_CALLBACK_DISCONNECTED` with `disconnected.reason`. -/
  | DISCONNECTED (reason : Int)
  /-- Any other value of `type`: no `case` of the `switch` matches. -/
  | OTHER (type : Int)
  deriving DecidableEq

/-- `store_file_packet` as the callback calls it: only when `STORE_TO_NVM` is
defined. -/
def store_if_nvm (cfg : AppConfig) (a : App) (data : Option (List Char)) (length : Nat)
    (io : StorageReply) : Option App :=
  if cfg.STORE_TO_NVM then
    (store_file_packet cfg.toConfig a.core data length io).map (fun s => { a with core := s })
  else some a

/-- Embedding of `http_client_callback`. `io` is what the storage answers
during the call; `none` as a result comes from `store_file_packet`. -/
def http_client_callback (cfg : AppConfig) (a : App) (ev : ClientEvent) (io : StorageReply) :
    Option App :=
  match ev with
  | ClientEvent.SOCK_CONNECTED => some a
  | ClientEvent.REQUESTED => some { a with core := add_state a.core cfg.GET_REQUESTED }
  | ClientEvent.RECV_RESPONSE response_code content_length content =>
    if response_code = 200 then
      let a := { a with core := { a.core with http_file_size := content_length,
                                              received_file_size := 0 } }
      if content_length ≤ cfg.MAIN_BUFFER_MAX_SIZE then
        (store_if_nvm cfg a content content_length io).map
          (fun a => { a with core := add_state a.core cfg.COMPLETED })
      else some a
    else some { a with core := add_state a.core cfg.CANCELED }
  | ClientEvent.RECV_CHUNKED_DATA length data is_complete =>
    (store_if_nvm cfg a data length io).map
      (fun a => if is_complete ≠ 0 then { a with core := add_state a.core cfg.COMPLETED }
        else a)
  | ClientEvent.DISCONNECTED reason =>
    if reason = -cfg.EAGAIN then
      let a :=
        if is_state_set a.core cfg.DOWNLOADING then
          let closed : State :=
            { a.core with file_object := none, log := a.core.log ++ [FileOp.f_close] }
          { a with core := clear_state closed cfg.DOWNLOADING }
        else a
      let a :=
        if is_state_set a.core cfg.GET_REQUESTED then
          { a with core := clear_state a.core cfg.GET_REQUESTED }
        else a
      some (start_download cfg a)
    else some a
  | ClientEvent.OTHER _ => some a

/-- Repeated `_example_http_read_file` calls on one file with a buffer of
`size` bytes, up to and including the first call that finds the cursor at the
file size and prints the closing boundary: the bytes the calls return, one
after the other. `none` when `fuel` calls do not get there. -/
def read_file_to_boundary (cfg : AppConfig) (priv_data : List Char) (size : Nat)
    (io : Nat → ReadReply) : Nat → Nat → FIL → List Char → Option (List Char)
  | 0, _, _, _ => none
  | fuel + 1, read_length, file, buffer =>
    let r := _example_http_read_file cfg read_length priv_data file buffer size 0 io
    let out := r.buffer.take r.ret.toNat
    if file.fsize = read_length then some out
    else (read_file_to_boundary cfg priv_data size io fuel r.read_length r.file r.buffer).map
      (fun rest => out ++ rest)

/-- The storage reads every byte it is asked for. -/
def read_in_full : Nat → ReadReply := fun n => { ret := FRESULT.FR_OK, byte_read := n }

/-! ## Vocabulary of the statements -/

/-- The three decimal digits of a counter below 1000, most significant first. -/
def digits3 (n : Nat) : List Char :=
  [Char.ofNat (48 + n / 100 % 10), Char.ofNat (48 + n / 10 % 10), Char.ofNat (48 + n % 10)]

/-- The name that iteration `k` of the numbering loop checks, for a candidate
`s` cut at `n0` and extension `ext`: when the candidate is shorter than `n0`
the '-' lands behind the terminator and the name read back is `s` itself. -/
def loop_name (s : List Char) (n0 : Nat) (ext : List Char) (k : Nat) : List Char :=
  if s.length < n0 then s else s.take n0 ++ '-' :: (digits3 k ++ ext)

/-- How `rename_to_unique` cuts a candidate `s`: the accepted extension `ext`
(the last '.'-delimited suffix, when shorter than the extension cap) and the
number `n0` of leading characters it keeps. -/
def NameSplit (cfg : Config) (s : List Char) (n0 : Nat) (ext : List Char) : Prop :=
  (∃ stem t, s = stem ++ '.' :: t ∧ '.' ∉ t ∧ t.length + 1 < cfg.MAIN_MAX_FILE_EXT_LENGTH ∧
      ext = '.' :: t ∧
      n0 = if stem.length > cfg.MAIN_MAX_FILE_NAME_LENGTH - 4
        then cfg.MAIN_MAX_FILE_NAME_LENGTH - 4 - (t.length + 1) else stem.length) ∨
  (ext = [] ∧ n0 = cfg.MAIN_MAX_FILE_NAME_LENGTH - 4 ∧
    ¬ ∃ stem t, s = stem ++ '.' :: t ∧ '.' ∉ t ∧ t.length + 1 < cfg.MAIN_MAX_FILE_EXT_LENGTH)

/-- The six transfer flags are independent bits of the mask: every flag is
non-zero and no two flags share a bit. -/
def FlagsIndependent (cfg : Config) : Prop :=
  (∀ m ∈ [cfg.STORAGE_READY, cfg.WIFI_CONNECTED, cfg.GET_REQUESTED, cfg.DOWNLOADING,
      cfg.COMPLETED, cfg.CANCELED], m ≠ 0) ∧
  List.Pairwise (fun a b => a &&& b = 0)
    [cfg.STORAGE_READY, cfg.WIFI_CONNECTED, cfg.GET_REQUESTED, cfg.DOWNLOADING,
      cfg.COMPLETED, cfg.CANCELED]

/-- A packet that is stored in full: non-null data of at least one byte, file
creation and write succeed, and the write reports every byte written. -/
def StoredInFull (c : StoreCall) : Prop :=
  c.data ≠ none ∧ 1 ≤ c.length ∧ c.io.f_open_ret = FRESULT.FR_OK ∧
    c.io.f_write_ret = FRESULT.FR_OK ∧ c.io.wsize = c.length

/-- The four dispatch guards of `start_download` and `start_upload_file`:
storage ready, network ready, no request sent, no download running. -/
def dispatch_guards (cfg : AppConfig) (a : App) : Bool :=
  is_state_set a.core cfg.STORAGE_READY && is_state_set a.core cfg.WIFI_CONNECTED &&
    !is_state_set a.core cfg.GET_REQUESTED && !is_state_set a.core cfg.DOWNLOADING

/-- The request `start_download` issues: a GET of the download URL without
entity. -/
def download_request (cfg : AppConfig) : Request :=
  Request.mk cfg.MAIN_HTTP_FILE_URL http_method.HTTP_METHOD_GET none

instance (cfg : Config) : Decidable (FlagsIndependent cfg) := by
  unfold FlagsIndependent; infer_instance

instance (c : StoreCall) : Decidable (StoredInFull c) := by
  unfold StoredInFull; infer_instance

/-! ## Concrete inputs -/

/-- A configuration for the concrete runs: six one-bit flags, file names of at
most 250 characters, extensions below 8 characters (dot included), and the
download URL that the usage notes of `main21.c` give. -/
def demo_cfg : Config :=
  { NOT_READY := 0, STORAGE_READY := 1, WIFI_CONNECTED := 2, GET_REQUESTED := 4,
    DOWNLOADING := 8, COMPLETED := 16, CANCELED := 32,
    MAIN_MAX_FILE_NAME_LENGTH := 250, MAIN_MAX_FILE_EXT_LENGTH := 8,
    LUN_ID_SD_MMC_0_MEM := 0,
    MAIN_HTTP_FILE_URL :=
      "http://www.microchip.com/Images/45093A-SmartConnectWINC1500_E_US_101014_web.pdf".toList }

/-- A volume that holds exactly one file. -/
def only (name : List Char) : List Char → Bool := fun n => decide (n = name)

/-- A buffer of `size` bytes that holds the string `name`. -/
def buffer_of (name : List Char) (size : Nat) : List Char :=
  name ++ List.replicate (size - name.length) NUL

/-- A 250-character file name with the extension ".pdf". -/
def long_name : List Char := "0:".toList ++ List.replicate 244 'a' ++ ".pdf".toList

/-- The demo configuration with a download URL whose last path segment has no
extension. -/
def plain_cfg : Config :=
  { demo_cfg with MAIN_HTTP_FILE_URL := "http://www.microchip.com/firmware".toList }

/-- A state ready for the first packet of a transfer: storage and network
ready, request sent, response header seen with an expected size of `expected`
bytes; `received` is what `received_file_size` holds and `files` what the
volume holds. -/
def ready_state (expected received : Nat) (files : List (List Char)) : State :=
  { down_state := 7, file_object := none, http_file_size := expected,
    received_file_size := received, save_file_name := buffer_of "0:".toList 251,
    volume := files, log := [] }

/-- The storage performs every call and writes every byte of a packet of
`n` bytes. -/
def io_ok (n : Nat) : StorageReply :=
  { f_open_ret := FRESULT.FR_OK, f_write_ret := FRESULT.FR_OK, wsize := n }

/-- The storage creates the file and rejects the write. -/
def io_write_error : StorageReply :=
  { f_open_ret := FRESULT.FR_OK, f_write_ret := FRESULT.FR_ERR 1, wsize := 0 }

/-- The storage refuses to create the file. -/
def io_open_error : StorageReply :=
  { f_open_ret := FRESULT.FR_ERR 1, f_write_ret := FRESULT.FR_ERR 1, wsize := 0 }

/-- The name the demo URL resolves to on an empty volume. -/
def demo_name : List Char := "0:45093A-SmartConnectWINC1500_E_US_101014_web.pdf".toList

/-- The state a rejected write leaves on the first packet of a transfer to an
empty volume under `demo_cfg`: session file created, `DOWNLOADING` and
`CANCELED` set, file closed. -/
def canceled_state : State :=
  { down_state := 47, file_object := none, http_file_size := 100,
    received_file_size := 0, save_file_name := buffer_of demo_name 251,
    volume := [demo_name],
    log := [FileOp.f_open_create demo_name FRESULT.FR_OK,
            FileOp.f_write 2 (FRESULT.FR_ERR 1), FileOp.f_close] }

/-- The demo configuration with the constants of the orchestrator:
`EAGAIN` is 11, `STORE_TO_NVM` is defined. -/
def demo_app_cfg : AppConfig :=
  { toConfig := demo_cfg,
    MAIN_HTTP_POST_URL := "http://www.microchip.com/upload".toList,
    MAIN_BUFFER_MAX_SIZE := 1446,
    EAGAIN := 11,
    EXAMPLE_HTTP_CONTENT_BOUNDARY := "----boundary7MA4YWxk".toList,
    EXAMPLE_HTTP_FORM_DATA_CONTENT_TYPE :=
      "multipart/form-data; boundary=--boundary7MA4YWxk".toList,
    EXAMPLE_HTTP_FORM_URLENCODED_CONTENT_TYPE := "application/x-www-form-urlencoded".toList,
    STORE_TO_NVM := true }

/-- The program state with the flag mask `flags`, an empty volume, no request
issued and cleared buffers. -/
def app_with_flags (flags : Nat) : App :=
  { core := { ready_state 0 0 [] with down_state := flags },
    requests := [],
    g_http_entity := { file_format := fileFormat.HTTP_FILE_FORMAT_NONE, is_chunked := 0,
                       priv_data := none, file_object := none },
    send_buf := List.replicate 400 NUL,
    body_str := List.replicate 60 NUL,
    http_url := buffer_of "http://www.microchip.com/upload?key1=value1".toList 100,
    read_length := 0 }

/-- A run of the program from its initial state, as `main` and the callbacks
drive it: `init_state`, storage mounted (`init_storage` sets `STORAGE_READY`),
address obtained (`wifi_cb` sets `WIFI_CONNECTED` and calls `start_download`),
request issued, then a response 200 whose two bytes of content arrive with
the headers while the storage rejects the write. -/
def failed_inline_store_run : Option App :=
  let a0 : App := { app_with_flags 0 with
    core := init_state demo_app_cfg.toConfig (app_with_flags 0).core }
  let a1 : App := { a0 with core := add_state a0.core demo_app_cfg.STORAGE_READY }
  let a2 : App := { a1 with core := add_state a1.core demo_app_cfg.WIFI_CONNECTED }
  let a3 : App := start_download demo_app_cfg a2
  (http_client_callback demo_app_cfg a3 ClientEvent.REQUESTED (io_ok 0)).bind
    (fun a4 => http_client_callback demo_app_cfg a4
      (ClientEvent.RECV_RESPONSE 200 2 (some ['a', 'b'])) io_write_error)

/-- A key/value POST in flight: `start_post_data` has issued it from a state
with storage and network ready, and the client has confirmed the request. -/
def post_in_flight : Option App :=
  http_client_callback demo_app_cfg
    (start_post_data demo_app_cfg (app_with_flags 3) ["key1".toList] ["value1".toList] 1)
    ClientEvent.REQUESTED (io_ok 0)

/-! ## Sequences of `read_file` calls -/

/-- One `_example_http_read_file` call as its caller chooses it: the capacity
of the buffer and what the storage answers to the read. -/
structure ReadCall where
  /-- Argument `size`. -/
  size : Nat
  /-- Answer of the storage to an `f_read` of the given byte count. -/
  io : Nat → ReadReply

/-- A sequence of `_example_http_read_file` calls with one literal on one file
object, the static cursor, the file object and the buffer going from each call
to the next: the results, first call first. -/
def read_file_calls (cfg : AppConfig) (priv_data : List Char) :
    Nat → FIL → List Char → List ReadCall → List ReadFileResult
  | _, _, _, [] => []
  | read_length, file, buffer, c :: rest =>
    let r := _example_http_read_file cfg read_length priv_data file buffer c.size 0 c.io
    r :: read_file_calls cfg priv_data r.read_length r.file r.buffer rest

/-- The storage rejects every read. -/
def read_error : Nat → ReadReply := fun _ => { ret := FRESULT.FR_ERR 1, byte_read := 0 }

/-- Modelled from the spec: the HTTP client module, which is not among the
sources, pulls the body of a file-backed entity through the `read_file`
callback of the entity with the entity's own literal and file handle,
`entity->read_file(entity->priv_data, &entity->file_object, buffer, size,
written)`. One such call on the global entity: the program state after the
call and the result; `none` when the entity has no literal or no open file. -/
def entity_read_file (cfg : AppConfig) (a : App) (buffer : List Char) (size written : Nat)
    (io : Nat → ReadReply) : Option (App × ReadFileResult) :=
  match a.g_http_entity.priv_data, a.g_http_entity.file_object with
  | some priv_data, some file =>
    let r := _example_http_read_file cfg a.read_length priv_data file buffer size written io
    some ({ a with read_length := r.read_length,
                   g_http_entity := { a.g_http_entity with file_object := some r.file } }, r)
  | _, _ => none

/-- The upload of the demo, `start_upload_file("test.txt", HTTP_FILE_FORMAT_TXT,
"key1", "value1")` as `wifi_cb` calls it, in a state with storage and network
ready and the cursor at `read_length`, the file on the card holding
`contents`. -/
def upload_of (a : App) (contents : List Char) : App :=
  start_upload_file demo_app_cfg a "test.txt".toList fileFormat.HTTP_FILE_FORMAT_TXT
    "key1".toList "value1".toList (some (FIL.mk contents 0))

/-- The multipart part header `start_upload_file` prints into `send_buf` for
the upload of the demo. -/
def demo_part_header : List Char :=
  ("----boundary7MA4YWxk\r\nContent-Disposition: form-data; name=\"key1\"; " ++
    "filename=\"test.txt\"\r\nContent-Type: text/plain\r\n\r\n").toList

/-- The upload of an empty file: the first call of the `read_file` callback
through a buffer of 256 bytes, the storage reading in full. -/
def empty_file_first_read : Option (App × ReadFileResult) :=
  entity_read_file demo_app_cfg (upload_of (app_with_flags 3) [])
    (List.replicate 256 NUL) 256 0 read_in_full

/-- A second upload in one run of the program: a three-byte file is uploaded
and read through the callback (one data call), then `start_upload_file` creates
a new entity for a six-byte file; the result is the state after the creation
and the first `read_file` call on the new entity. -/
def second_upload_first_read : Option (App × App × ReadFileResult) :=
  (entity_read_file demo_app_cfg (upload_of (app_with_flags 3) ['x', 'y', 'z'])
      (List.replicate 256 NUL) 256 0 read_in_full).bind
    (fun p1 =>
      let a2 := upload_of p1.1 ['a', 'b', 'c', 'd', 'e', 'f']
      (entity_read_file demo_app_cfg a2 p1.2.buffer 256 0 read_in_full).map
        (fun p2 => (a2, p2.1, p2.2)))

/-! # Theorems -/

/-! ## C strings: basic facts -/

theorem nul_not_mem_cstr (buf : List Char) : NUL ∉ cstr buf := by
  intro h
  have := List.mem_takeWhile_imp h
  simp at this

theorem cstr_eq_self {a : List Char} (h : NUL ∉ a) : cstr a = a := by
  unfold cstr
  rw [List.takeWhile_eq_self_iff]
  intro c hc
  have : c ≠ NUL := fun e => h (e ▸ hc)
  simpa using this

theorem cstr_append_nul {a : List Char} (h : NUL ∉ a) (rest : List Char) :
    cstr (a ++ NUL :: rest) = a := by
  induction a with
  | nil => simp [cstr]
  | cons x xs ih =>
    have hx : x ≠ NUL := fun e => h (by simp [e])
    have hxs : NUL ∉ xs := fun e => h (by simp [e])
    have := ih hxs
    simp only [cstr] at this ⊢
    simp [List.takeWhile_cons, hx, this]

theorem cstr_append_of_mem {a : List Char} (h : NUL ∈ a) (rest : List Char) :
    cstr (a ++ rest) = cstr a := by
  induction a with
  | nil => simp at h
  | cons x xs ih =>
    by_cases hx : x = NUL
    · simp [cstr, List.takeWhile_cons, hx]
    · have hxs : NUL ∈ xs := by
        rcases List.mem_cons.1 h with e | e
        · exact absurd e.symm hx
        · exact e
      have := ih hxs
      simp only [cstr] at this ⊢
      simp [List.takeWhile_cons, hx, this]

theorem cstr_append_zeros {a z : List Char} (h : NUL ∉ a) (hz : ∀ c ∈ z, c = NUL) :
    cstr (a ++ z) = a := by
  cases z with
  | nil => simpa using cstr_eq_self h
  | cons c cs =>
    have : c = NUL := hz c (by simp)
    subst this
    exact cstr_append_nul h cs

theorem poke_append {a : List Char} {off : Nat} (h : a.length = off) (b d : List Char) :
    poke (a ++ b) off d = a ++ d ++ b.drop d.length := by
  subst h
  simp [poke, List.take_append_eq_append_take, List.drop_append_eq_append_drop]

theorem poke_zero (b d : List Char) : poke b 0 d = d ++ b.drop d.length := by
  simpa using poke_append (a := []) rfl b d

theorem digit_ne_nul : ∀ d < 10, Char.ofNat (48 + d) ≠ NUL := by decide

theorem nul_not_mem_digits3 (n : Nat) : NUL ∉ digits3 n := by
  have h1 := digit_ne_nul (n / 100 % 10) (Nat.mod_lt _ (by decide))
  have h2 := digit_ne_nul (n / 10 % 10) (Nat.mod_lt _ (by decide))
  have h3 := digit_ne_nul (n % 10) (Nat.mod_lt _ (by decide))
  simp [digits3, Ne.symm h1, Ne.symm h2, Ne.symm h3]

set_option maxRecDepth 100000 in
theorem zero_fmt_eq_digits3 : ∀ i < 1000, MAIN_ZERO_FMT NUMBRING_MAX i = digits3 i := by
  decide

theorem numbering_count_eq : numbering_count = 1000 := by decide

theorem u16_of_lt {n : Nat} (h : n < 65536) : u16 (n : Int) = n := by
  unfold u16; omega

/-- What one iteration of the numbering loop leaves in `name`. -/
theorem rename_iter_image (valid_ext : Bool) (extbuf P rest numbering : List Char) (i : Nat)
    (hi : i < 1000) :
    (let numbering1 := poke numbering 0 (MAIN_ZERO_FMT NUMBRING_MAX i ++ [NUL])
     let name1 := strncpy (P ++ rest) P.length numbering1 NUMBRING_MAX
     if valid_ext then strcpy name1 (P.length + NUMBRING_MAX) extbuf else name1)
    = P ++ (digits3 i ++ (if valid_ext then
        cstr extbuf ++ NUL :: (rest.drop 3).drop ((cstr extbuf).length + 1) else rest.drop 3)) := by
  have hc : cstr (poke numbering 0 (MAIN_ZERO_FMT NUMBRING_MAX i ++ [NUL])) = digits3 i := by
    rw [poke_zero, zero_fmt_eq_digits3 i hi, List.append_assoc]
    exact cstr_append_nul (nul_not_mem_digits3 i) _
  have hl : (digits3 i).length = 3 := rfl
  simp only [strncpy, strlen, hc, strcpy]
  have h1 : List.take NUMBRING_MAX (digits3 i)
      ++ List.replicate (NUMBRING_MAX - (digits3 i).length) NUL = digits3 i := by
    simp [NUMBRING_MAX, digits3]
  rw [h1, poke_append rfl]
  cases valid_ext with
  | false => simp [hl]
  | true =>
    have h2 : (P ++ digits3 i).length = P.length + NUMBRING_MAX := by simp [hl, NUMBRING_MAX]
    simp only [if_true]
    rw [poke_append h2]
    simp [hl]

/-! ## The numbering loop -/

/-- Outcome of the numbering loop over a buffer `P ++ rest` whose first
`P.length` bytes the loop never touches, when iteration `k` leaves a name
that reads as `T k`: the loop stops at the first counter whose name is free. -/
theorem rename_loop_spec (fs : List Char → Bool) (valid_ext : Bool) (extbuf P : List Char)
    (T : Nat → List Char)
    (hT : ∀ k, k < 1000 → ∀ rest : List Char,
      (valid_ext = false → ∀ c ∈ rest.drop 3, c = NUL) →
      cstr (P ++ (digits3 k ++ (if valid_ext then
        cstr extbuf ++ NUL :: (rest.drop 3).drop ((cstr extbuf).length + 1)
        else rest.drop 3))) = T k) :
    ∀ (r i : Nat) (numbering rest : List Char), i + r ≤ 1000 →
      (valid_ext = false → ∀ c ∈ rest.drop 3, c = NUL) →
      match rename_loop fs (some ()) valid_ext extbuf P.length r i numbering (P ++ rest) with
      | some nm => ∃ j, i ≤ j ∧ j < i + r ∧ cstr nm = T j ∧ fs (T j) = false ∧
          ∀ k, i ≤ k → k < j → fs (T k) = true
      | none => ∀ k, i ≤ k → k < i + r → fs (T k) = true := by
  intro r
  induction r with
  | zero =>
    intro i numbering rest _ _
    simp only [rename_loop]
    intro k h1 h2
    omega
  | succ r ih =>
    intro i numbering rest hir hrest
    have hi : i < 1000 := by omega
    have himg := rename_iter_image valid_ext extbuf P rest numbering i hi
    simp only at himg
    simp only [rename_loop, himg, is_exist_file, hT i hi rest hrest]
    cases hfs : fs (T i) with
    | false =>
      simp only [Bool.not_false, if_true]
      exact ⟨i, le_refl _, by omega, hT i hi rest hrest, hfs, fun k h1 h2 => by omega⟩
    | true =>
      simp only [Bool.not_true, Bool.false_eq_true, if_false]
      have hu : u16 ((i : Int) + 1) = i + 1 := by unfold u16; omega
      rw [hu]
      have hrest2 : valid_ext = false → ∀ c ∈ (digits3 i ++ (if valid_ext then
          cstr extbuf ++ NUL :: (rest.drop 3).drop ((cstr extbuf).length + 1)
          else rest.drop 3)).drop 3, c = NUL := by
        intro hv
        subst hv
        have hl : (digits3 i).length = 3 := rfl
        simpa [List.drop_append_eq_append_drop, hl] using hrest rfl
      have := ih (i + 1) (poke numbering 0 (MAIN_ZERO_FMT NUMBRING_MAX i ++ [NUL])) _
        (by omega) hrest2
      revert this
      cases rename_loop fs (some ()) valid_ext extbuf P.length r (i + 1)
        (poke numbering 0 (MAIN_ZERO_FMT NUMBRING_MAX i ++ [NUL]))
        (P ++ (digits3 i ++ (if valid_ext then
          cstr extbuf ++ NUL :: (rest.drop 3).drop ((cstr extbuf).length + 1)
          else rest.drop 3))) with
      | none =>
        intro h k h1 h2
        rcases Nat.eq_or_lt_of_le h1 with e | e
        · subst e; exact hfs
        · exact h k e (by omega)
      | some nm =>
        rintro ⟨j, h1, h2, h3, h4, h5⟩
        refine ⟨j, by omega, by omega, h3, h4, fun k hk1 hk2 => ?_⟩
        rcases Nat.eq_or_lt_of_le hk1 with e | e
        · subst e; exact hfs
        · exact h5 k e hk2

theorem strrchr_scan_spec (c : Char) : ∀ (l : List Char) (i : Nat) (acc : Option Nat),
    (c ∉ l → strrchr_scan c l i acc = acc) ∧
    (∀ a t, l = a ++ c :: t → c ∉ t → strrchr_scan c l i acc = some (i + a.length)) := by
  intro l
  induction l with
  | nil =>
    intro i acc
    refine ⟨fun _ => rfl, fun a t h _ => ?_⟩
    simp at h
  | cons x xs ih =>
    intro i acc
    constructor
    · intro h
      have hx : x ≠ c := fun e => h (by simp [e])
      have hxs : c ∉ xs := fun e => h (by simp [e])
      simp only [strrchr_scan, hx, if_false]
      exact (ih (i + 1) acc).1 hxs
    · intro a t h ht
      cases a with
      | nil =>
        simp only [List.nil_append, List.cons.injEq] at h
        obtain ⟨h1, h2⟩ := h
        subst h1 h2
        simp only [strrchr_scan, if_true, List.length_nil, Nat.add_zero]
        exact (ih (i + 1) (some i)).1 ht
      | cons y ys =>
        simp only [List.cons_append, List.cons.injEq] at h
        obtain ⟨h1, h2⟩ := h
        subst h1
        simp only [strrchr_scan, List.length_cons]
        rw [(ih (i + 1) _).2 ys t h2 ht]
        congr 1
        omega

theorem exists_last_split {c : Char} : ∀ {l : List Char}, c ∈ l →
    ∃ a t, l = a ++ c :: t ∧ c ∉ t := by
  intro l
  induction l with
  | nil => intro h; simp at h
  | cons x xs ih =>
    intro h
    by_cases hxs : c ∈ xs
    · obtain ⟨a, t, h1, h2⟩ := ih hxs
      exact ⟨x :: a, t, by simp [h1], h2⟩
    · have : c = x := by
        rcases List.mem_cons.1 h with e | e
        · exact e
        · exact absurd e hxs
      subst this
      exact ⟨[], xs, rfl, hxs⟩

theorem last_split_unique {c : Char} {a t a2 t2 : List Char}
    (h : a ++ c :: t = a2 ++ c :: t2) (ht : c ∉ t) (ht2 : c ∉ t2) : a = a2 ∧ t = t2 := by
  have h1 := (strrchr_scan_spec c (a ++ c :: t) 0 none).2 a t rfl ht
  have h2 := (strrchr_scan_spec c (a ++ c :: t) 0 none).2 a2 t2 h ht2
  rw [h1] at h2
  have hl : a.length = a2.length := by simpa using h2
  have := List.append_inj h hl
  simpa using this

theorem cstr_drop : ∀ (b : List Char) (p : Nat), p ≤ (cstr b).length →
    cstr (b.drop p) = (cstr b).drop p := by
  intro b
  induction b with
  | nil => intro p _; simp [cstr]
  | cons x xs ih =>
    intro p hp
    cases p with
    | zero => simp
    | succ p =>
      by_cases hx : x = NUL
      · simp [cstr, List.takeWhile_cons, hx] at hp
      · have hc : cstr (x :: xs) = x :: cstr xs := by
          simp [cstr, List.takeWhile_cons, hx]
        rw [hc] at hp ⊢
        simp only [List.drop_succ_cons]
        exact ih p (by simpa using hp)

theorem cstr_strcpy_zero (d src : List Char) : cstr (strcpy d 0 src) = cstr src := by
  rw [strcpy, poke_zero, List.append_assoc]
  exact cstr_append_nul (nul_not_mem_cstr src) _

/-- The buffer `name` once the base name and the '-' are in place. -/
theorem name_setup (path : List Char) (M n0 : Nat) :
    ∃ rest0 : List Char, (∀ c ∈ rest0, c = NUL) ∧
      poke (strncpy (List.replicate (M + 1) NUL) 0 path n0) n0 ['-']
        = ((cstr path).take n0 ++ List.replicate (n0 - strlen path) NUL ++ ['-']) ++ rest0 := by
  refine ⟨((List.replicate (M + 1) NUL).drop
    ((cstr path).take n0 ++ List.replicate (n0 - strlen path) NUL).length).drop 1, ?_, ?_⟩
  · intro c hc
    have h1 := List.mem_of_mem_drop hc
    have h2 := List.mem_of_mem_drop h1
    exact (List.mem_replicate.1 h2).2
  · have hl : ((cstr path).take n0 ++ List.replicate (n0 - strlen path) NUL).length = n0 := by
      simp [strlen]; omega
    rw [strncpy, poke_zero, poke_append hl]
    simp

theorem rename_tail (fs : List Char → Bool) (valid_ext : Bool)
    (extbuf path numbering e : List Char) (M n0 : Nat) (hn0 : n0 + 1 < 65536)
    (he : if valid_ext then cstr extbuf = e else e = []) :
    match rename_loop fs (some ()) valid_ext extbuf (u16 ((n0 : Int) + 1)) 999 1 numbering
        (poke (strncpy (List.replicate (M + 1) NUL) 0 path n0) n0 ['-']) with
    | some nm => ∃ j, 1 ≤ j ∧ j ≤ 999 ∧ cstr nm = loop_name (cstr path) n0 e j ∧
        fs (loop_name (cstr path) n0 e j) = false ∧
        ∀ k, 1 ≤ k → k < j → fs (loop_name (cstr path) n0 e k) = true
    | none => ∀ k, 1 ≤ k → k ≤ 999 → fs (loop_name (cstr path) n0 e k) = true := by
  obtain ⟨rest0, hz, hname⟩ := name_setup path M n0
  have hu : u16 ((n0 : Int) + 1) = n0 + 1 := by unfold u16; omega
  have hPl : ((cstr path).take n0 ++ List.replicate (n0 - strlen path) NUL ++ ['-']).length
      = n0 + 1 := by
    simp [strlen]; omega
  rw [hname, hu, ← hPl]
  have key := rename_loop_spec fs valid_ext extbuf
    ((cstr path).take n0 ++ List.replicate (n0 - strlen path) NUL ++ ['-'])
    (loop_name (cstr path) n0 e) ?_ 999 1 numbering rest0 (by omega)
    (fun _ c hc => hz c (List.mem_of_mem_drop hc))
  · revert key
    cases rename_loop fs (some ()) valid_ext extbuf
      ((cstr path).take n0 ++ List.replicate (n0 - strlen path) NUL ++ ['-']).length 999 1
      numbering (((cstr path).take n0 ++ List.replicate (n0 - strlen path) NUL ++ ['-'])
        ++ rest0) with
    | none =>
      intro h k h1 h2
      exact h k h1 (by omega)
    | some nm =>
      rintro ⟨j, h1, h2, h3⟩
      exact ⟨j, h1, by omega, h3⟩
  · intro k _ rest hrest
    have hs := nul_not_mem_cstr path
    by_cases hL : (cstr path).length < n0
    · -- the '-' is written behind the terminator
      have hrep : List.replicate (n0 - strlen path) NUL
          = NUL :: List.replicate (n0 - strlen path - 1) NUL := by
        have : n0 - strlen path = (n0 - strlen path - 1) + 1 := by
          unfold strlen; omega
        rw [this, List.replicate_succ]
        simp
      have htake : (cstr path).take n0 = cstr path := List.take_of_length_le (by omega)
      simp only [loop_name, hL, if_true]
      rw [hrep, htake]
      simp only [List.append_assoc, List.cons_append]
      exact cstr_append_nul hs _
    · have hrep : List.replicate (n0 - strlen path) NUL = [] := by
        have : n0 - strlen path = 0 := by unfold strlen; omega
        rw [this]; rfl
      have hP : NUL ∉ (cstr path).take n0 ++ '-' :: digits3 k := by
        intro hm
        rcases List.mem_append.1 hm with h | h
        · exact hs (List.mem_of_mem_take h)
        · rcases List.mem_cons.1 h with h | h
          · exact absurd h (by decide)
          · exact nul_not_mem_digits3 k h
      simp only [loop_name, hL, if_false]
      rw [hrep]
      cases valid_ext with
      | true =>
        simp only [if_true] at he ⊢
        subst he
        have hP2 : NUL ∉ (cstr path).take n0 ++ '-' :: (digits3 k ++ cstr extbuf) := by
          intro hm
          rcases List.mem_append.1 hm with h | h
          · exact hs (List.mem_of_mem_take h)
          · rcases List.mem_cons.1 h with h | h
            · exact absurd h (by decide)
            · rcases List.mem_append.1 h with h | h
              · exact nul_not_mem_digits3 k h
              · exact nul_not_mem_cstr extbuf h
        have := cstr_append_nul hP2
          (List.drop ((cstr extbuf).length + 1) (List.drop 3 rest))
        simpa [List.append_assoc] using this
      | false =>
        simp only [Bool.false_eq_true, if_false] at he ⊢
        subst he
        have := cstr_append_zeros hP (hrest rfl)
        simpa [List.append_assoc] using this

theorem rename_to_unique_cases (cfg : Config) (fs : List Char → Bool) (buf : List Char)
    (max_len : Nat)
    (hmin : cfg.MAIN_MAX_FILE_EXT_LENGTH + ADDITION_SIZE ≤ cfg.MAIN_MAX_FILE_NAME_LENGTH)
    (hmax : cfg.MAIN_MAX_FILE_NAME_LENGTH < 65536)
    (hex : fs (cstr buf) = true) (hlen : strlen buf ≤ cfg.MAIN_MAX_FILE_NAME_LENGTH) :
    ∃ n0 ext, NameSplit cfg (cstr buf) n0 ext ∧
      ((∃ buf2 j, rename_to_unique cfg fs (some ()) (some buf) max_len = (true, some buf2) ∧
          1 ≤ j ∧ j ≤ 999 ∧ cstr buf2 = loop_name (cstr buf) n0 ext j ∧
          fs (loop_name (cstr buf) n0 ext j) = false ∧
          ∀ k, 1 ≤ k → k < j → fs (loop_name (cstr buf) n0 ext k) = true) ∨
       (rename_to_unique cfg fs (some ()) (some buf) max_len = (false, some buf) ∧
          ∀ k, 1 ≤ k → k ≤ 999 → fs (loop_name (cstr buf) n0 ext k) = true)) := by
  have hlen2 : ¬ strlen buf > cfg.MAIN_MAX_FILE_NAME_LENGTH := by omega
  have hA : ((ADDITION_SIZE : Nat) : Int) = 4 := rfl
  have hmin4 : cfg.MAIN_MAX_FILE_EXT_LENGTH + 4 ≤ cfg.MAIN_MAX_FILE_NAME_LENGTH := hmin
  -- the common end of every branch
  have finish : ∀ (valid_ext : Bool) (extbuf e : List Char) (n0 : Nat), n0 + 1 < 65536 →
      (if valid_ext then cstr extbuf = e else e = []) →
      ((∃ buf2 j, (match rename_loop fs (some ()) valid_ext extbuf (u16 ((n0 : Int) + 1))
              (numbering_count - 1) 1 (List.replicate (NUMBRING_MAX + 1) NUL)
              (poke (strncpy (List.replicate (cfg.MAIN_MAX_FILE_NAME_LENGTH + 1) NUL) 0 buf n0)
                n0 ['-']) with
            | some name => (true, some (strcpy (memset buf NUL max_len) 0 name))
            | none => (false, some buf)) = (true, some buf2) ∧
          1 ≤ j ∧ j ≤ 999 ∧ cstr buf2 = loop_name (cstr buf) n0 e j ∧
          fs (loop_name (cstr buf) n0 e j) = false ∧
          ∀ k, 1 ≤ k → k < j → fs (loop_name (cstr buf) n0 e k) = true) ∨
       ((match rename_loop fs (some ()) valid_ext extbuf (u16 ((n0 : Int) + 1))
              (numbering_count - 1) 1 (List.replicate (NUMBRING_MAX + 1) NUL)
              (poke (strncpy (List.replicate (cfg.MAIN_MAX_FILE_NAME_LENGTH + 1) NUL) 0 buf n0)
                n0 ['-']) with
            | some name => (true, some (strcpy (memset buf NUL max_len) 0 name))
            | none => (false, some buf)) = (false, some buf) ∧
          ∀ k, 1 ≤ k → k ≤ 999 → fs (loop_name (cstr buf) n0 e k) = true)) := by
    intro valid_ext extbuf e n0 hn0 he
    have key := rename_tail fs valid_ext extbuf buf (List.replicate (NUMBRING_MAX + 1) NUL) e
      cfg.MAIN_MAX_FILE_NAME_LENGTH n0 hn0 he
    rw [numbering_count_eq]
    revert key
    cases rename_loop fs (some ()) valid_ext extbuf (u16 ((n0 : Int) + 1)) (1000 - 1) 1
      (List.replicate (NUMBRING_MAX + 1) NUL)
      (poke (strncpy (List.replicate (cfg.MAIN_MAX_FILE_NAME_LENGTH + 1) NUL) 0 buf n0)
        n0 ['-']) with
    | none => intro h; exact Or.inr ⟨rfl, h⟩
    | some nm =>
      rintro ⟨j, h1, h2, h3, h4, h5⟩
      exact Or.inl ⟨_, j, rfl, h1, h2, by rw [cstr_strcpy_zero]; exact h3, h4, h5⟩
  -- the branch ladder
  have hsplit : ∃ valid_ext extbuf e n0, rename_split cfg buf = (valid_ext, extbuf, n0) ∧
      n0 + 1 < 65536 ∧ (if valid_ext then cstr extbuf = e else e = []) ∧
      NameSplit cfg (cstr buf) n0 e := by
    have hdotne : ¬ ('.' : Char) = NUL := by decide
    have hM4 : u16 ((cfg.MAIN_MAX_FILE_NAME_LENGTH : Int) - ADDITION_SIZE)
        = cfg.MAIN_MAX_FILE_NAME_LENGTH - 4 := by
      rw [hA]; unfold u16; omega
    by_cases hdot : '.' ∈ cstr buf
    · obtain ⟨a, t, hs, ht⟩ := exists_last_split hdot
      have hp : strrchr buf '.' = some a.length := by
        simp only [strrchr, hdotne, if_false]
        have := (strrchr_scan_spec '.' (cstr buf) 0 none).2 a t hs ht
        simpa using this
      have hLs : strlen buf = a.length + (t.length + 1) := by
        simp [strlen, hs]
      have hdrop : cstr (buf.drop a.length) = '.' :: t := by
        rw [cstr_drop buf a.length (by rw [hs]; simp), hs]
        simp
      have hel : u16 (strlen (buf.drop a.length) : Int) = t.length + 1 := by
        simp only [strlen, hdrop, List.length_cons]
        unfold u16; omega
      by_cases hv : t.length + 1 < cfg.MAIN_MAX_FILE_EXT_LENGTH
      · by_cases hlong : a.length > cfg.MAIN_MAX_FILE_NAME_LENGTH - 4
        · refine ⟨true, strcpy (List.replicate (cfg.MAIN_MAX_FILE_EXT_LENGTH + 1) NUL) 0
            (buf.drop a.length), '.' :: t, cfg.MAIN_MAX_FILE_NAME_LENGTH - 4 - (t.length + 1), ?_,
            by omega, ?_, Or.inl ⟨a, t, hs, ht, hv, rfl, by simp [hlong]⟩⟩
          · have hc : u32 ((strlen buf : Int) - ((t.length + 1 : Nat) : Int))
                > u32 ((cfg.MAIN_MAX_FILE_NAME_LENGTH : Int) - ADDITION_SIZE) := by
              rw [hA]; unfold u32; omega
            have hn : u16 ((cfg.MAIN_MAX_FILE_NAME_LENGTH : Int) - ADDITION_SIZE
                - ((t.length + 1 : Nat) : Int))
                = cfg.MAIN_MAX_FILE_NAME_LENGTH - 4 - (t.length + 1) := by
              rw [hA]; unfold u16; omega
            simp only [rename_split, hp, hel, hv, if_true, hc, hn]
          · simp only [if_true]
            rw [cstr_strcpy_zero, hdrop]
        · refine ⟨true, strcpy (List.replicate (cfg.MAIN_MAX_FILE_EXT_LENGTH + 1) NUL) 0
            (buf.drop a.length), '.' :: t, a.length, ?_, by omega, ?_,
            Or.inl ⟨a, t, hs, ht, hv, rfl, by simp [hlong]⟩⟩
          · have hc : ¬ u32 ((strlen buf : Int) - ((t.length + 1 : Nat) : Int))
                > u32 ((cfg.MAIN_MAX_FILE_NAME_LENGTH : Int) - ADDITION_SIZE) := by
              rw [hA]; unfold u32; omega
            have hn : u16 (a.length : Int) = a.length := by unfold u16; omega
            simp only [rename_split, hp, hel, hv, if_true, hc, if_false, hn]
          · simp only [if_true]
            rw [cstr_strcpy_zero, hdrop]
      · refine ⟨false, List.replicate (cfg.MAIN_MAX_FILE_EXT_LENGTH + 1) NUL, [], cfg.MAIN_MAX_FILE_NAME_LENGTH - 4, ?_, by omega, by simp,
          Or.inr ⟨rfl, rfl, ?_⟩⟩
        · simp only [rename_split, hp, hel, hv, if_false, hM4]
        · rintro ⟨a2, t2, hs2, ht2, hv2⟩
          have := last_split_unique (hs.symm.trans hs2) ht ht2
          rw [this.2] at hv
          exact hv hv2
    · have hp : strrchr buf '.' = none := by
        simp only [strrchr, hdotne, if_false]
        exact (strrchr_scan_spec '.' (cstr buf) 0 none).1 hdot
      refine ⟨false, List.replicate (cfg.MAIN_MAX_FILE_EXT_LENGTH + 1) NUL, [], cfg.MAIN_MAX_FILE_NAME_LENGTH - 4, ?_, by omega, by simp,
        Or.inr ⟨rfl, rfl, ?_⟩⟩
      · simp only [rename_split, hp, hM4]
      · rintro ⟨a2, t2, hs2, _, _⟩
        exact hdot (by rw [hs2]; simp)
  obtain ⟨valid_ext, extbuf, e, n0, hsp, hn0, he, hNS⟩ := hsplit
  refine ⟨n0, e, hNS, ?_⟩
  unfold rename_to_unique
  simp only [is_exist_file, hex, Bool.not_true, Bool.false_eq_true, if_false, hlen2, hsp]
  exact finish valid_ext extbuf e n0 hn0 he

/-! ## Unique naming resolver: claims -/

/-- A candidate without an accepted extension that is shorter than the cut
`MAIN_MAX_FILE_NAME_LENGTH - ADDITION_SIZE`: the '-' and the counter are
written behind the terminator, every iteration checks the candidate itself,
and the resolver fails. -/
theorem rename_to_unique_short_plain (cfg : Config) (fs : List Char → Bool) (buf : List Char)
    (max_len : Nat)
    (hmin : cfg.MAIN_MAX_FILE_EXT_LENGTH + ADDITION_SIZE ≤ cfg.MAIN_MAX_FILE_NAME_LENGTH)
    (hmax : cfg.MAIN_MAX_FILE_NAME_LENGTH < 65536)
    (hex : fs (cstr buf) = true)
    (hshort : strlen buf + ADDITION_SIZE < cfg.MAIN_MAX_FILE_NAME_LENGTH)
    (hplain : ¬ ∃ stem t, cstr buf = stem ++ '.' :: t ∧ '.' ∉ t ∧
      t.length + 1 < cfg.MAIN_MAX_FILE_EXT_LENGTH) :
    rename_to_unique cfg fs (some ()) (some buf) max_len = (false, some buf) := by
  have hs : strlen buf + 4 < cfg.MAIN_MAX_FILE_NAME_LENGTH := hshort
  obtain ⟨n0, ext, hNS, h⟩ := rename_to_unique_cases cfg fs buf max_len hmin hmax hex (by omega)
  rcases hNS with ⟨stem, t, h1, h2, h3, _⟩ | ⟨_, hn0, _⟩
  · exact absurd ⟨stem, t, h1, h2, h3⟩ hplain
  · have hlt : (cstr buf).length < n0 := by
      have : (cstr buf).length = strlen buf := rfl
      omega
    rcases h with ⟨buf2, j, _, _, _, _, hfree, _⟩ | ⟨hfail, _⟩
    · simp only [loop_name, hlt, if_true] at hfree
      rw [hex] at hfree
      exact absurd hfree (by decide)
    · exact hfail

/-- C1: when the candidate is on the volume and `rename_to_unique` reports
success, the rewritten path is `base ++ "-" ++ NNN ++ ext` with `base` a
prefix of the candidate, `ext` the accepted extension of the candidate (its
last '.'-delimited suffix, when shorter than the extension cap) or empty when
there is none, and `NNN` the three digits of a counter in 1..999; the
rewritten path is not on the volume, the paths of all smaller counters are,
and so the counter is 1 as soon as the "-001" path is free. -/
theorem rename_to_unique_success_form (cfg : Config) (fs : List Char → Bool)
    (buf buf2 : List Char) (max_len : Nat)
    (hmin : cfg.MAIN_MAX_FILE_EXT_LENGTH + ADDITION_SIZE ≤ cfg.MAIN_MAX_FILE_NAME_LENGTH)
    (hmax : cfg.MAIN_MAX_FILE_NAME_LENGTH < 65536)
    (hex : fs (cstr buf) = true)
    (hok : rename_to_unique cfg fs (some ()) (some buf) max_len = (true, some buf2)) :
    ∃ base ext n, 1 ≤ n ∧ n ≤ 999 ∧
      cstr buf2 = base ++ '-' :: (digits3 n ++ ext) ∧
      base <+: cstr buf ∧
      ((∃ stem t, cstr buf = stem ++ '.' :: t ∧ '.' ∉ t ∧
          t.length + 1 < cfg.MAIN_MAX_FILE_EXT_LENGTH ∧ ext = '.' :: t) ∨
       (ext = [] ∧ ¬ ∃ stem t, cstr buf = stem ++ '.' :: t ∧ '.' ∉ t ∧
          t.length + 1 < cfg.MAIN_MAX_FILE_EXT_LENGTH)) ∧
      fs (cstr buf2) = false ∧
      (∀ m, 1 ≤ m → m < n → fs (base ++ '-' :: (digits3 m ++ ext)) = true) ∧
      (fs (base ++ '-' :: (digits3 1 ++ ext)) = false → n = 1) := by
  have hlen : strlen buf ≤ cfg.MAIN_MAX_FILE_NAME_LENGTH := by
    by_contra hc
    have hgt : strlen buf > cfg.MAIN_MAX_FILE_NAME_LENGTH := by omega
    simp [rename_to_unique, is_exist_file, hex, hgt] at hok
  obtain ⟨n0, ext, hNS, h⟩ := rename_to_unique_cases cfg fs buf max_len hmin hmax hex hlen
  rcases h with ⟨b2, j, hres, hj1, hj2, hname, hfree, hmin2⟩ | ⟨hfail, _⟩
  · rw [hres] at hok
    have hb : b2 = buf2 := by simpa using hok
    subst hb
    have hge : ¬ (cstr buf).length < n0 := by
      intro hlt
      simp only [loop_name, hlt, if_true] at hfree
      rw [hex] at hfree
      exact absurd hfree (by decide)
    simp only [loop_name, hge, if_false] at hname hfree hmin2
    refine ⟨(cstr buf).take n0, ext, j, hj1, hj2, hname, List.take_prefix _ _, ?_, ?_, hmin2, ?_⟩
    · rcases hNS with ⟨stem, t, h1, h2, h3, h4, _⟩ | ⟨h1, _, h3⟩
      · exact Or.inl ⟨stem, t, h1, h2, h3, h4⟩
      · exact Or.inr ⟨h1, h3⟩
    · rw [hname]; exact hfree
    · intro h1
      by_contra hne
      have := hmin2 1 (le_refl 1) (by omega)
      rw [h1] at this
      exact absurd this (by decide)
  · rw [hfail] at hok
    simp at hok

set_option maxRecDepth 100000 in
/-- Witness of C1: "0:a.pdf" is on the volume and becomes "0:a-001.pdf". -/
theorem rename_to_unique_success_form_witness :
    only "0:a.pdf".toList (cstr (buffer_of "0:a.pdf".toList 251)) = true ∧
    rename_to_unique demo_cfg (only "0:a.pdf".toList) (some ())
        (some (buffer_of "0:a.pdf".toList 251)) 250
      = (true, some (buffer_of "0:a-001.pdf".toList 251)) ∧
    ∃ base ext n, 1 ≤ n ∧ n ≤ 999 ∧
      cstr (buffer_of "0:a-001.pdf".toList 251) = base ++ '-' :: (digits3 n ++ ext) ∧
      base <+: cstr (buffer_of "0:a.pdf".toList 251) ∧
      ((∃ stem t, cstr (buffer_of "0:a.pdf".toList 251) = stem ++ '.' :: t ∧ '.' ∉ t ∧
          t.length + 1 < demo_cfg.MAIN_MAX_FILE_EXT_LENGTH ∧ ext = '.' :: t) ∨
       (ext = [] ∧ ¬ ∃ stem t, cstr (buffer_of "0:a.pdf".toList 251) = stem ++ '.' :: t ∧
          '.' ∉ t ∧ t.length + 1 < demo_cfg.MAIN_MAX_FILE_EXT_LENGTH)) ∧
      only "0:a.pdf".toList (cstr (buffer_of "0:a-001.pdf".toList 251)) = false ∧
      (∀ m, 1 ≤ m → m < n →
        only "0:a.pdf".toList (base ++ '-' :: (digits3 m ++ ext)) = true) ∧
      (only "0:a.pdf".toList (base ++ '-' :: (digits3 1 ++ ext)) = false → n = 1) :=
  ⟨by decide, by decide,
    rename_to_unique_success_form demo_cfg (only "0:a.pdf".toList)
      (buffer_of "0:a.pdf".toList 251) (buffer_of "0:a-001.pdf".toList 251) 250
      (by decide) (by decide) (by decide) (by decide)⟩

/-- C2 (the code at a failing input): "0:data" is the only file on the volume,
so none of "0:data-001" .. "0:data-999" exists, and `rename_to_unique` fails
all the same and leaves the buffer as it was. -/
theorem rename_to_unique_fails_with_free_counters :
    rename_to_unique demo_cfg (only "0:data".toList) (some ())
        (some (buffer_of "0:data".toList 251)) 250
      = (false, some (buffer_of "0:data".toList 251)) ∧
    ∀ n, only "0:data".toList ("0:data".toList ++ '-' :: digits3 n) = false := by
  constructor
  · refine rename_to_unique_short_plain demo_cfg _ _ _ (by decide) (by decide) (by decide)
      (by decide) ?_
    rintro ⟨stem, t, h, -, -⟩
    have hc : cstr (buffer_of "0:data".toList 251) = "0:data".toList := by decide
    have hmem : '.' ∈ cstr (buffer_of "0:data".toList 251) := by rw [h]; simp
    rw [hc] at hmem
    exact absurd hmem (by decide)
  · intro n
    simp [only, digits3]

/-- C3: a candidate that is not on the volume is reported unique and the
buffer is left as it is. -/
theorem rename_to_unique_absent_unchanged (cfg : Config) (fs : List Char → Bool)
    (fp : Option Unit) (buf : List Char) (max_len : Nat) (habsent : fs (cstr buf) = false) :
    rename_to_unique cfg fs fp (some buf) max_len = (true, some buf) := by
  cases fp <;> simp [rename_to_unique, is_exist_file, habsent]

/-- Witness of C3: "0:b.pdf" while only "0:a.pdf" is on the volume. -/
theorem rename_to_unique_absent_unchanged_witness :
    only "0:a.pdf".toList (cstr (buffer_of "0:b.pdf".toList 251)) = false ∧
    rename_to_unique demo_cfg (only "0:a.pdf".toList) (some ())
        (some (buffer_of "0:b.pdf".toList 251)) 250
      = (true, some (buffer_of "0:b.pdf".toList 251)) :=
  ⟨by decide, rename_to_unique_absent_unchanged demo_cfg (only "0:a.pdf".toList) (some ())
    (buffer_of "0:b.pdf".toList 251) 250 (by decide)⟩

set_option maxRecDepth 100000 in
/-- C4 (the code at a failing input): the 250-character name
"0:aaa...a.pdf" is the only file on the volume; `rename_to_unique` builds and
returns "0:aaa...a-001.pdf", 254 characters long, four more than
`MAIN_MAX_FILE_NAME_LENGTH`, in an image of 255 bytes where the arrays `name`
and `save_file_name` have 251. -/
theorem rename_to_unique_returns_overlong_name :
    strlen (buffer_of long_name 251) = 250 ∧
    demo_cfg.MAIN_MAX_FILE_NAME_LENGTH = 250 ∧
    ∃ buf2, rename_to_unique demo_cfg (only long_name) (some ())
        (some (buffer_of long_name 251)) 250 = (true, some buf2) ∧
      cstr buf2 = "0:".toList ++ List.replicate 244 'a' ++ "-001.pdf".toList ∧
      strlen buf2 = 254 ∧ buf2.length = 255 := by
  refine ⟨by decide, rfl,
    "0:".toList ++ List.replicate 244 'a' ++ "-001.pdf".toList ++ [NUL], by decide, by decide,
    by decide, by decide⟩

/-! ## State tracker: basic facts -/

theorem is_state_set_add_same (s : State) {m : Nat} (hm : m ≠ 0) :
    is_state_set (add_state s m) m = true := by
  have h : (s.down_state ||| m) &&& m = m := by
    apply Nat.eq_of_testBit_eq
    intro i
    simp only [Nat.testBit_and, Nat.testBit_or]
    cases s.down_state.testBit i <;> cases m.testBit i <;> rfl
  simp [is_state_set, add_state, h, hm]

theorem is_state_set_add_other (s : State) {m n : Nat} (h : m &&& n = 0) :
    is_state_set (add_state s m) n = is_state_set s n := by
  simp [is_state_set, add_state, Nat.and_distrib_right, h]

/-! ## File persistence sink: basic facts -/

theorem scan_back_last_slash (pre seg : List Char) (hseg : '/' ∉ seg) :
    ∀ k, pre.length ≤ k → scan_back (pre ++ '/' :: seg) k = some pre.length := by
  intro k
  induction k with
  | zero =>
    intro hk
    have : pre = [] := List.length_eq_zero.1 (by omega)
    subst this
    simp [scan_back]
  | succ k ih =>
    intro hk
    rcases Nat.eq_or_lt_of_le hk with e | e
    · have : (pre ++ '/' :: seg)[k + 1]? = some '/' := by
        rw [← e, List.getElem?_append_right (le_refl _)]; simp
      simp only [scan_back, this, if_true, e]
    · have hne : (pre ++ '/' :: seg)[k + 1]? ≠ some '/' := by
        intro hc
        have hk2 : pre.length ≤ k + 1 := by omega
        rw [List.getElem?_append_right hk2] at hc
        obtain ⟨j, hj⟩ : ∃ j, k + 1 - pre.length = j + 1 := ⟨k - pre.length, by omega⟩
        rw [hj, List.getElem?_cons_succ] at hc
        exact hseg (List.getElem?_mem hc)
      simp only [scan_back, hne, if_false]
      exact ih (by omega)

theorem cstr_drop_cstr (b : List Char) (k : Nat) : cstr ((cstr b).drop k) = (cstr b).drop k :=
  cstr_eq_self (fun h => nul_not_mem_cstr b (List.mem_of_mem_drop h))

/-- A call that finds `DOWNLOADING` set goes straight to the write. -/
theorem store_file_packet_receiving (cfg : Config) (s : State) (d : List Char) (length : Nat)
    (io : StorageReply) (hl : 1 ≤ length) (hD : is_state_set s cfg.DOWNLOADING = true) :
    store_file_packet cfg s (some d) length io
      = some (store_file_packet_write cfg s length io) := by
  have h1 : ¬ length < 1 := by omega
  simp [store_file_packet, h1, hD]

/-- A first call with a URL that has a last path segment, whose file creation
succeeds: the session file is created and the call goes on to the write with
`DOWNLOADING` set and the received size at 0. -/
theorem store_file_packet_first (cfg : Config) (s : State) (d : List Char) (length : Nat)
    (io : StorageReply) (pre seg : List Char) (hl : 1 ≤ length)
    (hD : is_state_set s cfg.DOWNLOADING = false)
    (hurl : cstr cfg.MAIN_HTTP_FILE_URL = pre ++ '/' :: seg) (hseg : '/' ∉ seg)
    (hne : seg ≠ []) (hopen : io.f_open_ret = FRESULT.FR_OK) :
    store_file_packet cfg s (some d) length io
      = some (store_file_packet_write cfg
          (add_state { s with
              save_file_name := session_file_name cfg s pre.length,
              log := s.log ++ [FileOp.f_open_create
                (cstr (session_file_name cfg s pre.length)) FRESULT.FR_OK],
              file_object := some (cstr (session_file_name cfg s pre.length)),
              volume := if cstr (session_file_name cfg s pre.length) ∈ s.volume then s.volume
                else cstr (session_file_name cfg s pre.length) :: s.volume,
              received_file_size := 0 } cfg.DOWNLOADING) length io) := by
  have h1 : ¬ length < 1 := by omega
  have hscan : scan_back (cstr cfg.MAIN_HTTP_FILE_URL) (strlen (cstr cfg.MAIN_HTTP_FILE_URL))
      = some pre.length := by
    have hlen : strlen (cstr cfg.MAIN_HTTP_FILE_URL) = (pre ++ '/' :: seg).length := by
      rw [strlen, cstr_eq_self (nul_not_mem_cstr _), hurl]
    rw [hlen, hurl]
    exact scan_back_last_slash pre seg hseg _ (by simp)
  have hseglen : strlen ((cstr cfg.MAIN_HTTP_FILE_URL).drop pre.length) > 1 := by
    rw [strlen, cstr_drop_cstr, hurl]
    cases seg with
    | nil => exact absurd rfl hne
    | cons x xs => simp
  simp [store_file_packet, store_file_packet_create, h1, hD, hscan, hseglen, hopen]

theorem flags_facts {cfg : Config} (h : FlagsIndependent cfg) :
    cfg.DOWNLOADING ≠ 0 ∧ cfg.COMPLETED ≠ 0 ∧ cfg.CANCELED ≠ 0 ∧
    cfg.DOWNLOADING &&& cfg.COMPLETED = 0 ∧ cfg.DOWNLOADING &&& cfg.CANCELED = 0 ∧
    cfg.COMPLETED &&& cfg.CANCELED = 0 := by
  obtain ⟨h1, h2⟩ := h
  simp only [List.pairwise_cons, List.mem_cons, List.mem_singleton, forall_eq_or_imp,
    forall_eq] at h1 h2
  tauto

/-- The write block when the write succeeds in full. -/
theorem store_file_packet_write_ok (cfg : Config) (t : State) (length : Nat)
    (io : StorageReply) (hw : io.f_write_ret = FRESULT.FR_OK) (hsz : io.wsize = length)
    (h32 : t.received_file_size + length < 4294967296) :
    store_file_packet_write cfg t length io
      = if t.received_file_size + length ≥ t.http_file_size then
          add_state { t with received_file_size := t.received_file_size + length,
                             file_object := none,
                             log := t.log ++ [FileOp.f_write length FRESULT.FR_OK]
                               ++ [FileOp.f_close] } cfg.COMPLETED
        else { t with received_file_size := t.received_file_size + length,
                      log := t.log ++ [FileOp.f_write length FRESULT.FR_OK] } := by
  have hu : u32 ((t.received_file_size : Int) + (length : Int))
      = t.received_file_size + length := by
    unfold u32; omega
  simp only [store_file_packet_write, hw, hsz, ne_eq, not_true_eq_false, if_false]
  simp only [Nat.cast_add, hu]

/-- Packets stored in full while more bytes are still expected: nothing but
writes happens. -/
theorem store_file_packets_partial (cfg : Config) :
    ∀ (chunks : List StoreCall) (t : State),
      (∀ c ∈ chunks, StoredInFull c) →
      is_state_set t cfg.DOWNLOADING = true →
      t.received_file_size + (chunks.map (fun c => c.length)).sum < t.http_file_size →
      t.http_file_size < 4294967296 →
      ∃ t1, store_file_packets cfg t chunks = some t1 ∧
        t1.log = t.log ++ chunks.map (fun c => FileOp.f_write c.length FRESULT.FR_OK) ∧
        t1.down_state = t.down_state ∧
        t1.received_file_size = t.received_file_size + (chunks.map (fun c => c.length)).sum ∧
        t1.http_file_size = t.http_file_size := by
  intro chunks
  induction chunks with
  | nil => intro t _ _ _ _; exact ⟨t, rfl, by simp, rfl, by simp, rfl⟩
  | cons c rest ih =>
    intro t hall hD hsum h32
    obtain ⟨hd, hl, -, hw, hsz⟩ := hall c (by simp)
    obtain ⟨d, hd2⟩ := Option.ne_none_iff_exists'.1 hd
    simp only [List.map_cons, List.sum_cons] at hsum
    have hstep := store_file_packet_receiving cfg t d c.length c.io hl hD
    rw [store_file_packet_write_ok cfg t c.length c.io hw hsz (by omega)] at hstep
    have hlt : ¬ t.received_file_size + c.length ≥ t.http_file_size := by omega
    simp only [hlt, if_false] at hstep
    obtain ⟨t1, h1, h2, h3, h4, h5⟩ := ih
      { t with received_file_size := t.received_file_size + c.length,
               log := t.log ++ [FileOp.f_write c.length FRESULT.FR_OK] }
      (fun x hx => hall x (by simp [hx])) hD (by simpa using by omega) h32
    refine ⟨t1, ?_, ?_, h3, ?_, h5⟩
    · simp only [store_file_packets, hd2, hstep]
      exact h1
    · rw [h2]; simp
    · rw [h4]; simp only [List.map_cons, List.sum_cons]; omega

/-- Packets stored in full whose lengths add up to what is still expected:
the last call closes the file and sets `COMPLETED`. -/
theorem store_file_packets_final (cfg : Config) :
    ∀ (chunks : List StoreCall) (t : State), chunks ≠ [] →
      (∀ c ∈ chunks, StoredInFull c) →
      is_state_set t cfg.DOWNLOADING = true →
      t.received_file_size + (chunks.map (fun c => c.length)).sum = t.http_file_size →
      t.http_file_size < 4294967296 →
      ∃ t1, store_file_packets cfg t chunks = some t1 ∧
        t1.log = t.log ++ (chunks.map (fun c => FileOp.f_write c.length FRESULT.FR_OK)
          ++ [FileOp.f_close]) ∧
        t1.down_state = t.down_state ||| cfg.COMPLETED ∧
        t1.received_file_size = t.http_file_size := by
  intro chunks
  induction chunks with
  | nil => intro t h; exact absurd rfl h
  | cons c rest ih =>
    intro t _ hall hD hsum h32
    obtain ⟨hd, hl, -, hw, hsz⟩ := hall c (by simp)
    obtain ⟨d, hd2⟩ := Option.ne_none_iff_exists'.1 hd
    simp only [List.map_cons, List.sum_cons] at hsum
    have hstep := store_file_packet_receiving cfg t d c.length c.io hl hD
    rw [store_file_packet_write_ok cfg t c.length c.io hw hsz (by omega)] at hstep
    cases rest with
    | nil =>
      simp only [List.map_nil, List.sum_nil, Nat.add_zero] at hsum
      have hge : t.received_file_size + c.length ≥ t.http_file_size := by omega
      simp only [hge, if_true] at hstep
      simp only [store_file_packets, hd2, hstep]
      refine ⟨_, rfl, ?_, ?_, ?_⟩
      · simp [add_state]
      · simp [add_state]
      · simp only [add_state]; omega
    | cons c2 rest2 =>
      have hc2 : 1 ≤ c2.length := (hall c2 (by simp)).2.1
      simp only [List.map_cons, List.sum_cons] at hsum
      have hlt : ¬ t.received_file_size + c.length ≥ t.http_file_size := by omega
      simp only [hlt, if_false] at hstep
      obtain ⟨t1, h1, h2, h3, h4⟩ := ih
        { t with received_file_size := t.received_file_size + c.length,
                 log := t.log ++ [FileOp.f_write c.length FRESULT.FR_OK] }
        (by simp) (fun x hx => hall x (List.mem_cons_of_mem _ hx)) hD
        (by simp only [List.map_cons, List.sum_cons]; omega) h32
      refine ⟨t1, ?_, ?_, h3, h4⟩
      · simp only [store_file_packets, hd2, hstep] at h1 ⊢
        exact h1
      · rw [h2]; simp

/-! ## File persistence sink: claims -/

set_option maxRecDepth 1000000 in
set_option maxHeartbeats 4000000 in
/-- C5 (the code at a failing input): the URL ends in "/firmware" and
"0:firmware" is on the volume from an earlier download. `rename_to_unique`
fails, `store_file_packet` does not look at its result, and the call creates
(with `FA_CREATE_ALWAYS`, truncating it) the very file that was there. -/
theorem store_file_packet_overwrites_existing_file :
    is_state_set (ready_state 100 0 ["0:firmware".toList]) plain_cfg.DOWNLOADING = false ∧
    "0:firmware".toList ∈ (ready_state 100 0 ["0:firmware".toList]).volume ∧
    (store_file_packet plain_cfg (ready_state 100 0 ["0:firmware".toList])
        (some ['a', 'b']) 2 (io_ok 2)).map (fun s => s.log)
      = some [FileOp.f_open_create "0:firmware".toList FRESULT.FR_OK,
              FileOp.f_write 2 FRESULT.FR_OK] := by
  refine ⟨by decide, by decide, by decide⟩

/-- C6: with an expected size recorded from the response header, `DOWNLOADING`,
`COMPLETED` and `CANCELED` clear, a URL with a last path segment, and one or
more packets stored in full whose lengths add up to the expected size (which
is then positive): after the calls `COMPLETED` is set, `CANCELED` is not, the
received size is the expected size, and the calls issued on the session file
are one creation, one write per packet and one close, the close coming from
the call that stored the last packet: after any shorter run of the packets
nothing has been closed and `COMPLETED` is not set. -/
theorem store_file_packets_complete (cfg : Config) (s : State) (chunks : List StoreCall)
    (pre seg : List Char) (hflags : FlagsIndependent cfg)
    (hurl : cstr cfg.MAIN_HTTP_FILE_URL = pre ++ '/' :: seg) (hseg : '/' ∉ seg)
    (hne : seg ≠ []) (hE32 : s.http_file_size < 4294967296) (hN : chunks ≠ [])
    (hchunks : ∀ c ∈ chunks, StoredInFull c)
    (hsum : (chunks.map (fun c => c.length)).sum = s.http_file_size)
    (hR : is_state_set s cfg.DOWNLOADING = false)
    (hCm : is_state_set s cfg.COMPLETED = false)
    (hCn : is_state_set s cfg.CANCELED = false) :
    ∃ s1, store_file_packets cfg s chunks = some s1 ∧
      is_state_set s1 cfg.COMPLETED = true ∧ is_state_set s1 cfg.CANCELED = false ∧
      s1.received_file_size = s.http_file_size ∧
      (∃ name, s1.log = s.log ++ FileOp.f_open_create name FRESULT.FR_OK ::
        (chunks.map (fun c => FileOp.f_write c.length FRESULT.FR_OK) ++ [FileOp.f_close])) ∧
      ∀ first rest, chunks = first ++ rest → rest ≠ [] →
        ∃ t, store_file_packets cfg s first = some t ∧
          FileOp.f_close ∉ t.log.drop s.log.length ∧ is_state_set t cfg.COMPLETED = false := by
  obtain ⟨hD0, hC0, -, hDC, hDN, hCN⟩ := flags_facts hflags
  -- the state in which the first packet is written
  obtain ⟨s0, hs0, hs0D, hs0log, hs0ds, hs0r, hs0h⟩ : ∃ s0 : State,
      (∀ (d : List Char) (length : Nat) (io : StorageReply), 1 ≤ length →
        io.f_open_ret = FRESULT.FR_OK →
        store_file_packet cfg s (some d) length io = store_file_packet cfg s0 (some d) length io) ∧
      is_state_set s0 cfg.DOWNLOADING = true ∧
      (∃ name, s0.log = s.log ++ [FileOp.f_open_create name FRESULT.FR_OK]) ∧
      s0.down_state = s.down_state ||| cfg.DOWNLOADING ∧
      s0.received_file_size = 0 ∧ s0.http_file_size = s.http_file_size := by
    refine ⟨add_state { s with
        save_file_name := session_file_name cfg s pre.length,
        log := s.log ++ [FileOp.f_open_create
          (cstr (session_file_name cfg s pre.length)) FRESULT.FR_OK],
        file_object := some (cstr (session_file_name cfg s pre.length)),
        volume := if cstr (session_file_name cfg s pre.length) ∈ s.volume then s.volume
          else cstr (session_file_name cfg s pre.length) :: s.volume,
        received_file_size := 0 } cfg.DOWNLOADING, ?_, is_state_set_add_same _ hD0,
      ⟨_, rfl⟩, rfl, rfl, rfl⟩
    intro d length io hl hopen
    rw [store_file_packet_first cfg s d length io pre seg hl hR hurl hseg hne hopen,
      store_file_packet_receiving cfg _ d length io hl (is_state_set_add_same _ hD0)]
  -- runs of packets from `s` and from `s0` agree once there is a packet
  have hrun : ∀ l : List StoreCall, l ≠ [] → (∀ c ∈ l, StoredInFull c) →
      store_file_packets cfg s l = store_file_packets cfg s0 l := by
    intro l hl hall
    cases l with
    | nil => exact absurd rfl hl
    | cons c rest =>
      obtain ⟨hd, hlen, hopen, -, -⟩ := hall c (by simp)
      obtain ⟨d, hd2⟩ := Option.ne_none_iff_exists'.1 hd
      simp only [store_file_packets, hd2, hs0 d c.length c.io hlen hopen]
  have hflag : ∀ m, cfg.DOWNLOADING &&& m = 0 → ∀ t : State,
      t.down_state = s0.down_state → is_state_set t m = is_state_set s m := by
    intro m hm t ht
    simp only [is_state_set, ht, hs0ds, Nat.and_distrib_right, hm, Nat.or_zero]
  obtain ⟨name, hname⟩ := hs0log
  obtain ⟨s1, h1, h2, h3, h4⟩ := store_file_packets_final cfg chunks s0 hN hchunks hs0D
    (by rw [hs0r, hs0h]; omega) (by rw [hs0h]; exact hE32)
  refine ⟨s1, by rw [hrun chunks hN hchunks]; exact h1, ?_, ?_, by rw [h4, hs0h],
    ⟨name, by rw [h2, hname]; simp⟩, ?_⟩
  · have := is_state_set_add_same s0 hC0
    simpa [is_state_set, add_state, h3] using this
  · have e1 : is_state_set s1 cfg.CANCELED = is_state_set s0 cfg.CANCELED := by
      simp only [is_state_set, h3, Nat.and_distrib_right, hCN, Nat.or_zero]
    rw [e1, hflag _ hDN s0 rfl, hCn]
  · intro first rest hsplit hrest
    cases first with
    | nil => exact ⟨s, rfl, by simp, hCm⟩
    | cons c first2 =>
      have hall1 : ∀ x ∈ c :: first2, StoredInFull x := fun x hx =>
        hchunks x (by rw [hsplit]; exact List.mem_append_left _ hx)
      have hrest1 : 1 ≤ (rest.map (fun c => c.length)).sum := by
        cases rest with
        | nil => exact absurd rfl hrest
        | cons r rs =>
          have : 1 ≤ r.length := (hchunks r (by rw [hsplit]; simp)).2.1
          simp only [List.map_cons, List.sum_cons]
          omega
      have hsum2 : ((c :: first2).map (fun c => c.length)).sum
          + (rest.map (fun c => c.length)).sum = s.http_file_size := by
        rw [← hsum, hsplit, List.map_append, List.sum_append]
      obtain ⟨t, ht1, ht2, ht3, -, -⟩ := store_file_packets_partial cfg (c :: first2) s0 hall1
        hs0D (by rw [hs0r, hs0h]; omega) (by rw [hs0h]; exact hE32)
      refine ⟨t, by rw [hrun _ (by simp) hall1]; exact ht1, ?_, ?_⟩
      · rw [ht2, hname]
        simp [List.drop_append_eq_append_drop]
      · rw [hflag _ hDC t ht3, hCm]

/-- Witness of C6: five bytes expected, delivered as packets of three and two
bytes. -/
theorem store_file_packets_complete_witness :
    FlagsIndependent demo_cfg ∧
    (∀ c ∈ [StoreCall.mk (some ['a', 'b', 'c']) 3 (io_ok 3),
        StoreCall.mk (some ['d', 'e']) 2 (io_ok 2)], StoredInFull c) ∧
    ∃ s1, store_file_packets demo_cfg (ready_state 5 0 [])
        [StoreCall.mk (some ['a', 'b', 'c']) 3 (io_ok 3),
          StoreCall.mk (some ['d', 'e']) 2 (io_ok 2)] = some s1 ∧
      is_state_set s1 demo_cfg.COMPLETED = true ∧
      is_state_set s1 demo_cfg.CANCELED = false ∧
      s1.received_file_size = (ready_state 5 0 []).http_file_size ∧
      (∃ name, s1.log = (ready_state 5 0 []).log ++ FileOp.f_open_create name FRESULT.FR_OK ::
        ([StoreCall.mk (some ['a', 'b', 'c']) 3 (io_ok 3),
            StoreCall.mk (some ['d', 'e']) 2 (io_ok 2)].map
          (fun c => FileOp.f_write c.length FRESULT.FR_OK) ++ [FileOp.f_close])) ∧
      ∀ first rest, [StoreCall.mk (some ['a', 'b', 'c']) 3 (io_ok 3),
          StoreCall.mk (some ['d', 'e']) 2 (io_ok 2)] = first ++ rest → rest ≠ [] →
        ∃ t, store_file_packets demo_cfg (ready_state 5 0 []) first = some t ∧
          FileOp.f_close ∉ t.log.drop (ready_state 5 0 []).log.length ∧
          is_state_set t demo_cfg.COMPLETED = false :=
  ⟨by decide, by decide,
    store_file_packets_complete demo_cfg (ready_state 5 0 [])
      [StoreCall.mk (some ['a', 'b', 'c']) 3 (io_ok 3), StoreCall.mk (some ['d', 'e']) 2 (io_ok 2)]
      "http://www.microchip.com/Images".toList
      "45093A-SmartConnectWINC1500_E_US_101014_web.pdf".toList
      (by decide) (by decide) (by decide) (by decide) (by decide) (by decide) (by decide)
      (by decide) (by decide) (by decide) (by decide)⟩

/-- The write block when the write is rejected: one close, `CANCELED`, and
the received size as it was. -/
theorem store_file_packet_write_error (cfg : Config) (t : State) (length : Nat)
    (io : StorageReply) (hw : io.f_write_ret ≠ FRESULT.FR_OK) :
    store_file_packet_write cfg t length io
      = add_state { t with file_object := none,
                           log := t.log ++ [FileOp.f_write length io.f_write_ret]
                             ++ [FileOp.f_close] } cfg.CANCELED := by
  simp [store_file_packet_write, hw]

set_option maxRecDepth 100000 in
/-- C7 (counterexample to the claim as stated): a first packet arrives while
`received_file_size` still holds 5; the file is created, the write is
rejected, and the call leaves the received size at 0, not at 5. -/
theorem store_file_packet_write_error_resets_size :
    (ready_state 100 5 []).received_file_size = 5 ∧
    (store_file_packet demo_cfg (ready_state 100 5 []) (some ['a', 'b']) 2 io_write_error).map
        (fun s => (s.received_file_size, s.log))
      = some (0, [FileOp.f_open_create demo_name FRESULT.FR_OK,
                  FileOp.f_write 2 (FRESULT.FR_ERR 1), FileOp.f_close]) := by
  refine ⟨by decide, by decide⟩

/-- C7 (amended): a `store_file_packet` call with non-empty data whose write
is rejected (the write is reached: `DOWNLOADING` is set, or the URL has a last
path segment and the file creation succeeds) issues exactly one close, sets
`CANCELED`, leaves `COMPLETED` as it was, and leaves the received size as it
was when `DOWNLOADING` was set at entry; on a first call the received size is
the 0 that the creation of the session reset it to. -/
theorem store_file_packet_write_error_cancels (cfg : Config) (s : State) (d : List Char)
    (length : Nat) (io : StorageReply) (pre seg : List Char) (hflags : FlagsIndependent cfg)
    (hl : 1 ≤ length) (hw : io.f_write_ret ≠ FRESULT.FR_OK)
    (hreach : is_state_set s cfg.DOWNLOADING = true ∨
      (cstr cfg.MAIN_HTTP_FILE_URL = pre ++ '/' :: seg ∧ '/' ∉ seg ∧ seg ≠ [] ∧
        io.f_open_ret = FRESULT.FR_OK)) :
    ∃ s1, store_file_packet cfg s (some d) length io = some s1 ∧
      (s1.log.drop s.log.length).count FileOp.f_close = 1 ∧
      is_state_set s1 cfg.CANCELED = true ∧
      is_state_set s1 cfg.COMPLETED = is_state_set s cfg.COMPLETED ∧
      s1.received_file_size
        = if is_state_set s cfg.DOWNLOADING then s.received_file_size else 0 := by
  obtain ⟨hD0, -, hN0, hDC, -, hCN⟩ := flags_facts hflags
  have hNC : cfg.CANCELED &&& cfg.COMPLETED = 0 := by rw [Nat.and_comm]; exact hCN
  cases hD : is_state_set s cfg.DOWNLOADING with
  | true =>
    rw [store_file_packet_receiving cfg s d length io hl hD,
      store_file_packet_write_error cfg s length io hw]
    refine ⟨_, rfl, ?_, is_state_set_add_same _ hN0, ?_, ?_⟩
    · simp [add_state, List.drop_append_eq_append_drop, List.count_cons]
    · rw [is_state_set_add_other _ hNC]; rfl
    · simp [add_state]
  | false =>
    rcases hreach with h | ⟨hurl, hseg, hne, hopen⟩
    · rw [hD] at h; exact absurd h (by decide)
    · rw [store_file_packet_first cfg s d length io pre seg hl hD hurl hseg hne hopen,
        store_file_packet_write_error cfg _ length io hw]
      refine ⟨_, rfl, ?_, is_state_set_add_same _ hN0, ?_, ?_⟩
      · simp [add_state, List.drop_append_eq_append_drop, List.count_cons]
      · rw [is_state_set_add_other _ hNC]
        exact is_state_set_add_other _ hDC
      · simp [add_state]

/-- Witness of C7 (amended): the first packet of a transfer, write rejected. -/
theorem store_file_packet_write_error_cancels_witness :
    FlagsIndependent demo_cfg ∧ io_write_error.f_write_ret ≠ FRESULT.FR_OK ∧
    ∃ s1, store_file_packet demo_cfg (ready_state 100 5 []) (some ['a', 'b']) 2 io_write_error
        = some s1 ∧
      (s1.log.drop (ready_state 100 5 []).log.length).count FileOp.f_close = 1 ∧
      is_state_set s1 demo_cfg.CANCELED = true ∧
      is_state_set s1 demo_cfg.COMPLETED
        = is_state_set (ready_state 100 5 []) demo_cfg.COMPLETED ∧
      s1.received_file_size
        = if is_state_set (ready_state 100 5 []) demo_cfg.DOWNLOADING
          then (ready_state 100 5 []).received_file_size else 0 :=
  ⟨by decide, by decide,
    store_file_packet_write_error_cancels demo_cfg (ready_state 100 5 []) ['a', 'b'] 2
      io_write_error "http://www.microchip.com/Images".toList
      "45093A-SmartConnectWINC1500_E_US_101014_web.pdf".toList
      (by decide) (by decide) (by decide)
      (Or.inr ⟨by decide, by decide, by decide, by decide⟩)⟩

set_option maxRecDepth 100000 in
/-- C8 (counterexample to the claim as stated): a rejected write on the first
packet leaves `canceled_state`, with `CANCELED` set; the next packet is not
turned away: the call issues the write again and, on its rejection, a second
close. -/
theorem store_file_packet_after_write_error :
    store_file_packet demo_cfg (ready_state 100 0 []) (some ['a', 'b']) 2 io_write_error
      = some canceled_state ∧
    is_state_set canceled_state demo_cfg.CANCELED = true ∧
    (store_file_packet demo_cfg canceled_state (some ['c', 'd']) 2 io_write_error).map
        (fun s => s.log)
      = some (canceled_state.log ++ [FileOp.f_write 2 (FRESULT.FR_ERR 1), FileOp.f_close]) := by
  refine ⟨by decide, by decide, by decide⟩

/-- C8 (amended): in a state as a rejected write leaves it (`DOWNLOADING` set,
every bit of `CANCELED` set) `store_file_packet` has no guard on `CANCELED`:
a call with null or empty data does nothing, and a call with non-empty data
creates no file, issues the write and, when that write is rejected, one more
close; flags, sizes, file name and volume stay as they were. -/
theorem store_file_packet_canceled_session (cfg : Config) (s : State) (d : List Char)
    (length : Nat) (io : StorageReply)
    (hD : is_state_set s cfg.DOWNLOADING = true)
    (hC : s.down_state ||| cfg.CANCELED = s.down_state) :
    store_file_packet cfg s none length io = some s ∧
    store_file_packet cfg s (some d) 0 io = some s ∧
    (1 ≤ length → io.f_write_ret ≠ FRESULT.FR_OK →
      store_file_packet cfg s (some d) length io
        = some { s with file_object := none,
                        log := s.log ++ [FileOp.f_write length io.f_write_ret,
                                         FileOp.f_close] }) := by
  refine ⟨by simp [store_file_packet], by simp [store_file_packet], fun hl hw => ?_⟩
  rw [store_file_packet_receiving cfg s d length io hl hD,
    store_file_packet_write_error cfg s length io hw]
  simp [add_state, hC]

/-- Witness of C8 (amended): `canceled_state`, the state that a rejected write
on the first packet leaves. -/
theorem store_file_packet_canceled_session_witness :
    is_state_set canceled_state demo_cfg.DOWNLOADING = true ∧
    canceled_state.down_state ||| demo_cfg.CANCELED = canceled_state.down_state ∧
    store_file_packet demo_cfg canceled_state none 2 io_write_error = some canceled_state ∧
    store_file_packet demo_cfg canceled_state (some ['c', 'd']) 0 io_write_error
      = some canceled_state ∧
    (1 ≤ 2 → io_write_error.f_write_ret ≠ FRESULT.FR_OK →
      store_file_packet demo_cfg canceled_state (some ['c', 'd']) 2 io_write_error
        = some { canceled_state with
            file_object := none,
            log := canceled_state.log ++ [FileOp.f_write 2 io_write_error.f_write_ret,
                                          FileOp.f_close] }) :=
  ⟨by decide, by decide,
    store_file_packet_canceled_session demo_cfg canceled_state ['c', 'd'] 2 io_write_error
      (by decide) (by decide)⟩

set_option maxRecDepth 100000 in
/-- C9 (the code at a failing input): first packet of a transfer, the URL has
a last path segment, the storage refuses to create the file. The call
returns with the state mask as it was: `CANCELED` is not set. -/
theorem store_file_packet_open_error_not_canceled :
    store_file_packet demo_cfg (ready_state 100 0 []) (some ['a', 'b']) 2 io_open_error
      = some { ready_state 100 0 [] with
          save_file_name := buffer_of demo_name 251,
          log := [FileOp.f_open_create demo_name (FRESULT.FR_ERR 1)] } ∧
    is_state_set { ready_state 100 0 [] with
        save_file_name := buffer_of demo_name 251,
        log := [FileOp.f_open_create demo_name (FRESULT.FR_ERR 1)] } demo_cfg.CANCELED
      = false := by
  refine ⟨by decide, by decide⟩

/-- C10: a `store_file_packet` call with null data or with a length below 1
returns the state it was given: flags, sizes, file name, file object, volume
and the log of file calls are unchanged; and so is the state after any
sequence of such calls. -/
theorem store_file_packet_empty_noop (cfg : Config) (s : State) (calls : List StoreCall)
    (hempty : ∀ c ∈ calls, c.data = none ∨ c.length < 1) :
    (∀ c ∈ calls, store_file_packet cfg s c.data c.length c.io = some s) ∧
    store_file_packets cfg s calls = some s := by
  have h1 : ∀ c ∈ calls, store_file_packet cfg s c.data c.length c.io = some s := by
    intro c hc
    unfold store_file_packet
    rw [if_pos (hempty c hc)]
  refine ⟨h1, ?_⟩
  induction calls with
  | nil => rfl
  | cons c rest ih =>
    simp only [store_file_packets, h1 c (by simp)]
    exact ih (fun x hx => hempty x (by simp [hx])) (fun x hx => h1 x (by simp [hx]))

/-- Witness of C10: a null packet, then an empty one, in the middle of a
transfer. -/
theorem store_file_packet_empty_noop_witness :
    (∀ c ∈ [StoreCall.mk none 4 (io_ok 4), StoreCall.mk (some ['a']) 0 (io_ok 0)],
      c.data = none ∨ c.length < 1) ∧
    (∀ c ∈ [StoreCall.mk none 4 (io_ok 4), StoreCall.mk (some ['a']) 0 (io_ok 0)],
      store_file_packet demo_cfg canceled_state c.data c.length c.io = some canceled_state) ∧
    store_file_packets demo_cfg canceled_state
      [StoreCall.mk none 4 (io_ok 4), StoreCall.mk (some ['a']) 0 (io_ok 0)]
      = some canceled_state :=
  ⟨by decide, store_file_packet_empty_noop demo_cfg canceled_state
    [StoreCall.mk none 4 (io_ok 4), StoreCall.mk (some ['a']) 0 (io_ok 0)] (by decide)⟩

/-! ## State tracker: claims -/

/-- Bit `i` of the mask after `clear_state`: set when it was set and is not a
bit of `m`. -/
theorem clear_state_testBit (s : State) (m i : Nat) :
    (clear_state s m).down_state.testBit i = (s.down_state.testBit i && !m.testBit i) := by
  simp only [clear_state, Nat.testBit_xor, Nat.testBit_and]
  cases s.down_state.testBit i <;> cases m.testBit i <;> rfl

theorem is_state_set_clear_same (s : State) (m : Nat) :
    is_state_set (clear_state s m) m = false := by
  have h : (clear_state s m).down_state &&& m = 0 := by
    apply Nat.eq_of_testBit_eq
    intro i
    simp only [Nat.testBit_and, clear_state_testBit, Nat.zero_testBit]
    cases s.down_state.testBit i <;> cases m.testBit i <;> rfl
  simp [is_state_set, h]

theorem is_state_set_clear_other (s : State) {m n : Nat} (h : m &&& n = 0) :
    is_state_set (clear_state s m) n = is_state_set s n := by
  have h2 : (clear_state s m).down_state &&& n = s.down_state &&& n := by
    apply Nat.eq_of_testBit_eq
    intro i
    have hi : (m &&& n).testBit i = false := by rw [h]; exact Nat.zero_testBit i
    simp only [Nat.testBit_and] at hi
    simp only [Nat.testBit_and, clear_state_testBit]
    cases s.down_state.testBit i <;> cases hm : m.testBit i <;> cases hn : n.testBit i <;>
      simp_all
  simp [is_state_set, h2]

/-- C18: for every state `s`, every non-zero mask `m` and every mask `n` that
shares no bit with `m`: `is_state_set m` is true after `add_state m` and false
after `clear_state m`; both leave `is_state_set n` as it was; a second
`add_state m` or `clear_state m` changes nothing; and neither touches
anything but the mask. -/
theorem state_tracker_algebra (s : State) (m n : Nat) (hm : m ≠ 0) (hmn : m &&& n = 0) :
    is_state_set (add_state s m) m = true ∧
    is_state_set (clear_state s m) m = false ∧
    is_state_set (add_state s m) n = is_state_set s n ∧
    is_state_set (clear_state s m) n = is_state_set s n ∧
    add_state (add_state s m) m = add_state s m ∧
    clear_state (clear_state s m) m = clear_state s m ∧
    { add_state s m with down_state := s.down_state } = s ∧
    { clear_state s m with down_state := s.down_state } = s := by
  refine ⟨is_state_set_add_same s hm, is_state_set_clear_same s m,
    is_state_set_add_other s hmn, is_state_set_clear_other s hmn, ?_, ?_, rfl, rfl⟩
  · simp [add_state, Nat.or_assoc]
  · have h : (clear_state (clear_state s m) m).down_state = (clear_state s m).down_state := by
      apply Nat.eq_of_testBit_eq
      intro i
      simp only [clear_state_testBit]
      cases s.down_state.testBit i <;> cases m.testBit i <;> rfl
    simp only [clear_state] at h ⊢
    rw [h]

/-- Witness of C18: `DOWNLOADING` and `CANCELED` on the mask 7. -/
theorem state_tracker_algebra_witness :
    (8 : Nat) ≠ 0 ∧ (8 : Nat) &&& 32 = 0 ∧
    is_state_set (add_state (ready_state 0 0 []) 8) 8 = true ∧
    is_state_set (clear_state (ready_state 0 0 []) 8) 8 = false ∧
    is_state_set (add_state (ready_state 0 0 []) 8) 32 = is_state_set (ready_state 0 0 []) 32 ∧
    is_state_set (clear_state (ready_state 0 0 []) 8) 32
      = is_state_set (ready_state 0 0 []) 32 ∧
    add_state (add_state (ready_state 0 0 []) 8) 8 = add_state (ready_state 0 0 []) 8 ∧
    clear_state (clear_state (ready_state 0 0 []) 8) 8 = clear_state (ready_state 0 0 []) 8 ∧
    { add_state (ready_state 0 0 []) 8 with down_state := (ready_state 0 0 []).down_state }
      = ready_state 0 0 [] ∧
    { clear_state (ready_state 0 0 []) 8 with down_state := (ready_state 0 0 []).down_state }
      = ready_state 0 0 [] :=
  ⟨by decide, by decide, state_tracker_algebra (ready_state 0 0 []) 8 32 (by decide) (by decide)⟩

/-! ## Transfer orchestrator: claims -/

/-- `start_download` issues the download request when its four guards pass
and does nothing otherwise. -/
theorem start_download_eq (cfg : AppConfig) (a : App) :
    start_download cfg a
      = if dispatch_guards cfg a then { a with requests := a.requests ++ [download_request cfg] }
        else a := by
  unfold start_download dispatch_guards http_client_send_request download_request
  cases is_state_set a.core cfg.STORAGE_READY <;>
    cases is_state_set a.core cfg.WIFI_CONNECTED <;>
    cases is_state_set a.core cfg.GET_REQUESTED <;>
    cases is_state_set a.core cfg.DOWNLOADING <;> rfl

/-- C11: in every state `start_download` issues exactly one request, the GET
of the configured download URL without entity, when `STORAGE_READY` and
`WIFI_CONNECTED` are set and `GET_REQUESTED` and `DOWNLOADING` are clear, and
no request otherwise; the state mask, like everything else but the list of
issued requests, is left as it was. -/
theorem start_download_dispatch (cfg : AppConfig) (a : App) :
    (start_download cfg a).requests
      = (if is_state_set a.core cfg.STORAGE_READY = true ∧
            is_state_set a.core cfg.WIFI_CONNECTED = true ∧
            is_state_set a.core cfg.GET_REQUESTED = false ∧
            is_state_set a.core cfg.DOWNLOADING = false
          then a.requests ++ [Request.mk cfg.MAIN_HTTP_FILE_URL http_method.HTTP_METHOD_GET none]
          else a.requests) ∧
    (start_download cfg a).core = a.core ∧
    { start_download cfg a with requests := a.requests } = a := by
  unfold start_download http_client_send_request
  cases is_state_set a.core cfg.STORAGE_READY <;>
    cases is_state_set a.core cfg.WIFI_CONNECTED <;>
    cases is_state_set a.core cfg.GET_REQUESTED <;>
    cases is_state_set a.core cfg.DOWNLOADING <;> simp

/-- C12 (counterexample to the claim as stated): only `WIFI_CONNECTED` is set,
`STORAGE_READY` is clear, and `start_post_data` issues its POST. -/
theorem start_post_data_without_storage :
    is_state_set (app_with_flags 2).core demo_app_cfg.STORAGE_READY = false ∧
    (start_post_data demo_app_cfg (app_with_flags 2) ["key1".toList, "key2".toList]
        ["value1".toList, "value2".toList] 2).requests
      = [Request.mk (app_with_flags 2).http_url http_method.HTTP_METHOD_POST
          (some { file_format := fileFormat.HTTP_FILE_FORMAT_NONE, is_chunked := 0,
                  priv_data := some (buffer_of "key1=value1&key2=value2".toList 60),
                  file_object := none })] := by
  refine ⟨by decide, by decide⟩

/-- C12 (amended): in a state with `STORAGE_READY` clear, `start_download` and
`start_upload_file` refuse: they issue no request and change nothing;
`start_post_data` has no storage guard: it issues exactly one POST to
`http_url` when `WIFI_CONNECTED` is set and `GET_REQUESTED` and `DOWNLOADING`
are clear, and none otherwise. -/
theorem dispatch_without_storage (cfg : AppConfig) (a : App) (file_name upload_key
    upload_value : List Char) (file_format : fileFormat) (opened : Option FIL)
    (key value : List (List Char)) (key_num : Int)
    (hS : is_state_set a.core cfg.STORAGE_READY = false) :
    start_download cfg a = a ∧
    start_upload_file cfg a file_name file_format upload_key upload_value opened = a ∧
    ∃ entity, (start_post_data cfg a key value key_num).requests
      = if is_state_set a.core cfg.WIFI_CONNECTED = true ∧
            is_state_set a.core cfg.GET_REQUESTED = false ∧
            is_state_set a.core cfg.DOWNLOADING = false
        then a.requests ++ [Request.mk a.http_url http_method.HTTP_METHOD_POST entity]
        else a.requests := by
  refine ⟨by simp [start_download, hS], by simp [start_upload_file, hS], ?_⟩
  unfold start_post_data http_client_send_request _example_http_set_default_entity
  cases is_state_set a.core cfg.WIFI_CONNECTED <;>
    cases is_state_set a.core cfg.GET_REQUESTED <;>
    cases is_state_set a.core cfg.DOWNLOADING <;>
    by_cases hk : key_num > 0 <;> simp [hk]

/-- Witness of C12 (amended): only `WIFI_CONNECTED` is set. -/
theorem dispatch_without_storage_witness :
    is_state_set (app_with_flags 2).core demo_app_cfg.STORAGE_READY = false ∧
    start_download demo_app_cfg (app_with_flags 2) = app_with_flags 2 ∧
    start_upload_file demo_app_cfg (app_with_flags 2) "test.txt".toList
      fileFormat.HTTP_FILE_FORMAT_TXT "key1".toList "value1".toList none = app_with_flags 2 ∧
    ∃ entity, (start_post_data demo_app_cfg (app_with_flags 2) ["key1".toList]
        ["value1".toList] 1).requests
      = if is_state_set (app_with_flags 2).core demo_app_cfg.WIFI_CONNECTED = true ∧
            is_state_set (app_with_flags 2).core demo_app_cfg.GET_REQUESTED = false ∧
            is_state_set (app_with_flags 2).core demo_app_cfg.DOWNLOADING = false
        then (app_with_flags 2).requests
          ++ [Request.mk (app_with_flags 2).http_url http_method.HTTP_METHOD_POST entity]
        else (app_with_flags 2).requests :=
  ⟨by decide, dispatch_without_storage demo_app_cfg (app_with_flags 2) "test.txt".toList
    "key1".toList "value1".toList fileFormat.HTTP_FILE_FORMAT_TXT none ["key1".toList]
    ["value1".toList] 1 (by decide)⟩

/-- C14: the handling of a Disconnected event whose reason is not `-EAGAIN`
leaves the whole program state as it was: no request is issued, and the state
mask, the expected and received sizes and the session file are unchanged. -/
theorem http_client_callback_other_disconnect (cfg : AppConfig) (a : App) (reason : Int)
    (io : StorageReply) (hreason : reason ≠ -cfg.EAGAIN) :
    http_client_callback cfg a (ClientEvent.DISCONNECTED reason) io = some a := by
  simp [http_client_callback, hreason]

/-- Witness of C14: the reason -104 (`-ECONNRESET`) in the middle of a
download. -/
theorem http_client_callback_other_disconnect_witness :
    (-104 : Int) ≠ -demo_app_cfg.EAGAIN ∧
    http_client_callback demo_app_cfg (app_with_flags 15) (ClientEvent.DISCONNECTED (-104))
      (io_ok 0) = some (app_with_flags 15) :=
  ⟨by decide, http_client_callback_other_disconnect demo_app_cfg (app_with_flags 15) (-104)
    (io_ok 0) (by decide)⟩

/-- C15: on a response-headers event whose status code is not 200, whatever
the content length and the inline content, `http_client_callback` sets
`CANCELED` and changes nothing else: `COMPLETED` is as it was, no file call is
issued, no request is issued, and the expected and received sizes are
unchanged. -/
theorem http_client_callback_error_status (cfg : AppConfig) (a : App)
    (response_code content_length : Nat) (content : Option (List Char)) (io : StorageReply)
    (hflags : FlagsIndependent cfg.toConfig) (hcode : response_code ≠ 200) :
    http_client_callback cfg a
        (ClientEvent.RECV_RESPONSE response_code content_length content) io
      = some { a with core := add_state a.core cfg.CANCELED } ∧
    is_state_set (add_state a.core cfg.CANCELED) cfg.CANCELED = true ∧
    is_state_set (add_state a.core cfg.CANCELED) cfg.COMPLETED
      = is_state_set a.core cfg.COMPLETED ∧
    (add_state a.core cfg.CANCELED).log = a.core.log ∧
    (add_state a.core cfg.CANCELED).file_object = a.core.file_object ∧
    (add_state a.core cfg.CANCELED).volume = a.core.volume ∧
    (add_state a.core cfg.CANCELED).http_file_size = a.core.http_file_size ∧
    (add_state a.core cfg.CANCELED).received_file_size = a.core.received_file_size := by
  obtain ⟨-, -, hN0, -, -, hCN⟩ := flags_facts hflags
  have hNC : cfg.CANCELED &&& cfg.COMPLETED = 0 := by rw [Nat.and_comm]; exact hCN
  refine ⟨by simp [http_client_callback, hcode], is_state_set_add_same _ hN0,
    is_state_set_add_other _ hNC, rfl, rfl, rfl, rfl, rfl⟩

/-- Witness of C15: status 404 with a content length of 512 and inline
content. -/
theorem http_client_callback_error_status_witness :
    FlagsIndependent demo_app_cfg.toConfig ∧ (404 : Nat) ≠ 200 ∧
    http_client_callback demo_app_cfg (app_with_flags 7)
        (ClientEvent.RECV_RESPONSE 404 512 (some ['x'])) (io_ok 512)
      = some { app_with_flags 7 with
          core := add_state (app_with_flags 7).core demo_app_cfg.CANCELED } ∧
    is_state_set (add_state (app_with_flags 7).core demo_app_cfg.CANCELED)
      demo_app_cfg.CANCELED = true ∧
    is_state_set (add_state (app_with_flags 7).core demo_app_cfg.CANCELED)
        demo_app_cfg.COMPLETED
      = is_state_set (app_with_flags 7).core demo_app_cfg.COMPLETED ∧
    (add_state (app_with_flags 7).core demo_app_cfg.CANCELED).log
      = (app_with_flags 7).core.log ∧
    (add_state (app_with_flags 7).core demo_app_cfg.CANCELED).file_object
      = (app_with_flags 7).core.file_object ∧
    (add_state (app_with_flags 7).core demo_app_cfg.CANCELED).volume
      = (app_with_flags 7).core.volume ∧
    (add_state (app_with_flags 7).core demo_app_cfg.CANCELED).http_file_size
      = (app_with_flags 7).core.http_file_size ∧
    (add_state (app_with_flags 7).core demo_app_cfg.CANCELED).received_file_size
      = (app_with_flags 7).core.received_file_size :=
  ⟨by decide, by decide, http_client_callback_error_status demo_app_cfg (app_with_flags 7)
    404 512 (some ['x']) (io_ok 512) (by decide) (by decide)⟩

theorem flags_facts_ready {cfg : Config} (h : FlagsIndependent cfg) :
    cfg.DOWNLOADING &&& cfg.STORAGE_READY = 0 ∧ cfg.DOWNLOADING &&& cfg.WIFI_CONNECTED = 0 ∧
    cfg.GET_REQUESTED &&& cfg.STORAGE_READY = 0 ∧ cfg.GET_REQUESTED &&& cfg.WIFI_CONNECTED = 0 ∧
    cfg.DOWNLOADING &&& cfg.GET_REQUESTED = 0 ∧ cfg.GET_REQUESTED &&& cfg.DOWNLOADING = 0 := by
  obtain ⟨-, h2⟩ := h
  simp only [List.pairwise_cons, List.mem_cons, List.mem_singleton, forall_eq_or_imp,
    forall_eq] at h2
  obtain ⟨⟨-, h13, h14, -, -⟩, ⟨h23, h24, -, -⟩, ⟨h34, -, -⟩, -⟩ := h2
  refine ⟨by rw [Nat.and_comm]; exact h14, by rw [Nat.and_comm]; exact h24,
    by rw [Nat.and_comm]; exact h13, by rw [Nat.and_comm]; exact h23,
    by rw [Nat.and_comm]; exact h34, h34⟩

/-- The storing of a packet from the callback changes nothing but the state
of the sink. -/
theorem store_if_nvm_requests (cfg : AppConfig) (a a1 : App) (data : Option (List Char))
    (length : Nat) (io : StorageReply) (h : store_if_nvm cfg a data length io = some a1) :
    a1.requests = a.requests := by
  unfold store_if_nvm at h
  cases hn : cfg.STORE_TO_NVM with
  | false =>
    simp only [hn, Bool.false_eq_true, if_false, Option.some.injEq] at h
    rw [← h]
  | true =>
    simp only [hn, if_true, Option.map_eq_some'] at h
    obtain ⟨s, -, hs⟩ := h
    rw [← hs]

/-- The handling of a Disconnected event with the reason `-EAGAIN`: the
download request is issued when `STORAGE_READY` and `WIFI_CONNECTED` are set,
and nothing is issued otherwise. -/
theorem transient_disconnect_requests (cfg : AppConfig) (a : App) (io : StorageReply)
    (hflags : FlagsIndependent cfg.toConfig) :
    ∃ a1, http_client_callback cfg a (ClientEvent.DISCONNECTED (-cfg.EAGAIN)) io = some a1 ∧
      a1.requests
        = if is_state_set a.core cfg.STORAGE_READY = true ∧
              is_state_set a.core cfg.WIFI_CONNECTED = true
          then a.requests ++ [download_request cfg] else a.requests := by
  obtain ⟨hDS, hDW, hGS, hGW, hDG, hGD⟩ := flags_facts_ready hflags
  -- the state in which `start_download` is called
  obtain ⟨a2, ha2, hreq, hS, hW, hG, hD⟩ : ∃ a2 : App,
      http_client_callback cfg a (ClientEvent.DISCONNECTED (-cfg.EAGAIN)) io
        = some (start_download cfg a2) ∧
      a2.requests = a.requests ∧
      is_state_set a2.core cfg.STORAGE_READY = is_state_set a.core cfg.STORAGE_READY ∧
      is_state_set a2.core cfg.WIFI_CONNECTED = is_state_set a.core cfg.WIFI_CONNECTED ∧
      is_state_set a2.core cfg.GET_REQUESTED = false ∧
      is_state_set a2.core cfg.DOWNLOADING = false := by
    simp only [http_client_callback, if_true]
    cases hD : is_state_set a.core cfg.DOWNLOADING with
    | false =>
      simp only [Bool.false_eq_true, if_false]
      cases hG : is_state_set a.core cfg.GET_REQUESTED with
      | false =>
        simp only [Bool.false_eq_true, if_false]
        exact ⟨a, rfl, rfl, rfl, rfl, hG, hD⟩
      | true =>
        simp only [if_true]
        refine ⟨_, rfl, rfl, is_state_set_clear_other _ hGS, is_state_set_clear_other _ hGW,
          is_state_set_clear_same _ _, ?_⟩
        rw [is_state_set_clear_other _ hGD]; exact hD
    | true =>
      simp only [if_true]
      split
      · refine ⟨_, rfl, rfl, ?_, ?_, is_state_set_clear_same _ _, ?_⟩
        · rw [is_state_set_clear_other _ hGS, is_state_set_clear_other _ hDS]; rfl
        · rw [is_state_set_clear_other _ hGW, is_state_set_clear_other _ hDW]; rfl
        · rw [is_state_set_clear_other _ hGD]; exact is_state_set_clear_same _ _
      · rename_i hG
        refine ⟨_, rfl, rfl, ?_, ?_, by simpa using hG, is_state_set_clear_same _ _⟩
        · rw [is_state_set_clear_other _ hDS]; rfl
        · rw [is_state_set_clear_other _ hDW]; rfl
  refine ⟨_, ha2, ?_⟩
  rw [start_download_eq]
  simp only [dispatch_guards, hS, hW, hG, hD, Bool.not_false, Bool.and_true]
  cases is_state_set a.core cfg.STORAGE_READY <;>
    cases is_state_set a.core cfg.WIFI_CONNECTED <;> simp [hreq]

theorem flags_facts_terminal {cfg : Config} (h : FlagsIndependent cfg) :
    cfg.DOWNLOADING &&& cfg.COMPLETED = 0 ∧ cfg.DOWNLOADING &&& cfg.CANCELED = 0 ∧
    cfg.GET_REQUESTED &&& cfg.COMPLETED = 0 ∧ cfg.GET_REQUESTED &&& cfg.CANCELED = 0 := by
  obtain ⟨-, h2⟩ := h
  simp only [List.pairwise_cons, List.mem_cons, List.mem_singleton, forall_eq_or_imp,
    forall_eq] at h2
  obtain ⟨-, -, ⟨-, h35, h36⟩, ⟨h45, h46⟩, -⟩ := h2
  exact ⟨h45, h46.1, h35, h36.1⟩

/-- `start_download` changes nothing but the list of requests. -/
theorem start_download_core (cfg : AppConfig) (a : App) : (start_download cfg a).core = a.core := by
  rw [start_download_eq]
  split <;> rfl

/-- The handling of a Disconnected event with the reason `-EAGAIN`, the sink
side: the session file is closed when `DOWNLOADING` is set, `DOWNLOADING` and
`GET_REQUESTED` are cleared, the other four flags, the sizes and the volume
stay as they were. -/
theorem transient_disconnect_core (cfg : AppConfig) (a : App) (io : StorageReply)
    (hflags : FlagsIndependent cfg.toConfig) :
    ∃ a1, http_client_callback cfg a (ClientEvent.DISCONNECTED (-cfg.EAGAIN)) io = some a1 ∧
      is_state_set a1.core cfg.DOWNLOADING = false ∧
      is_state_set a1.core cfg.GET_REQUESTED = false ∧
      is_state_set a1.core cfg.STORAGE_READY = is_state_set a.core cfg.STORAGE_READY ∧
      is_state_set a1.core cfg.WIFI_CONNECTED = is_state_set a.core cfg.WIFI_CONNECTED ∧
      is_state_set a1.core cfg.COMPLETED = is_state_set a.core cfg.COMPLETED ∧
      is_state_set a1.core cfg.CANCELED = is_state_set a.core cfg.CANCELED ∧
      a1.core.log
        = a.core.log ++ (if is_state_set a.core cfg.DOWNLOADING then [FileOp.f_close] else []) ∧
      a1.core.file_object
        = (if is_state_set a.core cfg.DOWNLOADING then none else a.core.file_object) ∧
      a1.core.http_file_size = a.core.http_file_size ∧
      a1.core.received_file_size = a.core.received_file_size ∧
      a1.core.volume = a.core.volume := by
  obtain ⟨hDS, hDW, hGS, hGW, hDG, hGD⟩ := flags_facts_ready hflags
  obtain ⟨hDC, hDN, hGC, hGN⟩ := flags_facts_terminal hflags
  simp only [http_client_callback, if_true]
  cases hD : is_state_set a.core cfg.DOWNLOADING with
  | false =>
    simp only [Bool.false_eq_true, if_false, List.append_nil]
    cases hG : is_state_set a.core cfg.GET_REQUESTED with
    | false =>
      simp only [Bool.false_eq_true, if_false]
      refine ⟨_, rfl, ?_⟩
      rw [start_download_core]
      exact ⟨hD, hG, rfl, rfl, rfl, rfl, rfl, rfl, rfl, rfl, rfl⟩
    | true =>
      simp only [if_true]
      refine ⟨_, rfl, ?_⟩
      rw [start_download_core]
      refine ⟨?_, is_state_set_clear_same _ _, is_state_set_clear_other _ hGS,
        is_state_set_clear_other _ hGW, is_state_set_clear_other _ hGC,
        is_state_set_clear_other _ hGN, rfl, rfl, rfl, rfl, rfl⟩
      rw [is_state_set_clear_other _ hGD]; exact hD
  | true =>
    simp only [if_true]
    split
    · refine ⟨_, rfl, ?_⟩
      rw [start_download_core]
      refine ⟨?_, is_state_set_clear_same _ _, ?_, ?_, ?_, ?_, rfl, rfl, rfl, rfl, rfl⟩
      · rw [is_state_set_clear_other _ hGD]; exact is_state_set_clear_same _ _
      · rw [is_state_set_clear_other _ hGS, is_state_set_clear_other _ hDS]; rfl
      · rw [is_state_set_clear_other _ hGW, is_state_set_clear_other _ hDW]; rfl
      · rw [is_state_set_clear_other _ hGC, is_state_set_clear_other _ hDC]; rfl
      · rw [is_state_set_clear_other _ hGN, is_state_set_clear_other _ hDN]; rfl
    · rename_i hG
      refine ⟨_, rfl, ?_⟩
      rw [start_download_core]
      refine ⟨is_state_set_clear_same _ _, by simpa using hG, ?_, ?_, ?_, ?_,
        rfl, rfl, rfl, rfl, rfl⟩
      · rw [is_state_set_clear_other _ hDS]; rfl
      · rw [is_state_set_clear_other _ hDW]; rfl
      · rw [is_state_set_clear_other _ hDC]; rfl
      · rw [is_state_set_clear_other _ hDN]; rfl

set_option maxRecDepth 100000 in
/-- C13 (counterexample to the claim as stated): with the download request in
flight and the network lost (`WIFI_CONNECTED` clear) the transient disconnect
issues no request; and with a key/value POST in flight it issues one request
that is not the POST but the GET of the download URL. -/
theorem transient_disconnect_not_a_retry :
    (http_client_callback demo_app_cfg
        { app_with_flags 5 with requests := [download_request demo_app_cfg] }
        (ClientEvent.DISCONNECTED (-demo_app_cfg.EAGAIN)) (io_ok 0)).map (fun a => a.requests)
      = some [download_request demo_app_cfg] ∧
    (post_in_flight.bind (fun a => http_client_callback demo_app_cfg a
        (ClientEvent.DISCONNECTED (-demo_app_cfg.EAGAIN)) (io_ok 0))).map
        (fun a => a.requests.map (fun r => (r.method, r.url, r.entity.isSome)))
      = some [(http_method.HTTP_METHOD_POST, (app_with_flags 3).http_url, true),
              (http_method.HTTP_METHOD_GET, demo_app_cfg.MAIN_HTTP_FILE_URL, false)] := by
  refine ⟨by decide, by decide⟩

/-- C13 (amended): in a state whose request in flight is the download request
of `start_download` (GET, the download URL, no entity), the handling of a
Disconnected event with the reason `-EAGAIN` closes the session file when
`DOWNLOADING` is set, clears `DOWNLOADING` and `GET_REQUESTED`, and leaves the
other four flags, the sizes and the volume as they were; when `STORAGE_READY`
and `WIFI_CONNECTED` are set it issues exactly one request, equal to the
request in flight in method, URL and entity; when `STORAGE_READY` or
`WIFI_CONNECTED` is clear it issues none. -/
theorem transient_disconnect_retries_download (cfg : AppConfig) (a : App) (io : StorageReply)
    (hflags : FlagsIndependent cfg.toConfig)
    (horig : a.requests.getLast? = some (download_request cfg)) :
    ∃ a1, http_client_callback cfg a (ClientEvent.DISCONNECTED (-cfg.EAGAIN)) io = some a1 ∧
      is_state_set a1.core cfg.DOWNLOADING = false ∧
      is_state_set a1.core cfg.GET_REQUESTED = false ∧
      is_state_set a1.core cfg.STORAGE_READY = is_state_set a.core cfg.STORAGE_READY ∧
      is_state_set a1.core cfg.WIFI_CONNECTED = is_state_set a.core cfg.WIFI_CONNECTED ∧
      is_state_set a1.core cfg.COMPLETED = is_state_set a.core cfg.COMPLETED ∧
      is_state_set a1.core cfg.CANCELED = is_state_set a.core cfg.CANCELED ∧
      a1.core.log
        = a.core.log ++ (if is_state_set a.core cfg.DOWNLOADING then [FileOp.f_close] else []) ∧
      a1.core.file_object
        = (if is_state_set a.core cfg.DOWNLOADING then none else a.core.file_object) ∧
      a1.core.http_file_size = a.core.http_file_size ∧
      a1.core.received_file_size = a.core.received_file_size ∧
      a1.core.volume = a.core.volume ∧
      (is_state_set a.core cfg.STORAGE_READY = true ∧
          is_state_set a.core cfg.WIFI_CONNECTED = true →
        ∃ orig, a.requests.getLast? = some orig ∧ a1.requests = a.requests ++ [orig] ∧
          orig.method = http_method.HTTP_METHOD_GET ∧ orig.url = cfg.MAIN_HTTP_FILE_URL ∧
          orig.entity = none) ∧
      (¬ (is_state_set a.core cfg.STORAGE_READY = true ∧
          is_state_set a.core cfg.WIFI_CONNECTED = true) → a1.requests = a.requests) := by
  obtain ⟨a1, h1, hc⟩ := transient_disconnect_core cfg a io hflags
  obtain ⟨a2, h2, hreq⟩ := transient_disconnect_requests cfg a io hflags
  have h12 : a2 = a1 := Option.some.inj (h2.symm.trans h1)
  rw [h12] at hreq
  obtain ⟨c1, c2, c3, c4, c5, c6, c7, c8, c9, c10, c11⟩ := hc
  refine ⟨a1, h1, c1, c2, c3, c4, c5, c6, c7, c8, c9, c10, c11, fun hg => ?_, fun hg => ?_⟩
  · rw [if_pos hg] at hreq
    exact ⟨download_request cfg, horig, hreq, rfl, rfl, rfl⟩
  · rw [if_neg hg] at hreq
    exact hreq

set_option maxRecDepth 100000 in
/-- Witness of C13 (amended): the download request is in flight, the response
is being stored (`DOWNLOADING` set), storage and network are ready. -/
theorem transient_disconnect_retries_download_witness :
    FlagsIndependent demo_app_cfg.toConfig ∧
    ({ app_with_flags 15 with requests := [download_request demo_app_cfg] } : App).requests.getLast?
      = some (download_request demo_app_cfg) ∧
    ∃ a1, http_client_callback demo_app_cfg
        { app_with_flags 15 with requests := [download_request demo_app_cfg] }
        (ClientEvent.DISCONNECTED (-demo_app_cfg.EAGAIN)) (io_ok 0) = some a1 ∧
      is_state_set a1.core demo_app_cfg.DOWNLOADING = false ∧
      is_state_set a1.core demo_app_cfg.GET_REQUESTED = false ∧
      a1.core.log = [FileOp.f_close] ∧
      a1.requests = [download_request demo_app_cfg, download_request demo_app_cfg] :=
  have h := transient_disconnect_retries_download demo_app_cfg
    { app_with_flags 15 with requests := [download_request demo_app_cfg] } (io_ok 0)
    (by decide) (by decide)
  ⟨by decide, by decide, by
    obtain ⟨a1, h1, c1, c2, -, -, -, -, c7, -, -, -, -, hyes, -⟩ := h
    obtain ⟨orig, ho, hr, -⟩ := hyes ⟨by decide, by decide⟩
    have ho2 : orig = download_request demo_app_cfg := (Option.some.inj ho).symm
    refine ⟨a1, h1, c1, c2, ?_, ?_⟩
    · rw [c7]; decide
    · rw [hr, ho2]; rfl⟩

set_option maxRecDepth 100000 in
/-- C16 (the code at a failing input): the run `failed_inline_store_run` from
the initial state ends with `COMPLETED` and `CANCELED` both set:
`store_file_packet` sets `CANCELED` on the rejected write, and the callback
sets `COMPLETED` right after the call. -/
theorem completed_and_canceled_both_set :
    failed_inline_store_run.map
        (fun a => (is_state_set a.core demo_app_cfg.COMPLETED,
                   is_state_set a.core demo_app_cfg.CANCELED, a.core.log))
      = some (true, true, [FileOp.f_open_create demo_name FRESULT.FR_OK,
                           FileOp.f_write 2 (FRESULT.FR_ERR 1), FileOp.f_close]) := by
  decide

set_option maxRecDepth 100000 in
/-- C17 (counterexample to the claim as stated): `start_download` in a state
with `COMPLETED` set, and a transient disconnect in a state with `CANCELED`
set, each issue the download request. -/
theorem request_issued_in_terminal_state :
    is_state_set (app_with_flags 19).core demo_app_cfg.COMPLETED = true ∧
    (start_download demo_app_cfg (app_with_flags 19)).requests
      = [download_request demo_app_cfg] ∧
    is_state_set (app_with_flags 39).core demo_app_cfg.CANCELED = true ∧
    (http_client_callback demo_app_cfg (app_with_flags 39)
        (ClientEvent.DISCONNECTED (-demo_app_cfg.EAGAIN)) (io_ok 0)).map (fun a => a.requests)
      = some [download_request demo_app_cfg] := by
  refine ⟨by decide, by decide, by decide, by decide⟩

/-- C17 (amended): in every state, `COMPLETED` or `CANCELED` set or not, the
handling of a socket-connected, request-issued, response-headers, chunk or
non-transient Disconnected event issues no request; `start_download`,
`start_upload_file`, `start_post_data` and the transient Disconnected event
issue a request exactly when their own guards pass, none of which looks at
`COMPLETED` or `CANCELED`. -/
theorem requests_only_behind_dispatch_guards (cfg : AppConfig) (a : App)
    (hflags : FlagsIndependent cfg.toConfig) :
    (∀ (ev : ClientEvent) (io : StorageReply) (a1 : App),
      ev ≠ ClientEvent.DISCONNECTED (-cfg.EAGAIN) →
      http_client_callback cfg a ev io = some a1 → a1.requests = a.requests) ∧
    (∀ io : StorageReply, ∃ a1,
      http_client_callback cfg a (ClientEvent.DISCONNECTED (-cfg.EAGAIN)) io = some a1 ∧
      a1.requests
        = if is_state_set a.core cfg.STORAGE_READY = true ∧
              is_state_set a.core cfg.WIFI_CONNECTED = true
          then a.requests ++ [download_request cfg] else a.requests) ∧
    (start_download cfg a).requests
      = (if dispatch_guards cfg a then a.requests ++ [download_request cfg] else a.requests) ∧
    (∀ (file_name key value : List Char) (file_format : fileFormat) (opened : Option FIL),
      ∃ entity, (start_upload_file cfg a file_name file_format key value opened).requests
        = if dispatch_guards cfg a = true ∧
              (file_format = fileFormat.HTTP_FILE_FORMAT_NONE ∨ opened ≠ none)
          then a.requests ++ [Request.mk cfg.MAIN_HTTP_POST_URL http_method.HTTP_METHOD_POST
            (some entity)]
          else a.requests) ∧
    (∀ (key value : List (List Char)) (key_num : Int),
      ∃ entity, (start_post_data cfg a key value key_num).requests
        = if is_state_set a.core cfg.WIFI_CONNECTED = true ∧
              is_state_set a.core cfg.GET_REQUESTED = false ∧
              is_state_set a.core cfg.DOWNLOADING = false
          then a.requests ++ [Request.mk a.http_url http_method.HTTP_METHOD_POST entity]
          else a.requests) := by
  refine ⟨?_, fun io => transient_disconnect_requests cfg a io hflags, ?_, ?_, ?_⟩
  · intro ev io a1 hev h
    cases ev with
    | SOCK_CONNECTED =>
      simp only [http_client_callback, Option.some.injEq] at h
      rw [← h]
    | REQUESTED =>
      simp only [http_client_callback, Option.some.injEq] at h
      rw [← h]
    | RECV_RESPONSE code len content =>
      simp only [http_client_callback] at h
      by_cases hc : code = 200
      · simp only [hc, if_true] at h
        by_cases hl : len ≤ cfg.MAIN_BUFFER_MAX_SIZE
        · simp only [hl, if_true, Option.map_eq_some'] at h
          obtain ⟨a2, h2, h3⟩ := h
          have := store_if_nvm_requests cfg _ a2 content len io h2
          rw [← h3]
          exact this
        · simp only [hl, if_false, Option.some.injEq] at h
          rw [← h]
      · simp only [hc, if_false, Option.some.injEq] at h
        rw [← h]
    | RECV_CHUNKED_DATA len data is_complete =>
      simp only [http_client_callback, Option.map_eq_some'] at h
      obtain ⟨a2, h2, h3⟩ := h
      have := store_if_nvm_requests cfg a a2 data len io h2
      rw [← h3]
      by_cases hc : is_complete ≠ 0 <;> simp [hc, this]
    | DISCONNECTED reason =>
      have hr : reason ≠ -cfg.EAGAIN := fun e => hev (by rw [e])
      simp only [http_client_callback, hr, if_false, Option.some.injEq] at h
      rw [← h]
    | OTHER t =>
      simp only [http_client_callback, Option.some.injEq] at h
      rw [← h]
  · rw [start_download_eq]
    cases dispatch_guards cfg a <;> simp
  · intro file_name key value file_format opened
    unfold start_upload_file dispatch_guards http_client_send_request
      _example_http_set_default_entity
    cases is_state_set a.core cfg.STORAGE_READY <;>
      cases is_state_set a.core cfg.WIFI_CONNECTED <;>
      cases is_state_set a.core cfg.GET_REQUESTED <;>
      cases is_state_set a.core cfg.DOWNLOADING <;>
      cases file_format <;> cases opened <;>
      first
        | (simp; done)
        | exact ⟨⟨fileFormat.HTTP_FILE_FORMAT_NONE, 0, none, none⟩, by simp⟩
  · intro key value key_num
    unfold start_post_data http_client_send_request _example_http_set_default_entity
    cases is_state_set a.core cfg.WIFI_CONNECTED <;>
      cases is_state_set a.core cfg.GET_REQUESTED <;>
      cases is_state_set a.core cfg.DOWNLOADING <;>
      by_cases hk : key_num > 0 <;> simp [hk]

/-- Witness of C17 (amended): the state with `STORAGE_READY`, `WIFI_CONNECTED`
and `COMPLETED` set. -/
theorem requests_only_behind_dispatch_guards_witness :
    FlagsIndependent demo_app_cfg.toConfig ∧
    (start_download demo_app_cfg (app_with_flags 19)).requests
      = (if dispatch_guards demo_app_cfg (app_with_flags 19)
          then (app_with_flags 19).requests ++ [download_request demo_app_cfg]
          else (app_with_flags 19).requests) :=
  ⟨by decide,
    (requests_only_behind_dispatch_guards demo_app_cfg (app_with_flags 19) (by decide)).2.2.1⟩

/-! ## Entity streaming provider: claims -/

theorem strstr_scan_spec (needle : List Char) : ∀ (hay : List Char) (i : Nat),
    strstr_scan needle hay i ≠ none ↔ needle <:+: hay := by
  intro hay
  induction hay with
  | nil =>
    intro i
    by_cases h : needle = [] <;> simp [strstr_scan, h]
  | cons c hay ih =>
    intro i
    rw [List.infix_cons_iff]
    by_cases hp : needle.isPrefixOf (c :: hay) = true
    · simp only [strstr_scan, hp, if_true]
      simp [List.isPrefixOf_iff_prefix.1 hp]
    · have hnp : ¬ needle <+: c :: hay := fun h => hp (List.isPrefixOf_iff_prefix.2 h)
      simp only [strstr_scan, hp, if_false, Bool.false_eq_true]
      rw [ih (i + 1)]
      simp [hnp]

theorem i32_of_lt {n : Nat} (h : n < 2147483648) : i32 (n : Int) = n := by
  unfold i32; omega

/-- C19: the content type of a literal payload is the multipart form-data
type when the literal contains the boundary marker as a substring and the
URL-encoded form type otherwise; and `_example_http_read` copies the whole
literal to the start of the buffer, leaves the rest of the buffer alone, and
returns the byte count that `_example_http_get_contents_length` reports, the
length of the literal (which fits an `int`). -/
theorem entity_literal_mode (cfg : AppConfig) (lit buffer : List Char) (size written : Nat)
    (hlen : strlen lit < 2147483648) :
    (cstr cfg.EXAMPLE_HTTP_CONTENT_BOUNDARY <:+: cstr lit →
      _example_http_get_contents_type cfg lit = cfg.EXAMPLE_HTTP_FORM_DATA_CONTENT_TYPE) ∧
    (¬ cstr cfg.EXAMPLE_HTTP_CONTENT_BOUNDARY <:+: cstr lit →
      _example_http_get_contents_type cfg lit
        = cfg.EXAMPLE_HTTP_FORM_URLENCODED_CONTENT_TYPE) ∧
    (_example_http_read (some lit) buffer size written).1
      = _example_http_get_contents_length lit ∧
    _example_http_get_contents_length lit = strlen lit ∧
    (_example_http_read (some lit) buffer size written).2 = cstr lit ++ buffer.drop (strlen lit) := by
  have hspec := strstr_scan_spec (cstr cfg.EXAMPLE_HTTP_CONTENT_BOUNDARY) (cstr lit) 0
  have hi : i32 (strlen lit : Int) = strlen lit := i32_of_lt hlen
  refine ⟨fun h => ?_, fun h => ?_, rfl, hi, ?_⟩
  · have : strstr lit cfg.EXAMPLE_HTTP_CONTENT_BOUNDARY ≠ none := hspec.2 h
    simp [_example_http_get_contents_type, this]
  · have : ¬ strstr lit cfg.EXAMPLE_HTTP_CONTENT_BOUNDARY ≠ none := fun hc => h (hspec.1 hc)
    simp only [_example_http_get_contents_type, this, if_false]
  · have hu : u32 (strlen lit : Int) = strlen lit := by unfold u32; omega
    simp only [_example_http_read, hi, hu]
    rw [poke_zero]
    simp [strlen]

/-- Witness of C19: a multipart field header as literal. -/
theorem entity_literal_mode_witness :
    strlen ("----boundary7MA4YWxk\r\nContent-Disposition: form-data".toList) < 2147483648 ∧
    (cstr demo_app_cfg.EXAMPLE_HTTP_CONTENT_BOUNDARY
        <:+: cstr ("----boundary7MA4YWxk\r\nContent-Disposition: form-data".toList) →
      _example_http_get_contents_type demo_app_cfg
          ("----boundary7MA4YWxk\r\nContent-Disposition: form-data".toList)
        = demo_app_cfg.EXAMPLE_HTTP_FORM_DATA_CONTENT_TYPE) ∧
    (¬ cstr demo_app_cfg.EXAMPLE_HTTP_CONTENT_BOUNDARY
        <:+: cstr ("----boundary7MA4YWxk\r\nContent-Disposition: form-data".toList) →
      _example_http_get_contents_type demo_app_cfg
          ("----boundary7MA4YWxk\r\nContent-Disposition: form-data".toList)
        = demo_app_cfg.EXAMPLE_HTTP_FORM_URLENCODED_CONTENT_TYPE) ∧
    (_example_http_read (some ("----boundary7MA4YWxk\r\nContent-Disposition: form-data".toList))
        (List.replicate 64 NUL) 64 0).1
      = _example_http_get_contents_length
          ("----boundary7MA4YWxk\r\nContent-Disposition: form-data".toList) ∧
    _example_http_get_contents_length
        ("----boundary7MA4YWxk\r\nContent-Disposition: form-data".toList)
      = strlen ("----boundary7MA4YWxk\r\nContent-Disposition: form-data".toList) ∧
    (_example_http_read (some ("----boundary7MA4YWxk\r\nContent-Disposition: form-data".toList))
        (List.replicate 64 NUL) 64 0).2
      = cstr ("----boundary7MA4YWxk\r\nContent-Disposition: form-data".toList)
        ++ (List.replicate 64 NUL).drop
          (strlen ("----boundary7MA4YWxk\r\nContent-Disposition: form-data".toList)) :=
  ⟨by decide, entity_literal_mode demo_app_cfg
    ("----boundary7MA4YWxk\r\nContent-Disposition: form-data".toList) (List.replicate 64 NUL)
    64 0 (by decide)⟩

theorem nul_not_mem_closing_boundary (cfg : AppConfig) : NUL ∉ closing_boundary cfg := by
  intro h
  simp only [closing_boundary, List.mem_append, List.mem_cons, List.mem_singleton] at h
  have h1 : NUL ≠ '\r' := by decide
  have h2 : NUL ≠ '\n' := by decide
  have h3 : NUL ≠ '-' := by decide
  have h4 := nul_not_mem_cstr cfg.EXAMPLE_HTTP_CONTENT_BOUNDARY
  simp only [List.not_mem_nil, or_false] at h
  tauto

/-- The call that finds the cursor at the file size returns the closing
boundary. -/
theorem read_file_at_end (cfg : AppConfig) (priv_data buffer : List Char) (file : FIL)
    (size : Nat) (io : Nat → ReadReply)
    (hB : (closing_boundary cfg).length < 2147483648) :
    ((_example_http_read_file cfg file.fsize priv_data file buffer size 0 io).buffer).take
        (_example_http_read_file cfg file.fsize priv_data file buffer size 0 io).ret.toNat
      = closing_boundary cfg := by
  have hs : strlen (poke (memset buffer NUL size) 0 (closing_boundary cfg ++ [NUL]))
      = (closing_boundary cfg).length := by
    rw [strlen, poke_zero, List.append_assoc]
    simp only [List.singleton_append]
    rw [cstr_append_nul (nul_not_mem_closing_boundary cfg)]
  simp only [_example_http_read_file, if_true, hs, i32_of_lt hB, Int.toNat_ofNat]
  rw [poke_zero, List.append_assoc]
  simp

theorem u32_of_lt {n : Nat} (h : n < 4294967296) : u32 (n : Int) = n := by
  unfold u32; omega

theorem u32_add_of_lt {a b : Nat} (h : a + b < 4294967296) :
    u32 ((a : Int) + (b : Int)) = a + b := by
  unfold u32; omega

theorem u32_sub_of_le {a b : Nat} (h : b ≤ a) (ha : a < 4294967296) :
    u32 ((a : Int) - (b : Int)) = a - b := by
  unfold u32; omega

theorem ite_ge_eq_min (a b : Nat) : (if b ≥ a then a else b) = min a b := by
  split <;> omega

/-- A call with the cursor before the end of the file, the storage reading in
full: the literal (on the first call only) and the next bytes of the file, as
many as fit. -/
theorem read_file_data_call (cfg : AppConfig) (priv_data buffer D : List Char)
    (size rl : Nat) (hL : strlen priv_data < size) (hsize : size < 2147483648)
    (hD : D.length < 4294967296) (hrl : rl < D.length) :
    _example_http_read_file cfg rl priv_data (FIL.mk D rl) buffer size 0 read_in_full
      = { ret := ((min (size - (if rl = 0 then strlen priv_data else 0)) (D.length - rl)
                + (if rl = 0 then strlen priv_data else 0) : Nat) : Int),
          buffer := poke (if rl = 0 then poke (memset buffer NUL size) 0 (cstr priv_data)
              else memset buffer NUL size) (if rl = 0 then strlen priv_data else 0)
            ((D.drop rl).take
              (min (size - (if rl = 0 then strlen priv_data else 0)) (D.length - rl))),
          file := FIL.mk D
            (rl + min (size - (if rl = 0 then strlen priv_data else 0)) (D.length - rl)),
          read_length :=
            rl + min (size - (if rl = 0 then strlen priv_data else 0)) (D.length - rl) } := by
  have hfs : (FIL.mk D rl).fsize = D.length := u32_of_lt hD
  have hne : ¬ D.length = rl := by omega
  have hrem : u32 ((D.length : Int) - (rl : Int)) = D.length - rl :=
    u32_sub_of_le (by omega) hD
  have hrem0 : ¬ D.length - rl = 0 := by omega
  simp only [_example_http_read_file, hfs, hne, if_false, hrem, hrem0]
  by_cases h0 : rl = 0
  · have hLi : strlen priv_data < 2147483648 := by omega
    have hLu : strlen priv_data < 4294967296 := by omega
    have hLs : strlen priv_data ≤ size := by omega
    have hsu : size < 4294967296 := by omega
    have hi : i32 (strlen priv_data : Int) = strlen priv_data := i32_of_lt hLi
    have hu : u32 (strlen priv_data : Int) = strlen priv_data := u32_of_lt hLu
    have hs1 : u32 ((size : Int) - (strlen priv_data : Int)) = size - strlen priv_data :=
      u32_sub_of_le hLs hsu
    have htake : List.take (strlen priv_data) (cstr priv_data) = cstr priv_data :=
      List.take_of_length_le (le_refl _)
    simp only [if_pos h0, hi, hu, hs1, ite_ge_eq_min, read_in_full, ne_eq, not_true_eq_false,
      if_false, htake]
    have hk1 : min (size - strlen priv_data) (D.length - rl) ≤ size - strlen priv_data :=
      Nat.min_le_left _ _
    have hk2 : min (size - strlen priv_data) (D.length - rl) ≤ D.length - rl :=
      Nat.min_le_right _ _
    generalize min (size - strlen priv_data) (D.length - rl) = k at hk1 hk2 ⊢
    clear hfs hne hrem hrem0 hi hu hs1 htake
    generalize strlen priv_data = L at hL hk1 ⊢
    have hrlk : rl + k < 4294967296 := by omega
    have hkLu : k + L < 4294967296 := by omega
    have hkL : k + L < 2147483648 := by omega
    have hk : k < 2147483648 := by omega
    have hcases : L = 0 ∨ (L : Int) > 0 := by omega
    simp only [u32_add_of_lt hrlk, u32_add_of_lt hkLu]
    rcases hcases with hz | hpos
    · subst hz
      simp only [Int.Nat.cast_ofNat_Int, gt_iff_lt, lt_self_iff_false, if_false, i32_of_lt hk,
        Nat.add_zero]
    · simp only [if_pos hpos, i32_of_lt hkL]
  · have hu0 : u32 (0 : Int) = 0 := by decide
    simp only [if_neg h0, ite_ge_eq_min, read_in_full, ne_eq, not_true_eq_false, if_false, hu0,
      gt_iff_lt, lt_self_iff_false, Nat.sub_zero, Nat.add_zero]
    have hk1 : min size (D.length - rl) ≤ size := Nat.min_le_left _ _
    have hk2 : min size (D.length - rl) ≤ D.length - rl := Nat.min_le_right _ _
    generalize min size (D.length - rl) = k at hk1 hk2 ⊢
    clear hfs hne hrem hrem0
    have hk : k < 2147483648 := by omega
    have hrlk : rl + k < 4294967296 := by omega
    simp only [u32_add_of_lt hrlk, i32_of_lt hk]

theorem take_poke_append (a b d : List Char) :
    (poke (a ++ b) a.length d).take (d.length + a.length) = a ++ d := by
  rw [poke_append rfl]
  apply List.take_left'
  simp only [List.length_append]
  omega

theorem take_poke_zero (b d : List Char) : (poke b 0 d).take d.length = d := by
  rw [poke_zero]
  exact List.take_left' rfl

/-- The bytes a data call returns: the literal (on the first call only) and
the next bytes of the file. -/
theorem read_file_data_out (cfg : AppConfig) (priv_data buffer D : List Char)
    (size rl : Nat) (hL : strlen priv_data < size) (hsize : size < 2147483648)
    (hD : D.length < 4294967296) (hrl : rl < D.length) :
    ((_example_http_read_file cfg rl priv_data (FIL.mk D rl) buffer size 0
        read_in_full).buffer).take
      (_example_http_read_file cfg rl priv_data (FIL.mk D rl) buffer size 0
        read_in_full).ret.toNat
      = (if rl = 0 then cstr priv_data else []) ++ (D.drop rl).take
          (min (size - (if rl = 0 then strlen priv_data else 0)) (D.length - rl)) := by
  rw [read_file_data_call cfg priv_data buffer D size rl hL hsize hD hrl]
  simp only [Int.toNat_ofNat]
  by_cases h0 : rl = 0
  · simp only [if_pos h0]
    have hk2 : min (size - strlen priv_data) (D.length - rl) ≤ D.length - rl :=
      Nat.min_le_right _ _
    generalize min (size - strlen priv_data) (D.length - rl) = k at hk2 ⊢
    have hlen : ((D.drop rl).take k).length = k := by
      rw [List.length_take, List.length_drop]; omega
    rw [poke_zero, strlen]
    have h := take_poke_append (cstr priv_data)
      (List.drop (cstr priv_data).length (memset buffer NUL size)) ((D.drop rl).take k)
    rw [hlen] at h
    exact h
  · simp only [if_neg h0, Nat.sub_zero, Nat.add_zero, List.nil_append]
    have hk2 : min size (D.length - rl) ≤ D.length - rl := Nat.min_le_right _ _
    generalize min size (D.length - rl) = k at hk2 ⊢
    have hlen : ((D.drop rl).take k).length = k := by
      rw [List.length_take, List.length_drop]; omega
    have h := take_poke_zero (memset buffer NUL size) ((D.drop rl).take k)
    rw [hlen] at h
    exact h

/-- From any cursor inside a non-empty file, the calls reach the closing
boundary and return the rest of the file before it. -/
theorem read_file_to_boundary_from (cfg : AppConfig) (priv_data D : List Char) (size : Nat)
    (hL : strlen priv_data < size) (hsize : size < 2147483648)
    (hD : D.length < 4294967296) (hne : D ≠ [])
    (hB : (closing_boundary cfg).length < 2147483648) :
    ∀ (fuel rl : Nat) (buffer : List Char), rl ≤ D.length → D.length - rl + 1 ≤ fuel →
      read_file_to_boundary cfg priv_data size read_in_full fuel rl (FIL.mk D rl) buffer
        = some ((if rl = 0 then cstr priv_data else []) ++ D.drop rl ++ closing_boundary cfg) := by
  have hpos : 0 < D.length := List.length_pos.mpr hne
  intro fuel
  induction fuel with
  | zero => intro rl buffer _ h; omega
  | succ fuel ih =>
    intro rl buffer hrl hfuel
    have hfs : (FIL.mk D rl).fsize = D.length := u32_of_lt hD
    rw [read_file_to_boundary]
    by_cases hend : D.length = rl
    · have hfs2 : (FIL.mk D rl).fsize = rl := by rw [hfs, hend]
      have h0 : ¬ rl = 0 := by omega
      simp only [hfs2, if_true, if_neg h0, List.nil_append]
      have h := read_file_at_end cfg priv_data buffer (FIL.mk D rl) size read_in_full hB
      rw [hfs2] at h
      rw [h, ← hend, List.drop_length, List.nil_append]
    · have hlt : rl < D.length := by omega
      have hcond : ¬ (FIL.mk D rl).fsize = rl := by rw [hfs]; exact hend
      simp only [if_neg hcond]
      rw [read_file_data_out cfg priv_data buffer D size rl hL hsize hD hlt]
      rw [read_file_data_call cfg priv_data buffer D size rl hL hsize hD hlt]
      simp only []
      have hk1 : 0 < min (size - (if rl = 0 then strlen priv_data else 0)) (D.length - rl) := by
        split <;> omega
      have hk2 : min (size - (if rl = 0 then strlen priv_data else 0)) (D.length - rl)
          ≤ D.length - rl := Nat.min_le_right _ _
      generalize min (size - (if rl = 0 then strlen priv_data else 0)) (D.length - rl) = k
        at hk1 hk2 ⊢
      rw [ih (rl + k) _ (by omega) (by omega)]
      have h0 : ¬ rl + k = 0 := by omega
      simp only [if_neg h0, List.nil_append, Option.map_some', List.append_assoc]
      rw [← List.append_assoc (List.take k (List.drop rl D)), ← List.drop_drop,
        List.take_append_drop]

/-- C20: for a literal `L = cstr priv_data`, a non-empty file `D` and a buffer
capacity `size > strlen L`, from cursor 0 with every storage read succeeding in
full, the repeated `_example_http_read_file` calls reach the closing boundary
within `D.length + 1` calls, and the bytes the calls return up to and including
the first closing-boundary call are `L`, then `D`, then CRLF, the boundary,
`--` and CRLF: every file byte once and in order. The sizes are those the
32-bit counters of the function hold: `size` and the boundary line below
`2^31`, the file below `2^32`. -/
theorem read_file_to_boundary_emits (cfg : AppConfig) (priv_data buffer D : List Char)
    (size fuel : Nat) (hL : strlen priv_data < size) (hsize : size < 2147483648)
    (hD : D.length < 4294967296) (hne : D ≠ [])
    (hB : (closing_boundary cfg).length < 2147483648) (hfuel : D.length + 1 ≤ fuel) :
    read_file_to_boundary cfg priv_data size read_in_full fuel 0 (FIL.mk D 0) buffer
      = some (cstr priv_data ++ D
          ++ (['\r', '\n'] ++ cstr cfg.EXAMPLE_HTTP_CONTENT_BOUNDARY ++ ['-', '-', '\r', '\n'])) := by
  have h := read_file_to_boundary_from cfg priv_data D size hL hsize hD hne hB fuel 0 buffer
    (Nat.zero_le _) (by omega)
  simpa only [if_true, List.drop_zero, closing_boundary] using h

/-- Witness of C20: a three-byte file read through a four-byte buffer after a
two-byte literal. -/
theorem read_file_to_boundary_emits_witness :
    strlen ['a', 'b'] < 4 ∧ (4 : Nat) < 2147483648 ∧
    ['x', 'y', 'z'].length < 4294967296 ∧ ['x', 'y', 'z'] ≠ [] ∧
    (closing_boundary demo_app_cfg).length < 2147483648 ∧
    read_file_to_boundary demo_app_cfg ['a', 'b'] 4 read_in_full 4 0
        (FIL.mk ['x', 'y', 'z'] 0) []
      = some (cstr ['a', 'b'] ++ ['x', 'y', 'z']
          ++ (['\r', '\n'] ++ cstr demo_app_cfg.EXAMPLE_HTTP_CONTENT_BOUNDARY
            ++ ['-', '-', '\r', '\n'])) :=
  ⟨by decide, by decide, by decide, by decide, by decide,
    read_file_to_boundary_emits demo_app_cfg ['a', 'b'] [] ['x', 'y', 'z'] 4 4
      (by decide) (by decide) (by decide) (by decide) (by decide) (by decide)⟩

/-! ## Entity streaming provider: the file-backed mode -/

set_option maxRecDepth 100000 in
/-- C21 (the code at a failing input): the demo upload of an empty file. The
first `read_file` call, cursor 0, finds the cursor equal to the file size
before it looks at the literal: it returns 26, the length of the closing
boundary, with the closing boundary at the start of the buffer and none of
the 116 bytes of the part header. -/
theorem read_file_empty_file_skips_literal :
    (upload_of (app_with_flags 3) []).read_length = 0 ∧
    (upload_of (app_with_flags 3) []).g_http_entity.priv_data.map cstr
      = some demo_part_header ∧
    demo_part_header.length = 116 ∧
    empty_file_first_read.map (fun p => (p.2.ret, p.2.buffer.take 26, p.2.read_length))
      = some (26, closing_boundary demo_app_cfg, 0) := by
  refine ⟨by decide, by decide, by decide, by decide⟩

set_option maxRecDepth 100000 in
/-- C22 (the code at a failing input): four calls on a three-byte file through
a buffer of 256 bytes, the storage reading in full. The first call returns the
part header and the file, the second the closing boundary; the third and the
fourth return the closing boundary again, 26 bytes each, not 0. -/
theorem read_file_repeats_closing_boundary :
    (read_file_calls demo_app_cfg demo_part_header 0 (FIL.mk ['x', 'y', 'z'] 0)
        (List.replicate 256 NUL)
        [ReadCall.mk 256 read_in_full, ReadCall.mk 256 read_in_full,
         ReadCall.mk 256 read_in_full, ReadCall.mk 256 read_in_full]).map
        (fun r => (r.ret, r.read_length, r.buffer.take r.ret.toNat))
      = [(119, 3, demo_part_header ++ ['x', 'y', 'z']),
         (26, 3, closing_boundary demo_app_cfg),
         (26, 3, closing_boundary demo_app_cfg),
         (26, 3, closing_boundary demo_app_cfg)] := by
  decide

theorem ite_ge_le_right (a b : Nat) : (if b ≥ a then a else b) ≤ b := by
  split <;> omega

/-- One call on a file of less than `2^31` bytes with the cursor inside the
file, the storage delivering at most what it is asked for: the cursor does not
go back and does not pass the file size, and the file keeps its bytes. -/
theorem read_file_cursor_step (cfg : AppConfig) (priv_data buffer D : List Char)
    (fptr size rl : Nat) (io : Nat → ReadReply) (hD : D.length < 2147483648)
    (hrl : rl ≤ D.length)
    (hio : ∀ n, (io n).ret = FRESULT.FR_OK → (io n).byte_read ≤ n) :
    rl ≤ (_example_http_read_file cfg rl priv_data (FIL.mk D fptr) buffer size 0 io).read_length ∧
    (_example_http_read_file cfg rl priv_data (FIL.mk D fptr) buffer size 0 io).read_length
      ≤ D.length ∧
    (_example_http_read_file cfg rl priv_data (FIL.mk D fptr) buffer size 0 io).file.contents
      = D := by
  have hD2 : D.length < 4294967296 := by omega
  have hfs : (FIL.mk D fptr).fsize = D.length := u32_of_lt hD2
  by_cases hend : D.length = rl
  · simp only [_example_http_read_file, hfs, hend, if_true]
    exact ⟨le_refl _, le_refl _, trivial⟩
  · have hrem : u32 ((D.length : Int) - (rl : Int)) = D.length - rl := u32_sub_of_le hrl hD2
    have hrem0 : ¬ D.length - rl = 0 := by omega
    simp only [_example_http_read_file, hfs, if_neg hend, hrem, hrem0, if_false]
    generalize (if rl = 0 then u32 ((size : Int) - if rl = 0 then i32 (strlen priv_data) else 0)
      else size) = s1
    have hk := ite_ge_le_right s1 (D.length - rl)
    generalize (if D.length - rl ≥ s1 then s1 else D.length - rl) = k at hk ⊢
    have hb := hio k
    generalize io k = reply at hb ⊢
    clear hfs hrem
    by_cases hr : reply.ret = FRESULT.FR_OK
    · have hb1 := hb hr
      have hsum : rl + reply.byte_read < 4294967296 := by omega
      have hle : rl + reply.byte_read ≤ D.length := by omega
      simp only [hr, ne_eq, not_true_eq_false, if_false, u32_add_of_lt hsum]
      exact ⟨Nat.le_add_right _ _, hle, trivial⟩
    · simp only [ne_eq, hr, not_false_eq_true, if_true]
      exact ⟨le_refl _, hrl, trivial⟩

/-- A call whose storage read fails returns 0 and leaves the cursor and the
file object as they were. -/
theorem read_file_failed_read (cfg : AppConfig) (priv_data buffer : List Char) (file : FIL)
    (size rl : Nat) (io : Nat → ReadReply) (hcur : file.fsize ≠ rl)
    (hio : ∀ n, (io n).ret ≠ FRESULT.FR_OK) :
    (_example_http_read_file cfg rl priv_data file buffer size 0 io).ret = 0 ∧
    (_example_http_read_file cfg rl priv_data file buffer size 0 io).read_length = rl ∧
    (_example_http_read_file cfg rl priv_data file buffer size 0 io).file = file := by
  simp only [_example_http_read_file, if_neg hcur, hio, ne_eq, not_false_eq_true, if_true]
  split <;> exact ⟨rfl, rfl, rfl⟩

/-- Every sequence of calls on a file of less than `2^31` bytes, started with
the cursor inside the file: the cursors of the results never go back and never
pass the file size. -/
theorem read_file_calls_cursor (cfg : AppConfig) (priv_data D : List Char)
    (hD : D.length < 2147483648) :
    ∀ (calls : List ReadCall) (rl fptr : Nat) (buffer : List Char),
      (∀ c ∈ calls, ∀ n, (c.io n).ret = FRESULT.FR_OK → (c.io n).byte_read ≤ n) →
      rl ≤ D.length →
      List.Chain (fun x y => x ≤ y) rl
        ((read_file_calls cfg priv_data rl (FIL.mk D fptr) buffer calls).map
          (fun r => r.read_length)) ∧
      ∀ r ∈ read_file_calls cfg priv_data rl (FIL.mk D fptr) buffer calls,
        r.read_length ≤ D.length := by
  intro calls
  induction calls with
  | nil =>
    intro rl fptr buffer _ _
    simp [read_file_calls]
  | cons c rest ih =>
    intro rl fptr buffer hio hrl
    obtain ⟨h1, h2, h3⟩ := read_file_cursor_step cfg priv_data buffer D fptr c.size rl c.io hD hrl
      (hio c (List.mem_cons_self _ _))
    simp only [read_file_calls, List.map_cons, List.chain_cons, List.mem_cons]
    generalize _example_http_read_file cfg rl priv_data (FIL.mk D fptr) buffer c.size 0 c.io = r0
      at h1 h2 h3 ⊢
    have hfile : r0.file = FIL.mk D r0.file.fptr := by
      rw [← h3]
    rw [hfile]
    obtain ⟨ih1, ih2⟩ := ih r0.read_length r0.file.fptr r0.buffer
      (fun c1 hc1 => hio c1 (List.mem_cons_of_mem _ hc1)) h2
    refine ⟨⟨h1, ih1⟩, ?_⟩
    intro r hr
    rcases hr with rfl | hr
    · exact h2
    · exact ih2 r hr

/-- C24: across every sequence of `_example_http_read_file` calls on one file
of fixed size (below `2^31`, the range of the `int` cursor), whatever the
capacities and whatever mix of successful and failed storage reads, each
successful read delivering at most the byte count it is asked for, and the
cursor starting inside the file (0 for a new run): the cursor never decreases
from one call to the next and never exceeds the file size; and a call whose
storage read fails returns 0 and leaves the cursor unchanged. -/
theorem read_file_cursor_invariant (cfg : AppConfig) (priv_data buffer D : List Char)
    (calls : List ReadCall) (rl fptr : Nat) (hD : D.length < 2147483648)
    (hrl : rl ≤ D.length)
    (hio : ∀ c ∈ calls, ∀ n, (c.io n).ret = FRESULT.FR_OK → (c.io n).byte_read ≤ n) :
    List.Chain (fun x y => x ≤ y) rl
      ((read_file_calls cfg priv_data rl (FIL.mk D fptr) buffer calls).map
        (fun r => r.read_length)) ∧
    (∀ r ∈ read_file_calls cfg priv_data rl (FIL.mk D fptr) buffer calls,
      r.read_length ≤ D.length) ∧
    ∀ (file : FIL) (buf : List Char) (size cur : Nat) (io : Nat → ReadReply),
      file.fsize ≠ cur → (∀ n, (io n).ret ≠ FRESULT.FR_OK) →
      (_example_http_read_file cfg cur priv_data file buf size 0 io).ret = 0 ∧
      (_example_http_read_file cfg cur priv_data file buf size 0 io).read_length = cur := by
  obtain ⟨h1, h2⟩ := read_file_calls_cursor cfg priv_data D hD calls rl fptr buffer hio hrl
  refine ⟨h1, h2, fun file buf size cur io hcur hfail => ?_⟩
  obtain ⟨h3, h4, -⟩ := read_file_failed_read cfg priv_data buf file size cur io hcur hfail
  exact ⟨h3, h4⟩

/-- Witness of C24: a three-byte file read through a four-byte buffer after a
two-byte literal; the first read fails, the next two succeed. -/
theorem read_file_cursor_invariant_witness :
    ['x', 'y', 'z'].length < 2147483648 ∧ 0 ≤ ['x', 'y', 'z'].length ∧
    (∀ c ∈ [ReadCall.mk 4 read_error, ReadCall.mk 4 read_in_full, ReadCall.mk 4 read_in_full],
      ∀ n, (c.io n).ret = FRESULT.FR_OK → (c.io n).byte_read ≤ n) ∧
    List.Chain (fun x y => x ≤ y) 0
      ((read_file_calls demo_app_cfg ['a', 'b'] 0 (FIL.mk ['x', 'y', 'z'] 0) []
          [ReadCall.mk 4 read_error, ReadCall.mk 4 read_in_full,
           ReadCall.mk 4 read_in_full]).map (fun r => r.read_length)) ∧
    ∀ r ∈ read_file_calls demo_app_cfg ['a', 'b'] 0 (FIL.mk ['x', 'y', 'z'] 0) []
        [ReadCall.mk 4 read_error, ReadCall.mk 4 read_in_full, ReadCall.mk 4 read_in_full],
      r.read_length ≤ ['x', 'y', 'z'].length :=
  have hio : ∀ c ∈ [ReadCall.mk 4 read_error, ReadCall.mk 4 read_in_full,
      ReadCall.mk 4 read_in_full],
      ∀ n, (c.io n).ret = FRESULT.FR_OK → (c.io n).byte_read ≤ n := by
    intro c hc n hok
    simp only [List.mem_cons, List.mem_singleton, List.not_mem_nil, or_false] at hc
    rcases hc with rfl | rfl | rfl
    · simp [read_error] at hok
    · exact le_refl _
    · exact le_refl _
  ⟨by decide, by decide, hio,
    (read_file_cursor_invariant demo_app_cfg ['a', 'b'] [] ['x', 'y', 'z'] _ 0 0
      (by decide) (by decide) hio).1,
    (read_file_cursor_invariant demo_app_cfg ['a', 'b'] [] ['x', 'y', 'z'] _ 0 0
      (by decide) (by decide) hio).2.1⟩

set_option maxRecDepth 100000 in
/-- C23 (the code at a failing input): after the upload of a three-byte file,
`start_upload_file` creates the entity of a six-byte file and the cursor is
still 3, not 0; the first `read_file` call on the new entity returns three
bytes, the first three of the file, and none of the part header. -/
theorem new_entity_keeps_stale_cursor :
    second_upload_first_read.map (fun p => (p.1.read_length, p.2.2.ret, p.2.2.read_length))
      = some (3, 3, 6) ∧
    second_upload_first_read.map (fun p => p.1.g_http_entity.priv_data.map cstr)
      = some (some demo_part_header) ∧
    second_upload_first_read.map (fun p => p.1.g_http_entity.file_object)
      = some (some (FIL.mk ['a', 'b', 'c', 'd', 'e', 'f'] 0)) ∧
    second_upload_first_read.map (fun p => p.2.2.buffer.take 3) = some ['a', 'b', 'c'] := by
  refine ⟨by decide, by decide, by decide, by decide⟩

/-- The entity `start_upload_file` creates for a file that opens: its literal
is the part header in `send_buf`, its file object the opened file; the cursor
is not touched. -/
theorem start_upload_file_entity (cfg : AppConfig) (a : App) (file_name key value : List Char)
    (file_format : fileFormat) (file : FIL) (hg : dispatch_guards cfg a = true)
    (hf : file_format ≠ fileFormat.HTTP_FILE_FORMAT_NONE) :
    (start_upload_file cfg a file_name file_format key value (some file)).g_http_entity.priv_data
      = some (start_upload_file cfg a file_name file_format key value (some file)).send_buf ∧
    (start_upload_file cfg a file_name file_format key value
      (some file)).g_http_entity.file_object = some file := by
  simp only [dispatch_guards, Bool.and_eq_true, Bool.not_eq_true'] at hg
  obtain ⟨⟨⟨h1, h2⟩, h3⟩, h4⟩ := hg
  simp [start_upload_file, h1, h2, h3, h4, hf, http_client_send_request,
    _example_http_set_default_entity]

/-- No dispatch changes the static cursor of `_example_http_read_file`. -/
theorem start_upload_file_read_length (cfg : AppConfig) (a : App)
    (file_name key value : List Char) (file_format : fileFormat) (opened : Option FIL) :
    (start_upload_file cfg a file_name file_format key value opened).read_length
      = a.read_length := by
  unfold start_upload_file http_client_send_request _example_http_set_default_entity
  cases is_state_set a.core cfg.STORAGE_READY <;>
    cases is_state_set a.core cfg.WIFI_CONNECTED <;>
    cases is_state_set a.core cfg.GET_REQUESTED <;>
    cases is_state_set a.core cfg.DOWNLOADING <;>
    cases opened <;> by_cases hf : file_format = fileFormat.HTTP_FILE_FORMAT_NONE <;>
    simp [hf]

/-- No statement resets the cursor: `_example_http_set_default_entity` and
`start_upload_file` leave `read_length` as it is. Only while the cursor is
still 0 does the first `read_file` call on the entity that `start_upload_file`
creates for a non-empty file return the part header of `send_buf` first,
followed by the first bytes of the file, as many as fit. -/
theorem new_entity_keeps_cursor (cfg : AppConfig) (a : App) (file_name key value : List Char)
    (file_format : fileFormat) (opened : Option FIL) (D buffer : List Char) (size : Nat)
    (hg : dispatch_guards cfg a = true)
    (hf : file_format ≠ fileFormat.HTTP_FILE_FORMAT_NONE)
    (hcur : a.read_length = 0) (hne : D ≠ []) (hD : D.length < 4294967296)
    (hsize : size < 2147483648)
    (hL : strlen (start_upload_file cfg a file_name file_format key value
      (some (FIL.mk D 0))).send_buf < size) :
    (_example_http_set_default_entity a).read_length = a.read_length ∧
    (start_upload_file cfg a file_name file_format key value opened).read_length
      = a.read_length ∧
    ∃ a1 r,
      entity_read_file cfg
          (start_upload_file cfg a file_name file_format key value (some (FIL.mk D 0)))
          buffer size 0 read_in_full = some (a1, r) ∧
      r.buffer.take r.ret.toNat
        = cstr (start_upload_file cfg a file_name file_format key value
            (some (FIL.mk D 0))).send_buf
          ++ D.take (min (size - strlen (start_upload_file cfg a file_name file_format key
              value (some (FIL.mk D 0))).send_buf) D.length) ∧
      a1.read_length
        = min (size - strlen (start_upload_file cfg a file_name file_format key
            value (some (FIL.mk D 0))).send_buf) D.length := by
  refine ⟨rfl, start_upload_file_read_length cfg a file_name key value file_format opened, ?_⟩
  obtain ⟨hp, hfo⟩ := start_upload_file_entity cfg a file_name key value file_format
    (FIL.mk D 0) hg hf
  have hrl := start_upload_file_read_length cfg a file_name key value file_format
    (some (FIL.mk D 0))
  rw [hcur] at hrl
  have hpos : 0 < D.length := List.length_pos.mpr hne
  generalize start_upload_file cfg a file_name file_format key value (some (FIL.mk D 0)) = a2
    at hp hfo hrl hL ⊢
  have hout := read_file_data_out cfg a2.send_buf buffer D size 0 hL hsize hD hpos
  have hcall := read_file_data_call cfg a2.send_buf buffer D size 0 hL hsize hD hpos
  simp only [if_true, List.drop_zero, Nat.sub_zero, Nat.zero_add] at hout hcall
  simp only [entity_read_file, hp, hfo, hrl]
  refine ⟨_, _, rfl, hout, ?_⟩
  simp only [hcall]

/-! ## File persistence sink: a write that succeeds -/

set_option maxRecDepth 100000 in
/-- C25 (counterexample to the claim as stated): a first packet of two bytes
arrives while `received_file_size` still holds 5; the file is created, the
write succeeds, and the received size is 2, not 7. -/
theorem store_file_packet_first_write_resets_size :
    (ready_state 100 5 []).received_file_size = 5 ∧
    is_state_set (ready_state 100 5 []) demo_cfg.DOWNLOADING = false ∧
    (store_file_packet demo_cfg (ready_state 100 5 []) (some ['a', 'b']) 2 (io_ok 2)).map
        (fun s => (s.received_file_size, s.log))
      = some (2, [FileOp.f_open_create demo_name FRESULT.FR_OK,
                  FileOp.f_write 2 FRESULT.FR_OK]) := by
  refine ⟨by decide, by decide, by decide⟩

/-- The write block when the write succeeds: the received size grows by the
bytes written; the file is closed and `COMPLETED` set exactly when the new
size has reached the expected size. -/
theorem store_file_packet_write_succeeds (cfg : Config) (t : State) (length : Nat)
    (io : StorageReply) (hw : io.f_write_ret = FRESULT.FR_OK)
    (h32 : t.received_file_size + io.wsize < 4294967296) :
    store_file_packet_write cfg t length io
      = if t.received_file_size + io.wsize ≥ t.http_file_size then
          add_state { t with received_file_size := t.received_file_size + io.wsize,
                             file_object := none,
                             log := t.log ++ [FileOp.f_write length FRESULT.FR_OK]
                               ++ [FileOp.f_close] } cfg.COMPLETED
        else { t with received_file_size := t.received_file_size + io.wsize,
                      log := t.log ++ [FileOp.f_write length FRESULT.FR_OK] } := by
  have hu : u32 ((t.received_file_size : Int) + (io.wsize : Int))
      = t.received_file_size + io.wsize := by
    unfold u32; omega
  simp only [store_file_packet_write, hw, ne_eq, not_true_eq_false, if_false]
  simp only [Nat.cast_add, hu]

/-- What the write block leaves when the write succeeds, field by field. -/
theorem store_file_packet_write_fields (cfg : Config) (t : State) (length : Nat)
    (io : StorageReply) (hC0 : cfg.COMPLETED ≠ 0) (hw : io.f_write_ret = FRESULT.FR_OK)
    (h32 : t.received_file_size + io.wsize < 4294967296) :
    (store_file_packet_write cfg t length io).received_file_size
      = t.received_file_size + io.wsize ∧
    (store_file_packet_write cfg t length io).http_file_size = t.http_file_size ∧
    (t.received_file_size + io.wsize ≥ t.http_file_size →
      (store_file_packet_write cfg t length io).log
        = t.log ++ [FileOp.f_write length FRESULT.FR_OK, FileOp.f_close] ∧
      (store_file_packet_write cfg t length io).file_object = none ∧
      is_state_set (store_file_packet_write cfg t length io) cfg.COMPLETED = true) ∧
    (¬ t.received_file_size + io.wsize ≥ t.http_file_size →
      (store_file_packet_write cfg t length io).log
        = t.log ++ [FileOp.f_write length FRESULT.FR_OK] ∧
      (store_file_packet_write cfg t length io).down_state = t.down_state) := by
  rw [store_file_packet_write_succeeds cfg t length io hw h32]
  by_cases hge : t.received_file_size + io.wsize ≥ t.http_file_size
  · rw [if_pos hge]
    refine ⟨rfl, rfl, fun _ => ⟨by simp [add_state], rfl, is_state_set_add_same _ hC0⟩,
      fun hn => absurd hge hn⟩
  · rw [if_neg hge]
    exact ⟨rfl, rfl, fun h => absurd h hge, fun _ => ⟨rfl, rfl⟩⟩

/-- C25 (amended): a `store_file_packet` call with non-empty data whose write
succeeds (the write is reached: `DOWNLOADING` is set, or the URL has a last
path segment and the file creation succeeds). The received size becomes the
base plus the bytes written, where the base is the received size at entry
when `DOWNLOADING` was set and the 0 that the creation of the session resets
it to on a first call. The call closes the file (once) and sets `COMPLETED`
when the new received size has reached the expected size; otherwise it issues
no close and leaves `COMPLETED` as it was. With an expected size of 0 the call
always closes the file and sets `COMPLETED`. -/
theorem store_file_packet_write_success (cfg : Config) (s : State) (d : List Char)
    (length : Nat) (io : StorageReply) (pre seg : List Char) (hflags : FlagsIndependent cfg)
    (hl : 1 ≤ length) (hw : io.f_write_ret = FRESULT.FR_OK)
    (hreach : is_state_set s cfg.DOWNLOADING = true ∨
      (cstr cfg.MAIN_HTTP_FILE_URL = pre ++ '/' :: seg ∧ '/' ∉ seg ∧ seg ≠ [] ∧
        io.f_open_ret = FRESULT.FR_OK))
    (h32 : (if is_state_set s cfg.DOWNLOADING then s.received_file_size else 0) + io.wsize
      < 4294967296) :
    ∃ s1, store_file_packet cfg s (some d) length io = some s1 ∧
      s1.received_file_size
        = (if is_state_set s cfg.DOWNLOADING then s.received_file_size else 0) + io.wsize ∧
      s1.http_file_size = s.http_file_size ∧
      (s1.received_file_size ≥ s1.http_file_size →
        (s1.log.drop s.log.length).count FileOp.f_close = 1 ∧ s1.file_object = none ∧
        is_state_set s1 cfg.COMPLETED = true) ∧
      (¬ s1.received_file_size ≥ s1.http_file_size →
        (s1.log.drop s.log.length).count FileOp.f_close = 0 ∧
        is_state_set s1 cfg.COMPLETED = is_state_set s cfg.COMPLETED) ∧
      (s.http_file_size = 0 →
        (s1.log.drop s.log.length).count FileOp.f_close = 1 ∧
        is_state_set s1 cfg.COMPLETED = true) := by
  obtain ⟨-, hC0, -, hDC, -, -⟩ := flags_facts hflags
  cases hD : is_state_set s cfg.DOWNLOADING with
  | true =>
    simp only [hD, if_true] at h32 ⊢
    rw [store_file_packet_receiving cfg s d length io hl hD]
    obtain ⟨h1, h2, h3, h4⟩ := store_file_packet_write_fields cfg s length io hC0 hw h32
    generalize store_file_packet_write cfg s length io = s1 at h1 h2 h3 h4 ⊢
    refine ⟨s1, rfl, h1, h2, fun hge => ?_, fun hlt => ?_, fun h0 => ?_⟩
    · obtain ⟨hlog, hfo, hc⟩ := h3 (by omega)
      exact ⟨by simp [hlog, List.count_cons], hfo, hc⟩
    · obtain ⟨hlog, hds⟩ := h4 (by omega)
      exact ⟨by simp [hlog, List.count_cons], by simp only [is_state_set, hds]⟩
    · obtain ⟨hlog, -, hc⟩ := h3 (by omega)
      exact ⟨by simp [hlog, List.count_cons], hc⟩
  | false =>
    rcases hreach with h | ⟨hurl, hseg, hne, hopen⟩
    · rw [hD] at h; exact absurd h (by decide)
    · simp only [hD, Bool.false_eq_true, if_false, Nat.zero_add] at h32 ⊢
      rw [store_file_packet_first cfg s d length io pre seg hl hD hurl hseg hne hopen]
      generalize ht : add_state { s with
          save_file_name := session_file_name cfg s pre.length,
          log := s.log ++ [FileOp.f_open_create
            (cstr (session_file_name cfg s pre.length)) FRESULT.FR_OK],
          file_object := some (cstr (session_file_name cfg s pre.length)),
          volume := if cstr (session_file_name cfg s pre.length) ∈ s.volume then s.volume
            else cstr (session_file_name cfg s pre.length) :: s.volume,
          received_file_size := 0 } cfg.DOWNLOADING = t
      have ht1 : t.received_file_size = 0 := by rw [← ht]; rfl
      have ht2 : t.http_file_size = s.http_file_size := by rw [← ht]; rfl
      have ht3 : t.log = s.log ++ [FileOp.f_open_create
          (cstr (session_file_name cfg s pre.length)) FRESULT.FR_OK] := by rw [← ht]; rfl
      have ht4 : is_state_set t cfg.COMPLETED = is_state_set s cfg.COMPLETED := by
        rw [← ht, is_state_set_add_other _ hDC]; rfl
      obtain ⟨h1, h2, h3, h4⟩ := store_file_packet_write_fields cfg t length io hC0 hw
        (by omega)
      generalize store_file_packet_write cfg t length io = s1 at h1 h2 h3 h4 ⊢
      rw [ht1, Nat.zero_add] at h1
      refine ⟨s1, rfl, h1, h2.trans ht2, fun hge => ?_, fun hlt => ?_, fun h0 => ?_⟩
      · obtain ⟨hlog, hfo, hc⟩ := h3 (by omega)
        exact ⟨by simp [hlog, ht3, List.count_cons], hfo, hc⟩
      · obtain ⟨hlog, hds⟩ := h4 (by omega)
        refine ⟨by simp [hlog, ht3, List.count_cons], ?_⟩
        rw [← ht4]
        simp only [is_state_set, hds]
      · obtain ⟨hlog, -, hc⟩ := h3 (by omega)
        exact ⟨by simp [hlog, ht3, List.count_cons], hc⟩

/-- Witness of C25 (amended): the first packet of a transfer, two bytes of an
expected hundred, written in full. -/
theorem store_file_packet_write_success_witness :
    FlagsIndependent demo_cfg ∧ (io_ok 2).f_write_ret = FRESULT.FR_OK ∧
    ∃ s1, store_file_packet demo_cfg (ready_state 100 5 []) (some ['a', 'b']) 2 (io_ok 2)
        = some s1 ∧
      s1.received_file_size
        = (if is_state_set (ready_state 100 5 []) demo_cfg.DOWNLOADING
            then (ready_state 100 5 []).received_file_size else 0) + (io_ok 2).wsize ∧
      s1.http_file_size = (ready_state 100 5 []).http_file_size ∧
      (s1.received_file_size ≥ s1.http_file_size →
        (s1.log.drop (ready_state 100 5 []).log.length).count FileOp.f_close = 1 ∧
        s1.file_object = none ∧ is_state_set s1 demo_cfg.COMPLETED = true) ∧
      (¬ s1.received_file_size ≥ s1.http_file_size →
        (s1.log.drop (ready_state 100 5 []).log.length).count FileOp.f_close = 0 ∧
        is_state_set s1 demo_cfg.COMPLETED
          = is_state_set (ready_state 100 5 []) demo_cfg.COMPLETED) ∧
      ((ready_state 100 5 []).http_file_size = 0 →
        (s1.log.drop (ready_state 100 5 []).log.length).count FileOp.f_close = 1 ∧
        is_state_set s1 demo_cfg.COMPLETED = true) :=
  ⟨by decide, by decide,
    store_file_packet_write_success demo_cfg (ready_state 100 5 []) ['a', 'b'] 2 (io_ok 2)
      "http://www.microchip.com/Images".toList
      "45093A-SmartConnectWINC1500_E_US_101014_web.pdf".toList
      (by decide) (by decide) (by decide)
      (Or.inr ⟨by decide, by decide, by decide, by decide⟩) (by decide)⟩

end Main21
